import Mathlib

/-!
# STM32 Desktop Drumkit: button gesture FSM, pad force measurement, MIDI note scheduler

A shallow embedding of `Components/Src/OneButtonTiny.cpp`, `Components/Src/pad.cpp`
and `Components/Src/midi.cpp`, and theorems about it.

Conventions of the embedding.

* `uint32_t` tick values are natural numbers; the one arithmetic operation the
  code performs on them, the difference of two ticks, wraps modulo `2 ^ 32`
  (`sub32`).
* A member function becomes a function from the object before the call (and
  the values read from the hardware during the call: the tick counter, the ADC
  sample) to the object after the call, paired with what the call emitted or
  returned.
* A callback slot (`callbackFunction`, a C function pointer) is embedded as a
  `Bool`: `true` when a function is attached, `false` when the slot is `NULL`.
-/

/-- Difference `a - b` of two `uint32_t` values, as the C code computes it. -/
def sub32 (a b : Nat) : Nat := (a + 4294967296 - b % 4294967296) % 4294967296

/-! ## OneButtonTiny -/

/-- The four event kinds a button can report, one per callback slot. -/
inductive Callback where
  | click
  | doubleClick
  | multiClick
  | longPressStart
  deriving DecidableEq, Repr

/-- The statement `if (f) f();`: the callback of kind `k` is called when its
slot `f` holds a function, and nothing is called when the slot is `NULL`. -/
def callSlot (f : Bool) (k : Callback) : List Callback :=
  if f then [k] else []

/-- The members of class `OneButtonTiny` that `debounce`, `_fsm` and `reset` use.
`_state` is the `int`-based `stateMachine_t`; `_nClicks` is an `int`. -/
structure OneButtonTiny where
  _debounce_ms : Nat
  _click_ms : Nat
  _press_ms : Nat
  _multiClick_ms : Nat
  _clickFunc : Bool
  _doubleClickFunc : Bool
  _multiClickFunc : Bool
  _longPressStartFunc : Bool
  _state : Int
  debouncedPinLevel : Int
  _lastDebouncePinLevel : Int
  _lastDebounceTime : Nat
  now : Nat
  _startTime : Nat
  _nClicks : Int
  deriving DecidableEq, Repr

namespace OneButtonTiny

def OCS_INIT : Int := 0
def OCS_DOWN : Int := 1
def OCS_UP : Int := 2
def OCS_COUNT : Int := 3
def OCS_PRESS : Int := 6
def OCS_PRESSEND : Int := 7

/-- The object after construction, with the default member initializers of
`OneButtonTiny.h` (no callback attached). -/
def init : OneButtonTiny where
  _debounce_ms := 50
  _click_ms := 400
  _press_ms := 800
  _multiClick_ms := 600
  _clickFunc := false
  _doubleClickFunc := false
  _multiClickFunc := false
  _longPressStartFunc := false
  _state := OCS_INIT
  debouncedPinLevel := -1
  _lastDebouncePinLevel := -1
  _lastDebounceTime := 0
  now := 0
  _startTime := 0
  _nClicks := 0

/-- `OneButtonTiny::reset`. -/
def reset (b : OneButtonTiny) : OneButtonTiny :=
  { b with _state := OCS_INIT, _nClicks := 0, _startTime := 0 }

/-- `OneButtonTiny::_newState`. -/
def _newState (b : OneButtonTiny) (nextState : Int) : OneButtonTiny :=
  { b with _state := nextState }

/-- `OneButtonTiny::debounce(value)`; `tick` is the value `HAL_GetTick()` returns.
The result is the object after the call and the returned level. -/
def debounce (b : OneButtonTiny) (tick : Nat) (value : Int) : OneButtonTiny × Int :=
  let b1 := { b with now := tick }
  let b2 :=
    if b1._lastDebouncePinLevel = value then
      if sub32 b1.now b1._lastDebounceTime ≥ b1._debounce_ms then
        { b1 with debouncedPinLevel := value }
      else b1
    else
      { b1 with _lastDebounceTime := b1.now, _lastDebouncePinLevel := value }
  (b2, b2.debouncedPinLevel)

/-- `OneButtonTiny::_fsm(activeLevel)`. The result is the object after the call
and the callbacks called during it, in order. -/
def _fsm (b : OneButtonTiny) (activeLevel : Bool) : OneButtonTiny × List Callback :=
  let waitTime := sub32 b.now b._startTime
  if b._state = OCS_INIT then
    if activeLevel then
      ({ (_newState b OCS_DOWN) with _startTime := b.now, _nClicks := 0 }, [])
    else (b, [])
  else if b._state = OCS_DOWN then
    if !activeLevel then
      ({ (_newState b OCS_UP) with _startTime := b.now }, [])
    else if activeLevel && decide (waitTime > b._press_ms) then
      (_newState b OCS_PRESS, callSlot b._longPressStartFunc Callback.longPressStart)
    else (b, [])
  else if b._state = OCS_UP then
    (_newState { b with _nClicks := b._nClicks + 1 } OCS_COUNT, [])
  else if b._state = OCS_COUNT then
    if activeLevel then
      ({ (_newState b OCS_DOWN) with _startTime := b.now }, [])
    else if (decide (b._nClicks > 2) && decide (waitTime ≥ b._multiClick_ms))
        || (decide (b._nClicks ≤ 2) && decide (waitTime ≥ b._click_ms)) then
      let calls :=
        if b._nClicks = 1 then callSlot b._clickFunc Callback.click
        else if b._nClicks = 2 then callSlot b._doubleClickFunc Callback.doubleClick
        else if b._nClicks > 2 then callSlot b._multiClickFunc Callback.multiClick
        else []
      (reset b, calls)
    else (b, [])
  else if b._state = OCS_PRESS then
    if !activeLevel then
      ({ (_newState b OCS_PRESSEND) with _startTime := b.now }, [])
    else (b, [])
  else if b._state = OCS_PRESSEND then
    (reset b, [])
  else
    (_newState b OCS_INIT, [])

end OneButtonTiny

/-- One step of the button driven by an already stabilized level: the tick
counter is sampled into `now` (as `debounce` does at the start of every `tick`)
and `_fsm` runs on the level. -/
def fsmAt (b : OneButtonTiny) (step : Bool × Nat) : OneButtonTiny × List Callback :=
  OneButtonTiny._fsm { b with now := step.2 } step.1

/-- A sequence of `fsmAt` steps: the final object and all callbacks called, in order. -/
def runFsm (b : OneButtonTiny) : List (Bool × Nat) → OneButtonTiny × List Callback
  | [] => (b, [])
  | step :: rest =>
    let r := fsmAt b step
    let r2 := runFsm r.1 rest
    (r2.1, r.2 ++ r2.2)

/-- The number of gesture callbacks a button can still invoke before its next
visit to INIT: none once a long press has started, one otherwise. -/
def callBudget (b : OneButtonTiny) : Nat :=
  if b._state = OneButtonTiny.OCS_PRESS ∨ b._state = OneButtonTiny.OCS_PRESSEND then 0 else 1

/-! ## Pad -/

inductive ForceMappingCurve where
  | CURVE_LINEAR
  | CURVE_LOG
  | CURVE_EXP
  deriving DecidableEq, Repr

def ADC_MEASURING_WINDOW_MS : Nat := 18

/-- The members of class `Pad` that hit detection and force measurement use.
`_last_adc_measuring_state` is a `uint32_t` that the code compares with and
assigns from the `bool` `_adc_measuring`. -/
structure Pad where
  _force : Nat
  _force_curve : ForceMappingCurve
  _last_trigger_state : Bool
  _pad_id : Nat
  _hit_threshold : Nat
  _upper_limit : Nat
  _peak_val : Nat
  _adc_measuring : Bool
  _measurement_cplt : Bool
  _adc_measuring_start_time : Nat
  _last_adc_measuring_state : Nat
  deriving DecidableEq, Repr

/-- The floating-point section of `Pad::_force_map` (the normalisation
`(float)(adc_val - _hit_threshold) / (float)orig_delta` and the `switch` over the
curve): `fp curve num den` is the value of `temp` after the `switch` when
`num = adc_val - _hit_threshold` and `den = orig_delta`. A `float` is a dyadic
rational, hence the codomain. The value depends on the rounding of the target
and on its `log` and `pow`, which the source does not fix, so it is a
parameter of the embedding. -/
abbrev CurveEval : Type := ForceMappingCurve → Nat → Nat → ℚ

namespace Pad

/-- `Pad::Pad`, for the calibration the constructor receives. -/
def init (pad_id hit_threshold upper_limit : Nat) (force_curve : ForceMappingCurve) : Pad where
  _force := 0
  _force_curve := force_curve
  _last_trigger_state := false
  _pad_id := pad_id
  _hit_threshold := hit_threshold
  _upper_limit := upper_limit
  _peak_val := 0
  _adc_measuring := false
  _measurement_cplt := false
  _adc_measuring_start_time := 0
  _last_adc_measuring_state := 0

/-- `Pad::_isHit`, for the ADC sample `v` that `_getADCVal()` reads. -/
def _isHit (p : Pad) (v : Nat) : Bool := decide (v > p._hit_threshold)

/-- `Pad::_force_map`. `orig_delta` is a `uint16_t`: the difference wraps modulo
`2 ^ 16`. The final `(uint8_t)temp` truncates. -/
def _force_map (fp : CurveEval) (p : Pad) (adc_val : Nat) : Nat :=
  if adc_val ≤ p._hit_threshold then 1
  else
    let orig_delta := (p._upper_limit + 65536 - p._hit_threshold % 65536) % 65536
    if orig_delta ≤ 0 then 1
    else
      let temp := fp p._force_curve (adc_val - p._hit_threshold) orig_delta
      let temp := if temp ≥ 126.5 then 127 else temp
      (Int.toNat ⌊temp⌋) % 256

/-- `Pad::detectHit`, for the ADC sample `v`. -/
def detectHit (p : Pad) (v : Nat) : Pad :=
  let current_hit := _isHit p v
  if current_hit && !p._adc_measuring then
    { p with _adc_measuring := true, _peak_val := 0 }
  else p

/-- `Pad::isTriggered`, for the ADC sample `v`. -/
def isTriggered (p : Pad) (v : Nat) : Pad × Bool :=
  let current_hit := _isHit p v
  let triggered := current_hit && !p._last_trigger_state
  ({ p with _last_trigger_state := current_hit }, triggered)

/-- `Pad::resetMeasurementCplt`. -/
def resetMeasurementCplt (p : Pad) : Pad := { p with _measurement_cplt := false }

/-- `Pad::measureForce`, for the tick `now` that `HAL_GetTick()` returns and the
ADC sample `v`. `pad.h` defines `PEAK_CHK_DBG` (inside `getPeak_DBG`), so the
`#ifndef PEAK_CHK_DBG` block that would clear `_peak_val` is not compiled. -/
def measureForce (fp : CurveEval) (p : Pad) (now : Nat) (v : Nat) : Pad :=
  if p._adc_measuring then
    let p1 :=
      if p._last_adc_measuring_state ≠ (if p._adc_measuring then 1 else 0) then
        { p with _adc_measuring_start_time := now }
      else p
    let val := v
    let p2 := { p1 with _peak_val := if p1._peak_val > val then p1._peak_val else val }
    let current_hit := _isHit p2 v
    let p3 :=
      if !current_hit && decide (sub32 now p2._adc_measuring_start_time > ADC_MEASURING_WINDOW_MS) then
        let p4 :=
          if p2._peak_val ≥ p2._upper_limit then { p2 with _force := 127 }
          else { p2 with _force := _force_map fp p2 p2._peak_val }
        { p4 with _adc_measuring := false, _measurement_cplt := true }
      else p2
    { p3 with _last_adc_measuring_state := if p3._adc_measuring then 1 else 0 }
  else p

end Pad

/-! ## Midi -/

abbrev MIDI_CHANNELS_NUM : Nat := 10
def NOTEOFF_DELAY_MS : Nat := 20
def MIDI_CHANNEL_ID : Nat := 10

/-- `Midi::ChnState`. -/
structure ChnState where
  noteOn_sent : Bool
  noteOn_timestamp : Nat
  note : Nat
  channel : Nat
  deriving DecidableEq, Repr

/-- The members of class `Midi`. -/
structure Midi where
  _channel_states : Fin MIDI_CHANNELS_NUM → ChnState
  _ack : Bool
  _connected : Bool

/-- A call of a `Midi` member function: the object after the call, the value
returned, and the bytes passed to `_sendByte` during the call, in order. -/
structure MidiCall where
  midi : Midi
  ret : Bool
  requested : List Nat

/-- The expression `status | ((channel - 1) & 0x0F)`; `channel` is a `uint8_t`
promoted to `int`, so `channel - 1` is `-1` for channel `0`. -/
def statusByte (status channel : Nat) : Nat :=
  status ||| (Int.land ((channel : Int) - 1) 0x0F).toNat

namespace Midi

/-- `Midi::_PAD_MIDI_NOTE_MAP`, indexed by `Pad::PadID`. -/
def _PAD_MIDI_NOTE_MAP (padID : Fin MIDI_CHANNELS_NUM) : Nat :=
  [46, 42, 49, 51, 37, 35, 38, 48, 45, 50].getD padID.val 0

/-- `Midi::Midi`. -/
def init : Midi where
  _channel_states := fun i =>
    { noteOn_sent := false, noteOn_timestamp := 0, note := _PAD_MIDI_NOTE_MAP i,
      channel := MIDI_CHANNEL_ID }
  _ack := true
  _connected := false

/-- `Midi::_sendByte`. The loop waits for `_ack`, which the interrupt handler
`HAL_GPIO_EXTI_Callback` sets; `ackInTime` tells whether the handler runs before
`MIDI_SEND_TIMEOUT_MS` has elapsed. The result is the object after the call and
the value returned. -/
def _sendByte (m : Midi) (ackInTime : Bool) : Midi × Bool :=
  if m._ack || ackInTime then ({ m with _ack := false }, true)
  else ({ m with _connected := false }, false)

/-- `Midi::isConnected`; `pinReset` tells whether the `USB_RDY` pin reads
`GPIO_PIN_RESET`. -/
def isConnected (m : Midi) (pinReset : Bool) : Midi × Bool :=
  ({ m with _connected := pinReset }, pinReset)

/-- The loop of `sendNoteOn` from byte `i` on:
`if (!_sendByte(midi_msg[i])) { _connected = false; return false; }`.
`acks i` is the `ackInTime` of the `i`-th `_sendByte` call. -/
def sendNoteOnLoop (acks : Nat → Bool) : Midi → Nat → List Nat → MidiCall
  | m, _, [] => { midi := m, ret := true, requested := [] }
  | m, i, byte :: rest =>
    let r := _sendByte m (acks i)
    if !r.2 then { midi := { r.1 with _connected := false }, ret := false, requested := [byte] }
    else
      let c := sendNoteOnLoop acks r.1 (i + 1) rest
      { c with requested := byte :: c.requested }

/-- `Midi::sendNoteOn`. `padID` indexes `_PAD_MIDI_NOTE_MAP` and `_channel_states`
without a bounds check, so it ranges over the ten pads. `tick` is the value
`HAL_GetTick()` returns after the bytes are sent. -/
def sendNoteOn (m : Midi) (acks : Nat → Bool) (tick : Nat)
    (padID : Fin MIDI_CHANNELS_NUM) (velocity channel : Nat) : MidiCall :=
  if !m._connected then { midi := m, ret := false, requested := [] }
  else
    let note := _PAD_MIDI_NOTE_MAP padID
    let midi_msg := [statusByte 0x90 channel, note &&& 0x7F, velocity &&& 0x7F]
    let c := sendNoteOnLoop acks m 0 midi_msg
    if !c.ret then c
    else
      let st : ChnState :=
        { noteOn_sent := true, noteOn_timestamp := tick, note := note, channel := channel }
      { c with midi := { c.midi with _channel_states := Function.update c.midi._channel_states padID st } }

/-- The loop of `sendNoteOff(Pad::PadID)` from byte `i` on: `_sendByte(midi_msg[i]);`
with the returned value ignored. -/
def sendNoteOffLoop (acks : Nat → Bool) : Midi → Nat → List Nat → Midi
  | m, _, [] => m
  | m, i, _ :: rest => sendNoteOffLoop acks (_sendByte m (acks i)).1 (i + 1) rest

/-- `Midi::sendNoteOff(Pad::PadID)`. The result is the object after the call and
the bytes passed to `_sendByte`. -/
def sendNoteOff (m : Midi) (acks : Nat → Bool) (padID : Nat) : Midi × List Nat :=
  if h : padID < MIDI_CHANNELS_NUM then
    let st := m._channel_states ⟨padID, h⟩
    if !st.noteOn_sent then (m, [])
    else
      let midi_msg := [statusByte 0x80 st.channel, st.note &&& 0x7F, 0x00]
      let m1 := sendNoteOffLoop acks m 0 midi_msg
      let st1 : ChnState := { (m1._channel_states ⟨padID, h⟩) with noteOn_sent := false }
      ({ m1 with _channel_states := Function.update m1._channel_states ⟨padID, h⟩ st1 }, midi_msg)
  else (m, [])

/-- The body of the loop of `autoNoteOff` for channel `id`, on the object and the
bytes requested so far. `acks id` are the `ackInTime` values for the bytes of
channel `id`. -/
def autoNoteOffStep (acks : Fin MIDI_CHANNELS_NUM → Nat → Bool) (now : Nat)
    (acc : Midi × List Nat) (id : Fin MIDI_CHANNELS_NUM) : Midi × List Nat :=
  if (acc.1._channel_states id).noteOn_sent then
    let elapsed := sub32 now (acc.1._channel_states id).noteOn_timestamp
    if elapsed > NOTEOFF_DELAY_MS then
      let r := sendNoteOff acc.1 (acks id) id.val
      (r.1, acc.2 ++ r.2)
    else acc
  else acc

/-- `Midi::autoNoteOff`, for the tick `now` that `HAL_GetTick()` returns. -/
def autoNoteOff (m : Midi) (acks : Fin MIDI_CHANNELS_NUM → Nat → Bool) (now : Nat) :
    Midi × List Nat :=
  (List.finRange MIDI_CHANNELS_NUM).foldl (autoNoteOffStep acks now) (m, [])

end Midi

/-- The test of `autoNoteOff` on one channel: the flag is set and more than
`NOTEOFF_DELAY_MS` have elapsed since the Note On. -/
def offDue (st : ChnState) (now : Nat) : Bool :=
  st.noteOn_sent && decide (sub32 now st.noteOn_timestamp > NOTEOFF_DELAY_MS)

/-- The Note Off message built from a channel state. -/
def noteOffMsg (st : ChnState) : List Nat :=
  [statusByte 0x80 st.channel, st.note &&& 0x7F, 0x00]

/-! ## Traces of scheduler calls -/

/-- A call made on the scheduler, with the values the call reads from the
hardware while it runs. -/
inductive MidiOp where
  | isConnected (pinReset : Bool)
  | sendNoteOn (acks : Nat → Bool) (tick : Nat) (padID : Fin MIDI_CHANNELS_NUM)
      (velocity channel : Nat)
  | sendNoteOff (acks : Nat → Bool) (padID : Nat)
  | autoNoteOff (acks : Fin MIDI_CHANNELS_NUM → Nat → Bool) (now : Nat)

namespace MidiOp

/-- The object after the call and the bytes the call requested. -/
def apply (m : Midi) : MidiOp → Midi × List Nat
  | isConnected pinReset => ((Midi.isConnected m pinReset).1, [])
  | sendNoteOn acks tick padID velocity channel =>
    ((Midi.sendNoteOn m acks tick padID velocity channel).midi,
     (Midi.sendNoteOn m acks tick padID velocity channel).requested)
  | sendNoteOff acks padID => Midi.sendNoteOff m acks padID
  | autoNoteOff acks now => Midi.autoNoteOff m acks now

/-- Whether the call is a `sendNoteOn` for pad `p` that returns true. -/
def noteOnOk (m : Midi) (p : Fin MIDI_CHANNELS_NUM) : MidiOp → Bool
  | sendNoteOn acks tick padID velocity channel =>
    decide (padID = p) && (Midi.sendNoteOn m acks tick padID velocity channel).ret
  | _ => false

end MidiOp

/-- The scheduler after a sequence of calls. -/
def runOps (m : Midi) : List MidiOp → Midi
  | [] => m
  | op :: rest => runOps (op.apply m).1 rest

/-- The number of Note Off messages (status `0x8n`) for note number `note` in the
bytes requested by one call, read as 3-byte messages. -/
def noteOffCount (note : Nat) : List Nat → Nat
  | status :: n :: _ :: rest =>
    (if status / 16 = 8 ∧ n = note then 1 else 0) + noteOffCount note rest
  | _ => 0

/-- The number of successful Note Ons for pad `p` in a sequence of calls. -/
def onsCount (p : Fin MIDI_CHANNELS_NUM) (m : Midi) : List MidiOp → Nat
  | [] => 0
  | op :: rest => (if op.noteOnOk m p then 1 else 0) + onsCount p (op.apply m).1 rest

/-- The number of Note Off messages requested for pad `p` (for its note number)
in a sequence of calls. -/
def offsCount (p : Fin MIDI_CHANNELS_NUM) (m : Midi) : List MidiOp → Nat
  | [] => 0
  | op :: rest =>
    noteOffCount (Midi._PAD_MIDI_NOTE_MAP p) (op.apply m).2 + offsCount p (op.apply m).1 rest

/-- The number of successful Note Ons for pad `p` issued while the pad's
`noteOn_sent` flag was already set. -/
def retriggerCount (p : Fin MIDI_CHANNELS_NUM) (m : Midi) : List MidiOp → Nat
  | [] => 0
  | op :: rest =>
    (if op.noteOnOk m p && (m._channel_states p).noteOn_sent then 1 else 0)
      + retriggerCount p (op.apply m).1 rest

/-- The note and channel recorded by the last successful `sendNoteOn` for pad `p`
in a sequence of calls (`acc` when there is none). -/
def lastNoteOn (p : Fin MIDI_CHANNELS_NUM) (acc : Option (Nat × Nat)) (m : Midi) :
    List MidiOp → Option (Nat × Nat)
  | [] => acc
  | MidiOp.sendNoteOn acks tick padID velocity channel :: rest =>
    lastNoteOn p
      (if padID = p ∧ (Midi.sendNoteOn m acks tick padID velocity channel).ret = true then
        some (Midi._PAD_MIDI_NOTE_MAP padID, channel)
       else acc)
      (Midi.sendNoteOn m acks tick padID velocity channel).midi rest
  | op :: rest => lastNoteOn p acc (op.apply m).1 rest

/-- Whether a call is an `isConnected` call. -/
def MidiOp.isConnectedCall : MidiOp → Bool
  | MidiOp.isConnected _ => true
  | _ => false

/-! ## Single-precision arithmetic of `_force_map` -/

/-- Rounding of a rational to the nearest integer, ties to the even one. -/
def roundHalfEven (q : ℚ) : ℤ :=
  if q - ⌊q⌋ < 1 / 2 then ⌊q⌋
  else if 1 / 2 < q - ⌊q⌋ then ⌊q⌋ + 1
  else if ⌊q⌋ % 2 = 0 then ⌊q⌋ else ⌊q⌋ + 1

/-- Rounding to IEEE-754 single precision (`float`): the nearest value with a
24-bit significand, ties to even. The exponent range is not modelled; every
value `_force_map` computes lies between `2 ^ (-24)` and `2 ^ 24`. -/
def rnd32 (x : ℚ) : ℚ :=
  if x = 0 then 0
  else roundHalfEven (x / 2 ^ (Int.log 2 (abs x) - 23)) * 2 ^ (Int.log 2 (abs x) - 23)

/-- The `float` sum `x + y`. -/
def fadd (x y : ℚ) : ℚ := rnd32 (x + y)

/-- The `float` product `x * y`. -/
def fmul (x y : ℚ) : ℚ := rnd32 (x * y)

/-- The `float` quotient `x / y`. -/
def fdiv (x y : ℚ) : ℚ := rnd32 (x / y)

/-- The two functions of the C library that `_force_map` calls, on `float`
arguments. They are not part of the repository and are parameters. -/
structure Libm where
  log : ℚ → ℚ
  pow : ℚ → ℚ → ℚ

/-- The floating-point section of `Pad::_force_map` in single precision: the
normalisation `(float)(adc_val - _hit_threshold) / (float)orig_delta` and the
`switch` over the curve, each operation rounded to `float`; `num` is
`adc_val - _hit_threshold` and `den` is `orig_delta`. -/
def floatCurve (L : Libm) : CurveEval := fun curve num den =>
  let temp := fdiv (rnd32 (num : ℚ)) (rnd32 (den : ℚ))
  let mapped_delta : ℚ := 126
  match curve with
  | ForceMappingCurve.CURVE_LINEAR => fadd (fmul temp mapped_delta) 1
  | ForceMappingCurve.CURVE_LOG =>
    fadd (fmul (fdiv (L.log (fadd 1 (fmul temp 9))) (L.log 10)) mapped_delta) 1
  | ForceMappingCurve.CURVE_EXP => fadd (fmul (L.pow temp (3 / 2)) mapped_delta) 1

/-! ## The main loop, for one pad -/

/-- One iteration of the pad loop of `cpp_main` for one pad, at tick `now` with
ADC sample `v`: `detectHit`, `isTriggered` (which sets `triggered[i]`),
`measureForce` while `triggered[i]`, and on `isMeasurementCplt` the hand-over of
`getForce()` followed by `resetMeasurementCplt` and `triggered[i] = false`. The
state is the pad and `triggered[i]`; the result also holds the force of the
measurement completed in this iteration, if any. -/
def padLoopStep (fp : CurveEval) (s : Pad × Bool) (now v : Nat) : (Pad × Bool) × Option Nat :=
  let p1 := Pad.detectHit s.1 v
  let r := Pad.isTriggered p1 v
  let triggered := if r.2 then true else s.2
  let p2 := if triggered then Pad.measureForce fp r.1 now v else r.1
  if p2._measurement_cplt then
    ((Pad.resetMeasurementCplt p2, false), some p2._force)
  else ((p2, triggered), none)

/-- The pad loop over a sequence of (tick, sample) pairs: the final state and the
forces of the completed measurements, in order. -/
def padLoopRun (fp : CurveEval) (s : Pad × Bool) : List (Nat × Nat) → (Pad × Bool) × List Nat
  | [] => (s, [])
  | (now, v) :: rest =>
    let r := padLoopStep fp s now v
    let r2 := padLoopRun fp r.1 rest
    (r2.1, (match r.2 with | some f => [f] | none => []) ++ r2.2)

/-! ## Sequences of `debounce` calls -/

/-- A sequence of `debounce` calls, each a (tick, sample) pair: the final object
and the levels returned, in order. -/
def debounceRun (b : OneButtonTiny) : List (Nat × Int) → OneButtonTiny × List Int
  | [] => (b, [])
  | (tick, sample) :: rest =>
    let r := OneButtonTiny.debounce b tick sample
    let r2 := debounceRun r.1 rest
    (r2.1, r.2 :: r2.2)

/-- The raw sample never stays equal for `_debounce_ms`: every call whose sample
equals `_lastDebouncePinLevel` comes less than `_debounce_ms` after
`_lastDebounceTime`. -/
def neverSettles (b : OneButtonTiny) : List (Nat × Int) → Prop
  | [] => True
  | (tick, sample) :: rest =>
    (sample = b._lastDebouncePinLevel → sub32 tick b._lastDebounceTime < b._debounce_ms) ∧
    neverSettles (OneButtonTiny.debounce b tick sample).1 rest

instance neverSettles.decidable :
    ∀ (b : OneButtonTiny) (calls : List (Nat × Int)), Decidable (neverSettles b calls)
  | _, [] => isTrue trivial
  | b, (tick, sample) :: rest =>
    have := neverSettles.decidable (OneButtonTiny.debounce b tick sample).1 rest
    inferInstanceAs (Decidable
      ((sample = b._lastDebouncePinLevel → sub32 tick b._lastDebounceTime < b._debounce_ms) ∧
        neverSettles (OneButtonTiny.debounce b tick sample).1 rest))

/-! ## Button scenarios -/

/-- The steps of one tap: the press at `tPress`, further steps with the level
still active at the times `holds`, the release at `tRelease`, the step that
follows it (spent in UP, whatever its level), and further steps with the level
inactive at the times `waits`. -/
def tapSteps (tPress : Nat) (holds : List Nat) (tRelease : Nat) (transit : Bool × Nat)
    (waits : List Nat) : List (Bool × Nat) :=
  (true, tPress) :: holds.map (fun t => (true, t)) ++
    (false, tRelease) :: transit :: waits.map (fun t => (false, t))

/-- A level that is active on every step from `t0` to `t0 + 50` and inactive
afterwards, in `n` steps at 1 ms intervals starting at `t0`. -/
def heldSteps (t0 n : Nat) : List (Bool × Nat) :=
  (List.range n).map (fun i => (decide (i ≤ 50), t0 + i))

/-! ## Sequences of calls on a button -/

/-- A call on a button: an `_fsm` step on a level at a tick, or `reset()`. -/
inductive ButtonOp where
  | fsm (activeLevel : Bool) (tick : Nat)
  | reset
  deriving DecidableEq, Repr

/-- The button after one call. -/
def ButtonOp.apply (b : OneButtonTiny) : ButtonOp → OneButtonTiny
  | ButtonOp.fsm activeLevel tick => (fsmAt b (activeLevel, tick)).1
  | ButtonOp.reset => OneButtonTiny.reset b

/-- The button after a sequence of calls. -/
def runButtonOps (b : OneButtonTiny) : List ButtonOp → OneButtonTiny
  | [] => b
  | op :: rest => runButtonOps (ButtonOp.apply b op) rest

/-- `OneButtonTiny::tick(bool activeLevel)`, whose body is
`_fsm(debounce(activeLevel));`. The `bool` argument converts to the `int`
parameter of `debounce` (`0` or `1`), and the `int` that `debounce` returns
converts to the `bool` parameter of `_fsm` (every nonzero value is `true`).
`t` is the value `HAL_GetTick()` returns. -/
def OneButtonTiny.tick (b : OneButtonTiny) (t : Nat) (activeLevel : Bool) :
    OneButtonTiny × List Callback :=
  let r := OneButtonTiny.debounce b t (if activeLevel then 1 else 0)
  OneButtonTiny._fsm r.1 (decide (r.2 ≠ 0))

/-- A sequence of `tick(bool)` calls, each a (tick, level) pair: the final object
and all callbacks called, in order. -/
def tickRun (b : OneButtonTiny) : List (Nat × Bool) → OneButtonTiny × List Callback
  | [] => (b, [])
  | (t, level) :: rest =>
    let r := OneButtonTiny.tick b t level
    let r2 := tickRun r.1 rest
    (r2.1, r.2 ++ r2.2)

/-- The steps of a hold: the press, steps with the level still active, the step
at which the hold is recognised, further steps with the level active, the
release and the step after it. -/
def holdSteps (tPress : Nat) (holds : List Nat) (tLong : Nat) (pressed : List Nat)
    (tRelease : Nat) (final : Bool × Nat) : List (Bool × Nat) :=
  (true, tPress) :: (holds.map (fun t => (true, t)) ++
    (true, tLong) :: (pressed.map (fun t => (true, t)) ++ [(false, tRelease), final]))

/-! ## Sequences of calls on a pad -/

/-- A call on a pad, with the values it reads from the hardware: the ADC sample
`v` and, for `measureForce`, the tick `now`. -/
inductive PadOp where
  | detectHit (v : Nat)
  | isTriggered (v : Nat)
  | measureForce (now v : Nat)
  | resetMeasurementCplt
  deriving DecidableEq, Repr

/-- The pad after one call. -/
def PadOp.apply (fp : CurveEval) (p : Pad) : PadOp → Pad
  | PadOp.detectHit v => Pad.detectHit p v
  | PadOp.isTriggered v => (Pad.isTriggered p v).1
  | PadOp.measureForce now v => Pad.measureForce fp p now v
  | PadOp.resetMeasurementCplt => Pad.resetMeasurementCplt p

/-- The pad after a sequence of calls. -/
def runPadOps (fp : CurveEval) (p : Pad) : List PadOp → Pad
  | [] => p
  | op :: rest => runPadOps fp (PadOp.apply fp p op) rest

/-- Whether a call is `measureForce`. -/
def PadOp.isMeasure : PadOp → Bool
  | PadOp.measureForce _ _ => true
  | _ => false

/-- Whether a call is `resetMeasurementCplt`. -/
def PadOp.isReset : PadOp → Bool
  | PadOp.resetMeasurementCplt => true
  | _ => false

/-- The samples that the `measureForce` calls of a sequence read, in order. -/
def measuredSamples : List PadOp → List Nat
  | [] => []
  | PadOp.measureForce _ v :: rest => v :: measuredSamples rest
  | PadOp.detectHit _ :: rest => measuredSamples rest
  | PadOp.isTriggered _ :: rest => measuredSamples rest
  | PadOp.resetMeasurementCplt :: rest => measuredSamples rest

/-- The pad is measuring before the sequence and after each of its calls: no call
of the sequence finalizes the measurement in progress. -/
def measuringThroughout (fp : CurveEval) (p : Pad) : List PadOp → Bool
  | [] => p._adc_measuring
  | op :: rest => p._adc_measuring && measuringThroughout fp (PadOp.apply fp p op) rest

/-- The pad after the first `measureForce` call (tick `t1`, sample `v1`) of the
measurement that `detectHit` starts on pad `p` with sample `v0`; `pre` are the
calls made in between. -/
def windowOpened (fp : CurveEval) (p : Pad) (v0 : Nat) (pre : List PadOp) (t1 v1 : Nat) : Pad :=
  Pad.measureForce fp (runPadOps fp (Pad.detectHit p v0) pre) t1 v1

/-! ## The force mapping of the specification -/

/-- The mapping of the specification, in exact real arithmetic:
`t = clamp01((peak - hitThreshold) / (upperLimit - hitThreshold))`, then
`126 * t + 1` (LINEAR), `126 * log10(1 + 9 * t) + 1` (LOG) or `126 * t ^ 1.5 + 1`
(EXP); values from 126.5 on saturate to 127, and the result truncates to an
integer otherwise. -/
noncomputable def specForceMap (curve : ForceMappingCurve)
    (hitThreshold upperLimit peak : Nat) : Nat :=
  let t : ℝ :=
    max 0 (min 1 (((peak : ℝ) - (hitThreshold : ℝ)) / ((upperLimit : ℝ) - (hitThreshold : ℝ))))
  let y : ℝ :=
    match curve with
    | ForceMappingCurve.CURVE_LINEAR => 126 * t + 1
    | ForceMappingCurve.CURVE_LOG => 126 * Real.logb 10 (1 + 9 * t) + 1
    | ForceMappingCurve.CURVE_EXP => 126 * t ^ ((3 : ℝ) / 2) + 1
  if y ≥ 126.5 then 127 else Int.toNat ⌊y⌋

/-- The square root of a rational, rounded to the nearest single-precision number
(a tie is rounded up; 0 for an argument that is not positive). -/
def sqrt32 (r : ℚ) : ℚ :=
  if r ≤ 0 then 0
  else
    let e := Int.log 2 r / 2
    let u : ℚ := 2 ^ (e - 23)
    let m := Nat.sqrt ⌊r / u ^ 2⌋₊
    if r / u ^ 2 < ((m : ℚ) + 1 / 2) ^ 2 then (m : ℚ) * u else ((m : ℚ) + 1) * u

/-! ## Concrete inputs used by the examples -/

/-- A button in COUNT after one click whose release is 400 ms old. -/
def buttonAfterClick : OneButtonTiny :=
  { OneButtonTiny.init with
    _state := OneButtonTiny.OCS_COUNT, _nClicks := 1, now := 1400, _startTime := 1000,
    _clickFunc := true }

/-- A button held down for 801 ms. -/
def buttonHeld : OneButtonTiny :=
  { OneButtonTiny.init with
    _state := OneButtonTiny.OCS_DOWN, now := 801, _longPressStartFunc := true }

/-- A button whose raw level has read `1` since tick 100. -/
def buttonSettling : OneButtonTiny :=
  { OneButtonTiny.init with _lastDebouncePinLevel := 1, _lastDebounceTime := 100 }

/-- A curve evaluation used by the examples: the value of the linear curve in
exact arithmetic. -/
def exactLinear : CurveEval := fun _ num den => (num : ℚ) / (den : ℚ) * 126 + 1

/-- A pad (threshold 1000, upper limit 2000) 19 ms into a measurement window
opened at tick 100, with running peak 1200. -/
def padMeasuring : Pad :=
  { Pad.init 0 1000 2000 ForceMappingCurve.CURVE_LINEAR with
    _adc_measuring := true, _last_adc_measuring_state := 1,
    _adc_measuring_start_time := 100, _peak_val := 1200 }

/-- An idle button with the click callback attached. -/
def buttonIdle : OneButtonTiny := { OneButtonTiny.init with _clickFunc := true }

/-- Press at tick 10, release at tick 100, then the level stays inactive. -/
def clickSteps : List (Bool × Nat) := [(true, 10), (false, 100), (false, 101), (false, 501)]

/-- A connected scheduler with a Note On outstanding for pad `Crash` (index 2)
since tick 100. -/
def midiCrashOn : Midi :=
  { Midi.init with
    _connected := true
    _channel_states := Function.update Midi.init._channel_states 2
      { noteOn_sent := true, noteOn_timestamp := 100, note := 49, channel := 10 } }

/-- A connected, freshly constructed scheduler. -/
def midiConnected : Midi := { Midi.init with _connected := true }

/-- Every acknowledgment arrives in time. -/
def allAcks : Nat → Bool := fun _ => true

/-- Connect, then two Note Ons for pad 0 with no Note Off between them. -/
def doubleNoteOn : List MidiOp :=
  [MidiOp.isConnected true, MidiOp.sendNoteOn allAcks 0 0 100 10,
   MidiOp.sendNoteOn allAcks 5 0 100 10]

/-- Connect, a Note On for pad 0 at tick 0, and a sweep at tick 25. -/
def noteOnThenSweep : List MidiOp :=
  [MidiOp.isConnected true, MidiOp.sendNoteOn allAcks 0 0 100 10,
   MidiOp.autoNoteOff (fun _ => allAcks) 25]

/-- A pad whose hit threshold (40000) lies above its upper limit (7232). -/
def padInverted : Pad := Pad.init 0 40000 7232 ForceMappingCurve.CURVE_LINEAR

/-- The pad `OpenHiHat` of `cpp_main` (threshold `1023 + 310`, upper limit 2084). -/
def padOpenHiHat : Pad := Pad.init 0 1333 2084 ForceMappingCurve.CURVE_LINEAR

/-- A stand-in for the C library with the signs of `log` and `pow` and their values
at 1: `log` by its tangent at 1, `pow x y` by `x`. -/
def tangentLibm : Libm := { log := fun x => x - 1, pow := fun x _ => x }

/-- A raw level that flips every 20 ms, on a button with the default 50 ms
debounce time whose stable level is 1. -/
def bouncingCalls : List (Nat × Int) :=
  [(100, 0), (110, 0), (120, 1), (130, 1), (140, 0), (160, 1), (170, 1), (180, 0)]

/-- A button whose stable level is 1. -/
def buttonStable : OneButtonTiny :=
  { OneButtonTiny.init with
    debouncedPinLevel := 1, _lastDebouncePinLevel := 1, _lastDebounceTime := 0, now := 90 }

/-- The acknowledgment of the second byte does not arrive in time. -/
def secondAckLate : Nat → Bool := fun i => decide (i ≠ 1)

/-- A button whose state member holds the undefined value 4, with three clicks
counted and the entry time 1000. -/
def buttonCorrupt : OneButtonTiny :=
  { OneButtonTiny.init with _state := 4, _nClicks := 3, _startTime := 1000, now := 1200 }

/-- The pad of scenario A: threshold 1000, upper limit 2000, linear curve. -/
def padScenarioA : Pad := Pad.init 0 1000 2000 ForceMappingCurve.CURVE_LINEAR

/-- The samples of scenario A, one per tick from tick 0 on. -/
def scenarioA : List (Nat × Nat) :=
  [(0, 0), (1, 0), (2, 1200), (3, 1200), (4, 1100), (5, 0), (6, 0)]

/-- The pad of scenario A after the seven samples: measuring since tick 2 with
running peak 1200. -/
def padScenarioAOpen : Pad :=
  { padScenarioA with
    _peak_val := 1200, _adc_measuring := true, _adc_measuring_start_time := 2,
    _last_adc_measuring_state := 1 }

/-- Samples 0 at the ticks 7 to 20. -/
def scenarioAQuiet : List (Nat × Nat) :=
  [(7, 0), (8, 0), (9, 0), (10, 0), (11, 0), (12, 0), (13, 0), (14, 0), (15, 0), (16, 0),
   (17, 0), (18, 0), (19, 0), (20, 0)]

/-- An idle button with `_press_ms = 40` and the long-press callback attached. -/
def buttonPress40 : OneButtonTiny :=
  { OneButtonTiny.init with _press_ms := 40, _longPressStartFunc := true }

/-- An idle button with the default times (`_click_ms = 400`, `_multiClick_ms = 600`,
`_press_ms = 800`) and all four callbacks attached. -/
def buttonAttached : OneButtonTiny :=
  { OneButtonTiny.init with
    _clickFunc := true, _doubleClickFunc := true, _multiClickFunc := true,
    _longPressStartFunc := true }

/-- Calls on a button: a click, the step that reports it, and a `reset()`. -/
def clickThenReset : List ButtonOp :=
  [ButtonOp.fsm true 10, ButtonOp.fsm false 100, ButtonOp.fsm false 101,
   ButtonOp.fsm false 501, ButtonOp.reset]

/-- Four `tick(false)` calls on a button that is never pressed. -/
def idleTicks : List (Nat × Bool) := [(0, false), (50, false), (51, false), (451, false)]

/-- A button with all callbacks attached, in COUNT after one click released at
tick 100. -/
def buttonClickedOnce : OneButtonTiny :=
  { buttonAttached with
    _state := OneButtonTiny.OCS_COUNT, _nClicks := 1, now := 101, _startTime := 100 }

/-- A pad whose completed measurement has not been consumed yet. -/
def padCompleted : Pad :=
  { padScenarioA with _measurement_cplt := true, _force := 26, _peak_val := 1200 }

/-- Calls that start and finalize another measurement on a pad. -/
def callsAfterCompletion : List PadOp :=
  [PadOp.detectHit 1500, PadOp.isTriggered 1500, PadOp.measureForce 30 1500,
   PadOp.measureForce 60 0, PadOp.detectHit 0, PadOp.isTriggered 0]

/-- An idle pad that still holds the peak 1900 of an earlier measurement. -/
def padStalePeak : Pad := { padScenarioA with _peak_val := 1900 }

/-- Calls made during one measurement window. -/
def windowCalls : List PadOp :=
  [PadOp.isTriggered 1200, PadOp.measureForce 2 1200, PadOp.detectHit 1300,
   PadOp.isTriggered 1300, PadOp.measureForce 3 1300, PadOp.detectHit 1100,
   PadOp.measureForce 4 1100]

/-- One complete earlier measurement on a pad, consumed by the caller. -/
def earlierMeasurement : List PadOp :=
  [PadOp.detectHit 1200, PadOp.isTriggered 1200, PadOp.measureForce 2 1200,
   PadOp.measureForce 30 0, PadOp.resetMeasurementCplt]

/-- A pad with threshold 1000, upper limit 5095 and the exponential curve. -/
def padExp : Pad := Pad.init 0 1000 5095 ForceMappingCurve.CURVE_EXP

/-- A C library whose `pow(x, 1.5)` is the power rounded to the nearest
single-precision number: `pow x y` is `sqrt32 (x ^ 3)` whatever `y`, and
`_force_map` passes no exponent other than 1.5. Its `log` is the one of
`tangentLibm`. -/
def roundedLibm : Libm := { log := tangentLibm.log, pow := fun x _ => sqrt32 (x ^ 3) }

/-! ## Theorems: button FSM, single steps -/

open OneButtonTiny

/-- C1. In state COUNT on an inactive level with click count `n ≥ 1`, one `_fsm`
step finalizes (returns to INIT) exactly when
`(n > 2 ∧ waitTime ≥ _multiClick_ms) ∨ (n ≤ 2 ∧ waitTime ≥ _click_ms)`, where
`waitTime = now - _startTime`. On finalization the object is reset (state INIT,
click count 0, entry time 0) and the one callback kind selected by `n` is
invoked: click for `n = 1`, double-click for `n = 2`, multi-click for `n > 2`
(a slot left `NULL` is skipped, no other kind is ever invoked). Otherwise the
object is unchanged and no callback is invoked. -/
theorem fsm_count_inactive (b : OneButtonTiny) (hs : b._state = OCS_COUNT)
    (hn : b._nClicks ≥ 1) :
    ((_fsm b false).1._state = OCS_INIT ↔
      ((b._nClicks > 2 ∧ sub32 b.now b._startTime ≥ b._multiClick_ms) ∨
       (b._nClicks ≤ 2 ∧ sub32 b.now b._startTime ≥ b._click_ms))) ∧
    (((b._nClicks > 2 ∧ sub32 b.now b._startTime ≥ b._multiClick_ms) ∨
       (b._nClicks ≤ 2 ∧ sub32 b.now b._startTime ≥ b._click_ms)) →
      (_fsm b false).1 = { b with _state := OCS_INIT, _nClicks := 0, _startTime := 0 } ∧
      (_fsm b false).2 =
        (if b._nClicks = 1 then (if b._clickFunc then [Callback.click] else [])
         else if b._nClicks = 2 then
           (if b._doubleClickFunc then [Callback.doubleClick] else [])
         else (if b._multiClickFunc then [Callback.multiClick] else []))) ∧
    (¬ ((b._nClicks > 2 ∧ sub32 b.now b._startTime ≥ b._multiClick_ms) ∨
       (b._nClicks ≤ 2 ∧ sub32 b.now b._startTime ≥ b._click_ms)) →
      _fsm b false = (b, [])) := by
  by_cases hc : (b._nClicks > 2 ∧ sub32 b.now b._startTime ≥ b._multiClick_ms) ∨
      (b._nClicks ≤ 2 ∧ sub32 b.now b._startTime ≥ b._click_ms)
  · have hstep : _fsm b false = (reset b,
        if b._nClicks = 1 then callSlot b._clickFunc Callback.click
        else if b._nClicks = 2 then callSlot b._doubleClickFunc Callback.doubleClick
        else if b._nClicks > 2 then callSlot b._multiClickFunc Callback.multiClick
        else []) := by
      simp only [_fsm, hs]
      simp [OCS_INIT, OCS_DOWN, OCS_UP, OCS_COUNT, hc]
    refine ⟨?_, ?_, fun h => absurd hc h⟩
    · simp [hstep, reset, hc]
    · intro _
      refine ⟨by rw [hstep]; rfl, ?_⟩
      rw [hstep]
      by_cases h1 : b._nClicks = 1
      · simp [h1, callSlot]
      · by_cases h2 : b._nClicks = 2
        · simp [h2, callSlot]
        · have h3 : b._nClicks > 2 := by omega
          simp [h1, h2, h3, callSlot]
  · have hstep : _fsm b false = (b, []) := by
      simp only [_fsm, hs]
      simp [OCS_INIT, OCS_DOWN, OCS_UP, OCS_COUNT]
      intro h
      exact absurd h hc
    refine ⟨?_, fun h => absurd h hc, fun _ => hstep⟩
    rw [hstep]
    simp only [hs]
    constructor
    · intro h
      simp [OCS_COUNT, OCS_INIT] at h
    · intro h
      exact absurd h hc

/-- Witness for C1: a single click (`n = 1`) whose release is 400 ms old, with the
default `_click_ms = 400` and a click callback attached, finalizes with one
click callback. -/
theorem fsm_count_inactive_witness :
    buttonAfterClick._state = OCS_COUNT ∧ buttonAfterClick._nClicks ≥ 1 ∧
    (_fsm buttonAfterClick false).1._state = OCS_INIT ∧
    (_fsm buttonAfterClick false).2 = [Callback.click] :=
  ⟨rfl, by decide,
   (fsm_count_inactive buttonAfterClick rfl (by decide)).1.2 (by decide),
   ((fsm_count_inactive buttonAfterClick rfl (by decide)).2.1 (by decide)).2⟩

/-- C9. In state DOWN, with `waitTime = now - _startTime`: on an inactive level
the state becomes UP, the entry time becomes `now` and no callback is invoked;
on an active level with `waitTime > _press_ms` the long-press-start callback is
invoked once (skipped when its slot is `NULL`) and the state becomes PRESS; on an
active level with `waitTime ≤ _press_ms` nothing changes and no callback is
invoked. The click counter is unchanged in every case. -/
theorem fsm_down_step (b : OneButtonTiny) (hs : b._state = OCS_DOWN) :
    _fsm b false = ({ b with _state := OCS_UP, _startTime := b.now }, []) ∧
    (sub32 b.now b._startTime > b._press_ms →
      _fsm b true = ({ b with _state := OCS_PRESS },
        if b._longPressStartFunc then [Callback.longPressStart] else [])) ∧
    (sub32 b.now b._startTime ≤ b._press_ms → _fsm b true = (b, [])) ∧
    (∀ level, (_fsm b level).1._nClicks = b._nClicks) := by
  have h1 : _fsm b false = ({ b with _state := OCS_UP, _startTime := b.now }, []) := by
    simp only [_fsm, hs]
    simp [OCS_INIT, OCS_DOWN, _newState]
  have h2 : sub32 b.now b._startTime > b._press_ms →
      _fsm b true = ({ b with _state := OCS_PRESS },
        if b._longPressStartFunc then [Callback.longPressStart] else []) := by
    intro hw
    simp only [_fsm, hs]
    simp [OCS_INIT, OCS_DOWN, _newState, hw, callSlot]
  have h3 : sub32 b.now b._startTime ≤ b._press_ms → _fsm b true = (b, []) := by
    intro hw
    simp only [_fsm, hs]
    simp [OCS_INIT, OCS_DOWN, Nat.not_lt.mpr hw]
  refine ⟨h1, h2, h3, ?_⟩
  intro level
  cases level
  · rw [h1]
  · by_cases hw : sub32 b.now b._startTime > b._press_ms
    · rw [h2 hw]
    · rw [h3 (Nat.not_lt.mp hw)]

/-- Witness for C9: a button held for 801 ms with `_press_ms = 800` and a
long-press callback attached starts a long press. -/
theorem fsm_down_step_witness :
    buttonHeld._state = OCS_DOWN ∧
    _fsm buttonHeld true = ({ buttonHeld with _state := OCS_PRESS }, [Callback.longPressStart]) :=
  ⟨rfl, (fsm_down_step buttonHeld rfl).2.1 (by decide)⟩

/-- C10. The call `debounce(sample)` at tick `now`: when `sample` equals
`_lastDebouncePinLevel` and `now - _lastDebounceTime ≥ _debounce_ms`, the stable level
becomes `sample` and the last raw level and last change time are unchanged; when
`sample` equals `_lastDebouncePinLevel` and `now - _lastDebounceTime < _debounce_ms`,
none of the three changes; when `sample` differs, the last change time becomes
`now`, the last raw level becomes `sample` and the stable level is unchanged.
The member `now` records the tick and no other member changes. The value
returned is the resulting stable level. -/
theorem debounce_step (b : OneButtonTiny) (tick : Nat) (sample : Int) :
    (sample = b._lastDebouncePinLevel → sub32 tick b._lastDebounceTime ≥ b._debounce_ms →
      (debounce b tick sample).1 = { b with now := tick, debouncedPinLevel := sample }) ∧
    (sample = b._lastDebouncePinLevel → sub32 tick b._lastDebounceTime < b._debounce_ms →
      (debounce b tick sample).1 = { b with now := tick }) ∧
    (sample ≠ b._lastDebouncePinLevel →
      (debounce b tick sample).1 =
        { b with now := tick, _lastDebounceTime := tick, _lastDebouncePinLevel := sample }) ∧
    (debounce b tick sample).2 = (debounce b tick sample).1.debouncedPinLevel := by
  refine ⟨?_, ?_, ?_, rfl⟩
  · intro he hw
    simp [debounce, he, hw]
  · intro he hw
    simp [debounce, he, Nat.not_le.mpr hw]
  · intro hne
    have hne2 : ¬ b._lastDebouncePinLevel = sample := fun h => hne h.symm
    simp [debounce, hne2]

/-- Witness for C10: a level that has been read as `1` for 50 ms becomes the
stable level. -/
theorem debounce_step_witness :
    (debounce buttonSettling 150 1).1 =
      { buttonSettling with now := 150, debouncedPinLevel := 1 } :=
  (debounce_step buttonSettling 150 1).1 rfl (by decide)

/-! ## Theorems: pad force measurement -/

/-- The mapping `_force_map` reads the calibration of the pad only. -/
theorem force_map_congr (fp : CurveEval) (p q : Pad) (adc_val : Nat)
    (h1 : q._hit_threshold = p._hit_threshold) (h2 : q._upper_limit = p._upper_limit)
    (h3 : q._force_curve = p._force_curve) :
    Pad._force_map fp q adc_val = Pad._force_map fp p adc_val := by
  simp only [Pad._force_map, h1, h2, h3]

/-- C3. The call `measureForce()` with ADC sample `v` at tick `now`. A pad that is
not measuring is unchanged. A measuring pad takes `max(peak, v)` as its peak;
its window start is `now` when this is the first call of the measurement
(`_last_adc_measuring_state` differs from `_adc_measuring`) and the stored start
otherwise. The measurement finalizes exactly when `v ≤ _hit_threshold` and
`now - windowStart > 18`: then the force is 127 if the peak reaches
`_upper_limit` and `_force_map(peak)` otherwise, `_adc_measuring` is cleared and
`_measurement_cplt` is set. When it does not finalize, force, `_adc_measuring`
and `_measurement_cplt` are unchanged. -/
theorem measureForce_step (fp : CurveEval) (p : Pad) (now v : Nat) :
    (p._adc_measuring = false → Pad.measureForce fp p now v = p) ∧
    (p._adc_measuring = true →
      (Pad.measureForce fp p now v)._peak_val = max p._peak_val v ∧
      (Pad.measureForce fp p now v)._adc_measuring_start_time =
        (if p._last_adc_measuring_state ≠ 1 then now else p._adc_measuring_start_time) ∧
      ((Pad.measureForce fp p now v)._adc_measuring = false ↔
        (v ≤ p._hit_threshold ∧
         sub32 now (Pad.measureForce fp p now v)._adc_measuring_start_time > 18)) ∧
      ((v ≤ p._hit_threshold ∧
         sub32 now (Pad.measureForce fp p now v)._adc_measuring_start_time > 18) →
        Pad.measureForce fp p now v =
          { p with
            _adc_measuring_start_time :=
              if p._last_adc_measuring_state ≠ 1 then now else p._adc_measuring_start_time,
            _peak_val := max p._peak_val v,
            _force := if max p._peak_val v ≥ p._upper_limit then 127
                      else Pad._force_map fp p (max p._peak_val v),
            _adc_measuring := false,
            _measurement_cplt := true,
            _last_adc_measuring_state := 0 }) ∧
      (¬ (v ≤ p._hit_threshold ∧
         sub32 now (Pad.measureForce fp p now v)._adc_measuring_start_time > 18) →
        Pad.measureForce fp p now v =
          { p with
            _adc_measuring_start_time :=
              if p._last_adc_measuring_state ≠ 1 then now else p._adc_measuring_start_time,
            _peak_val := max p._peak_val v,
            _last_adc_measuring_state := 1 })) := by
  constructor
  · intro hm
    simp [Pad.measureForce, hm]
  · intro hm
    have hmax : (if p._peak_val > v then p._peak_val else v) = max p._peak_val v := by
      by_cases h : p._peak_val > v
      · simp [h, Nat.max_eq_left (Nat.le_of_lt h)]
      · simp [h, Nat.max_eq_right (Nat.not_lt.mp h)]
    by_cases hl : p._last_adc_measuring_state = 1
    · by_cases hv : v ≤ p._hit_threshold
      · by_cases hw : sub32 now p._adc_measuring_start_time > 18
        · by_cases hu : max p._peak_val v ≥ p._upper_limit
          · simp [Pad.measureForce, Pad._isHit, ADC_MEASURING_WINDOW_MS, hm, hl, hv, hw, hu, hmax,
              Nat.not_lt.mpr hv]
          · simp [Pad.measureForce, Pad._isHit, ADC_MEASURING_WINDOW_MS, hm, hl, hv, hw, hu, hmax,
              Nat.not_lt.mpr hv]
            exact force_map_congr fp _ p _ rfl rfl rfl
        · simp [Pad.measureForce, Pad._isHit, ADC_MEASURING_WINDOW_MS, hm, hl, hv, hw, hmax,
            Nat.not_lt.mpr hv]
      · simp [Pad.measureForce, Pad._isHit, ADC_MEASURING_WINDOW_MS, hm, hl, hv, hmax,
          Nat.lt_of_not_le hv]
    · by_cases hv : v ≤ p._hit_threshold
      · by_cases hw : sub32 now now > 18
        · exact absurd hw (by unfold sub32; omega)
        · simp [Pad.measureForce, Pad._isHit, ADC_MEASURING_WINDOW_MS, hm, hl, hv, hw, hmax,
            Nat.not_lt.mpr hv]
      · simp [Pad.measureForce, Pad._isHit, ADC_MEASURING_WINDOW_MS, hm, hl, hv, hmax,
          Nat.lt_of_not_le hv]

/-- Witness for C3: 19 ms after the window opened, a sample below the threshold
finalizes the measurement. -/
theorem measureForce_step_witness :
    padMeasuring._adc_measuring = true ∧
    (Pad.measureForce exactLinear padMeasuring 119 0)._adc_measuring = false :=
  ⟨rfl, ((measureForce_step exactLinear padMeasuring 119 0).2 rfl).2.2.1.mpr (by decide)⟩

/-! ## Theorems: button FSM, runs -/

theorem callSlot_length_le (f : Bool) (k : Callback) : (callSlot f k).length ≤ 1 := by
  cases f <;> simp [callSlot]

/-- A single `_fsm` step invokes at most one callback. -/
theorem fsm_calls_le_one (b : OneButtonTiny) (level : Bool) :
    (_fsm b level).2.length ≤ 1 := by
  have hl := callSlot_length_le b._longPressStartFunc Callback.longPressStart
  have hc := callSlot_length_le b._clickFunc Callback.click
  have hd := callSlot_length_le b._doubleClickFunc Callback.doubleClick
  have hm := callSlot_length_le b._multiClickFunc Callback.multiClick
  unfold _fsm
  simp only []
  split_ifs <;> simp_all

/-- A step that does not end in INIT uses up the budget of callbacks it invokes. -/
theorem fsm_budget (b : OneButtonTiny) (level : Bool)
    (h : (_fsm b level).1._state ≠ OCS_INIT) :
    (_fsm b level).2.length + callBudget (_fsm b level).1 ≤ callBudget b := by
  have hl := callSlot_length_le b._longPressStartFunc Callback.longPressStart
  revert h
  unfold _fsm
  simp only []
  split_ifs <;>
    simp_all [callBudget, _newState, reset, OCS_INIT, OCS_DOWN, OCS_UP, OCS_COUNT, OCS_PRESS,
      OCS_PRESSEND]

/-- A step invokes no more callbacks than the budget allows. -/
theorem fsm_calls_le_budget (b : OneButtonTiny) (level : Bool) :
    (_fsm b level).2.length ≤ callBudget b := by
  have hl := callSlot_length_le b._longPressStartFunc Callback.longPressStart
  have hc := callSlot_length_le b._clickFunc Callback.click
  have hd := callSlot_length_le b._doubleClickFunc Callback.doubleClick
  have hm := callSlot_length_le b._multiClickFunc Callback.multiClick
  unfold _fsm
  simp only []
  split_ifs <;>
    simp_all [callBudget, _newState, reset, OCS_INIT, OCS_DOWN, OCS_UP, OCS_COUNT, OCS_PRESS,
      OCS_PRESSEND]

theorem runFsm_append (b : OneButtonTiny) (xs ys : List (Bool × Nat)) :
    runFsm b (xs ++ ys) =
      ((runFsm (runFsm b xs).1 ys).1, (runFsm b xs).2 ++ (runFsm (runFsm b xs).1 ys).2) := by
  induction xs generalizing b with
  | nil => simp [runFsm]
  | cons x xs ih => simp [runFsm, ih, List.append_assoc]

theorem callBudget_now (b : OneButtonTiny) (t : Nat) :
    callBudget { b with now := t } = callBudget b := rfl

/-- Callbacks invoked by a run none of whose intermediate states is INIT. -/
theorem runFsm_segment (steps : List (Bool × Nat)) (b : OneButtonTiny)
    (h : ∀ k, 0 < k → k < steps.length → (runFsm b (steps.take k)).1._state ≠ OCS_INIT) :
    (runFsm b steps).2.length ≤ callBudget b := by
  induction steps generalizing b with
  | nil => simp [runFsm]
  | cons step rest ih =>
    cases rest with
    | nil =>
      simp only [runFsm, List.append_nil]
      exact fsm_calls_le_budget { b with now := step.2 } step.1
    | cons step2 rest2 =>
      have h1 : (fsmAt b step).1._state ≠ OCS_INIT := by
        have := h 1 (by decide) (by simp)
        simpa [runFsm] using this
      have hrest : ∀ k, 0 < k → k < (step2 :: rest2).length →
          (runFsm (fsmAt b step).1 ((step2 :: rest2).take k)).1._state ≠ OCS_INIT := by
        intro k hk hlt
        have := h (k + 1) (by omega) (by simpa using hlt)
        simpa [runFsm] using this
      have hb : (fsmAt b step).2.length + callBudget (fsmAt b step).1 ≤ callBudget b :=
        fsm_budget { b with now := step.2 } step.1 h1
      have := ih (fsmAt b step).1 hrest
      have e : runFsm b (step :: step2 :: rest2) =
          ((runFsm (fsmAt b step).1 (step2 :: rest2)).1,
            (fsmAt b step).2 ++ (runFsm (fsmAt b step).1 (step2 :: rest2)).2) := rfl
      rw [e]
      simp only [List.length_append]
      omega

/-- C2. For every sequence of (stabilized level, time) steps starting in INIT: no
single step invokes more than one gesture callback, and between two consecutive
visits to INIT (state INIT after `i` steps, no INIT strictly between `i` and `j`)
the steps `i + 1, ..., j` invoke at most one gesture callback in total. -/
theorem fsm_one_callback_per_cycle (b : OneButtonTiny) (steps : List (Bool × Nat))
    (_hb : b._state = OCS_INIT) :
    (∀ k, ∀ hk : k < steps.length,
      (fsmAt (runFsm b (steps.take k)).1 (steps.get ⟨k, hk⟩)).2.length ≤ 1) ∧
    (∀ i j, i ≤ j → j ≤ steps.length →
      (runFsm b (steps.take i)).1._state = OCS_INIT →
      (∀ k, i < k → k < j → (runFsm b (steps.take k)).1._state ≠ OCS_INIT) →
      (runFsm (runFsm b (steps.take i)).1 ((steps.drop i).take (j - i))).2.length ≤ 1) := by
  constructor
  · intro k hk
    exact fsm_calls_le_one _ _
  · intro i j hij hj hi hbetween
    have hseg := runFsm_segment ((steps.drop i).take (j - i)) (runFsm b (steps.take i)).1 (by
      intro k hk0 hk
      have hlen : ((steps.drop i).take (j - i)).length = j - i := by
        simp [List.length_take, List.length_drop]; omega
      rw [hlen] at hk
      have hsplit : steps.take (i + k) = steps.take i ++ ((steps.drop i).take (j - i)).take k := by
        rw [List.take_take, Nat.min_eq_left (Nat.le_of_lt hk), List.take_add]
      have := hbetween (i + k) (by omega) (by omega)
      rw [hsplit, runFsm_append] at this
      exact this)
    have hbud : callBudget (runFsm b (steps.take i)).1 ≤ 1 := by
      unfold callBudget; split_ifs <;> omega
    omega

/-- Witness for C2: press, release and a 400 ms pause, from INIT back to INIT,
invoke exactly the click callback. -/
theorem fsm_one_callback_per_cycle_witness :
    buttonIdle._state = OCS_INIT ∧
    (runFsm buttonIdle clickSteps).1._state = OCS_INIT ∧
    (runFsm buttonIdle clickSteps).2 = [Callback.click] ∧
    (runFsm buttonIdle clickSteps).2.length ≤ 1 :=
  ⟨rfl, by decide, by decide,
   (fsm_one_callback_per_cycle buttonIdle clickSteps rfl).2 0 4 (by decide) (by decide)
     (by decide) (by intro k h1 h2; interval_cases k <;> decide)⟩

/-! ## Theorems: MIDI note scheduler, single calls -/

/-- The low nibble `(channel - 1) & 0x0F`, in arithmetic. -/
theorem channel_nibble (c : Nat) : (Int.land ((c : Int) - 1) 0x0F).toNat = (c + 15) % 16 := by
  cases c with
  | zero =>
    have h : (((0 : Nat) : Int) - 1) = Int.negSucc 0 := rfl
    rw [h]
    show (Int.ofNat (Nat.ldiff 15 0)).toNat = 15
    simp [Nat.ldiff]
  | succ k =>
    have h : ((k + 1 : Nat) : Int) - 1 = (k : Int) := by push_cast; ring
    rw [h]
    show (Int.land (Int.ofNat k) (Int.ofNat 15)).toNat = _
    simp only [Int.land]
    have := Nat.and_pow_two_sub_one_eq_mod k 4
    simp at this ⊢
    omega

theorem or_nibble_80 (x : Nat) (h : x < 16) : 0x80 ||| x = 0x80 + x := by
  interval_cases x <;> rfl

theorem or_nibble_90 (x : Nat) (h : x < 16) : 0x90 ||| x = 0x90 + x := by
  interval_cases x <;> rfl

theorem statusByte_80 (c : Nat) : statusByte 0x80 c = 0x80 + (c + 15) % 16 := by
  unfold statusByte
  rw [channel_nibble]
  exact or_nibble_80 _ (Nat.mod_lt _ (by decide))

theorem statusByte_90 (c : Nat) : statusByte 0x90 c = 0x90 + (c + 15) % 16 := by
  unfold statusByte
  rw [channel_nibble]
  exact or_nibble_90 _ (Nat.mod_lt _ (by decide))

theorem and_7F (n : Nat) : n &&& 0x7F = n % 128 := Nat.and_pow_two_sub_one_eq_mod n 7

theorem sendByte_states (m : Midi) (a : Bool) :
    (Midi._sendByte m a).1._channel_states = m._channel_states := by
  unfold Midi._sendByte
  split_ifs <;> rfl

theorem sendNoteOffLoop_states (acks : Nat → Bool) (msg : List Nat) (m : Midi) (i : Nat) :
    (Midi.sendNoteOffLoop acks m i msg)._channel_states = m._channel_states := by
  induction msg generalizing m i with
  | nil => rfl
  | cons b rest ih =>
    simp only [Midi.sendNoteOffLoop]
    rw [ih, sendByte_states]

theorem sendNoteOnLoop_states (acks : Nat → Bool) (msg : List Nat) (m : Midi) (i : Nat) :
    (Midi.sendNoteOnLoop acks m i msg).midi._channel_states = m._channel_states := by
  induction msg generalizing m i with
  | nil => rfl
  | cons b rest ih =>
    simp only [Midi.sendNoteOnLoop]
    split_ifs
    · exact sendByte_states m (acks i)
    · show (Midi.sendNoteOnLoop acks _ (i + 1) rest).midi._channel_states = _
      rw [ih, sendByte_states]

/-- The call `sendNoteOff(padID)` in full: nothing happens unless `padID` names a
pad whose `noteOn_sent` flag is set; then the stored note and channel make the
message and the flag of that pad is cleared. -/
theorem sendNoteOff_spec (m : Midi) (acks : Nat → Bool) (padID : Fin MIDI_CHANNELS_NUM) :
    ((m._channel_states padID).noteOn_sent = false →
      Midi.sendNoteOff m acks padID.val = (m, [])) ∧
    ((m._channel_states padID).noteOn_sent = true →
      (Midi.sendNoteOff m acks padID.val).2 =
        [statusByte 0x80 (m._channel_states padID).channel,
         (m._channel_states padID).note &&& 0x7F, 0x00] ∧
      (Midi.sendNoteOff m acks padID.val).1._channel_states =
        Function.update m._channel_states padID
          { (m._channel_states padID) with noteOn_sent := false }) := by
  constructor
  · intro hf
    simp [Midi.sendNoteOff, hf]
  · intro hf
    simp [Midi.sendNoteOff, hf, sendNoteOffLoop_states]

/-- C6. The call `sendNoteOn(padID, velocity, channel)` on a connected transport
whose three byte sends all succeed (the first finds `_ack` set or is acknowledged
in time, the other two are acknowledged in time) requests exactly the bytes
`[0x90 | ((channel - 1) & 0x0F), note(padID) & 0x7F, velocity & 0x7F]` in that
order, with `note(padID)` the entry of `_PAD_MIDI_NOTE_MAP`, returns true, sets
the channel state of that pad to
`{noteOn_sent = true, noteOn_timestamp = now, note = note(padID), channel}` and
leaves every other pad's channel state unchanged. -/
theorem sendNoteOn_success (m : Midi) (acks : Nat → Bool) (tick : Nat)
    (padID : Fin MIDI_CHANNELS_NUM) (velocity channel : Nat)
    (hc : m._connected = true) (h0 : m._ack = true ∨ acks 0 = true)
    (h1 : acks 1 = true) (h2 : acks 2 = true) :
    (Midi.sendNoteOn m acks tick padID velocity channel).requested =
      [0x90 ||| (Int.land ((channel : Int) - 1) 0x0F).toNat,
       Midi._PAD_MIDI_NOTE_MAP padID &&& 0x7F, velocity &&& 0x7F] ∧
    (Midi.sendNoteOn m acks tick padID velocity channel).requested =
      [0x90 + (channel + 15) % 16, Midi._PAD_MIDI_NOTE_MAP padID % 128, velocity % 128] ∧
    (Midi.sendNoteOn m acks tick padID velocity channel).ret = true ∧
    (Midi.sendNoteOn m acks tick padID velocity channel).midi._channel_states padID =
      { noteOn_sent := true, noteOn_timestamp := tick,
        note := Midi._PAD_MIDI_NOTE_MAP padID, channel := channel } ∧
    (∀ j, j ≠ padID →
      (Midi.sendNoteOn m acks tick padID velocity channel).midi._channel_states j =
        m._channel_states j) := by
  have hfirst : (m._ack || acks 0) = true := by
    rcases h0 with h | h <;> simp [h]
  have hreq : (Midi.sendNoteOn m acks tick padID velocity channel).requested =
      [statusByte 0x90 channel, Midi._PAD_MIDI_NOTE_MAP padID &&& 0x7F, velocity &&& 0x7F] := by
    simp [Midi.sendNoteOn, Midi.sendNoteOnLoop, Midi._sendByte, hc, hfirst, h1, h2]
  have hret : (Midi.sendNoteOn m acks tick padID velocity channel).ret = true := by
    simp [Midi.sendNoteOn, Midi.sendNoteOnLoop, Midi._sendByte, hc, hfirst, h1, h2]
  have hst : (Midi.sendNoteOn m acks tick padID velocity channel).midi._channel_states =
      Function.update m._channel_states padID
        { noteOn_sent := true, noteOn_timestamp := tick,
          note := Midi._PAD_MIDI_NOTE_MAP padID, channel := channel } := by
    simp [Midi.sendNoteOn, Midi.sendNoteOnLoop, Midi._sendByte, hc, hfirst, h1, h2]
  refine ⟨hreq, ?_, hret, ?_, ?_⟩
  · rw [hreq, statusByte_90, and_7F, and_7F]
  · rw [hst, Function.update_same]
  · intro j hj
    rw [hst, Function.update_noteq hj]

/-- Witness for C6: a Note On for pad `Kick` (index 5, note 35) with velocity 100 on
channel 10 at tick 7. -/
theorem sendNoteOn_success_witness :
    midiConnected._connected = true ∧
    (Midi.sendNoteOn midiConnected allAcks 7 5 100 10).requested = [0x99, 35, 100] ∧
    (Midi.sendNoteOn midiConnected allAcks 7 5 100 10).ret = true ∧
    (Midi.sendNoteOn midiConnected allAcks 7 5 100 10).midi._channel_states 5 =
      { noteOn_sent := true, noteOn_timestamp := 7, note := 35, channel := 10 } := by
  have h := sendNoteOn_success midiConnected allAcks 7 5 100 10 rfl (Or.inl rfl) rfl rfl
  exact ⟨rfl, h.2.1, h.2.2.1, h.2.2.2.1⟩

/-- One iteration of the loop of `autoNoteOff`. -/
theorem autoNoteOffStep_spec (acks : Fin MIDI_CHANNELS_NUM → Nat → Bool) (now : Nat)
    (m : Midi) (bs : List Nat) (id : Fin MIDI_CHANNELS_NUM) :
    (Midi.autoNoteOffStep acks now (m, bs) id).2 =
      bs ++ (if offDue (m._channel_states id) now then noteOffMsg (m._channel_states id)
             else []) ∧
    (Midi.autoNoteOffStep acks now (m, bs) id).1._channel_states =
      (if offDue (m._channel_states id) now then
        Function.update m._channel_states id
          { (m._channel_states id) with noteOn_sent := false }
       else m._channel_states) := by
  by_cases hf : (m._channel_states id).noteOn_sent = true
  · by_cases hw : sub32 now (m._channel_states id).noteOn_timestamp > NOTEOFF_DELAY_MS
    · obtain ⟨hb, hst⟩ := (sendNoteOff_spec m (acks id) id).2 hf
      simp only at hb hst
      simp [Midi.autoNoteOffStep, offDue, hf, hw, hb, hst, noteOffMsg]
    · simp [Midi.autoNoteOffStep, offDue, hf, hw]
  · simp [Midi.autoNoteOffStep, offDue, hf]

/-- The loop of `autoNoteOff` over a list of distinct channels. -/
theorem autoNoteOff_fold (acks : Fin MIDI_CHANNELS_NUM → Nat → Bool) (now : Nat)
    (l : List (Fin MIDI_CHANNELS_NUM)) (hl : l.Nodup) (m : Midi) (bs : List Nat) :
    (l.foldl (Midi.autoNoteOffStep acks now) (m, bs)).2 =
      bs ++ l.flatMap (fun id =>
        if offDue (m._channel_states id) now then noteOffMsg (m._channel_states id) else []) ∧
    (∀ id, (l.foldl (Midi.autoNoteOffStep acks now) (m, bs)).1._channel_states id =
      if id ∈ l ∧ offDue (m._channel_states id) now = true then
        { (m._channel_states id) with noteOn_sent := false }
      else m._channel_states id) := by
  induction l generalizing m bs with
  | nil => simp
  | cons a rest ih =>
    have hnot : a ∉ rest := (List.nodup_cons.mp hl).1
    have hrest : rest.Nodup := (List.nodup_cons.mp hl).2
    obtain ⟨hb, hst⟩ := autoNoteOffStep_spec acks now m bs a
    have hsame : ∀ id ∈ rest,
        (Midi.autoNoteOffStep acks now (m, bs) a).1._channel_states id = m._channel_states id := by
      intro id hid
      have hne : id ≠ a := fun h => hnot (h ▸ hid)
      rw [hst]
      split_ifs
      · exact Function.update_noteq hne _ _
      · rfl
    have ih2 := ih hrest (Midi.autoNoteOffStep acks now (m, bs) a).1
      (Midi.autoNoteOffStep acks now (m, bs) a).2
    rw [List.foldl_cons]
    constructor
    · rw [ih2.1, hb, List.flatMap_cons, List.append_assoc]
      congr 2
      simp only [List.flatMap]
      congr 1
      apply List.map_congr_left
      intro id hid
      rw [hsame id hid]
    · intro id
      rw [ih2.2 id]
      by_cases hid : id ∈ rest
      · have hne : id ≠ a := fun h => hnot (h ▸ hid)
        rw [hsame id hid]
        simp [hid]
      · by_cases hia : id = a
        · subst hia
          rw [hst]
          by_cases hd : offDue (m._channel_states id) now = true
          · simp [hid, hd]
          · simp [hid, hd]
        · rw [hst]
          have : (if offDue (m._channel_states a) now = true then
              Function.update m._channel_states a
                { (m._channel_states a) with noteOn_sent := false }
              else m._channel_states) id = m._channel_states id := by
            split_ifs
            · exact Function.update_noteq hia _ _
            · rfl
          simp [hid, hia, this]

/-- C7. The call `autoNoteOff()` at tick `now` requests, in channel order, one
Note Off message for exactly those pads whose `noteOn_sent` flag is set and for
which `now - noteOn_timestamp > 20` (strictly), and clears the flag of exactly
those pads. For every other pad nothing is requested and its channel state is
unchanged. -/
theorem autoNoteOff_call (m : Midi) (acks : Fin MIDI_CHANNELS_NUM → Nat → Bool) (now : Nat) :
    (Midi.autoNoteOff m acks now).2 =
      (List.finRange MIDI_CHANNELS_NUM).flatMap (fun id =>
        if (m._channel_states id).noteOn_sent = true ∧
            sub32 now (m._channel_states id).noteOn_timestamp > 20 then
          [0x80 ||| (Int.land (((m._channel_states id).channel : Int) - 1) 0x0F).toNat,
           (m._channel_states id).note &&& 0x7F, 0x00]
        else []) ∧
    (∀ id,
      ((m._channel_states id).noteOn_sent = true ∧
          sub32 now (m._channel_states id).noteOn_timestamp > 20 →
        (Midi.autoNoteOff m acks now).1._channel_states id =
          { (m._channel_states id) with noteOn_sent := false }) ∧
      (¬ ((m._channel_states id).noteOn_sent = true ∧
          sub32 now (m._channel_states id).noteOn_timestamp > 20) →
        (Midi.autoNoteOff m acks now).1._channel_states id = m._channel_states id)) := by
  obtain ⟨hb, hst⟩ := autoNoteOff_fold acks now (List.finRange MIDI_CHANNELS_NUM)
    (List.nodup_finRange _) m []
  have hdue : ∀ id, (offDue (m._channel_states id) now = true) ↔
      ((m._channel_states id).noteOn_sent = true ∧
        sub32 now (m._channel_states id).noteOn_timestamp > 20) := by
    intro id
    simp [offDue, NOTEOFF_DELAY_MS]
  constructor
  · unfold Midi.autoNoteOff
    rw [hb, List.nil_append]
    congr 1
    funext id
    by_cases hd : offDue (m._channel_states id) now = true
    · simp only [hd, if_true, (hdue id).mp hd, and_self, noteOffMsg, statusByte]
    · have := (not_congr (hdue id)).mp hd
      simp only [hd, this, if_false]
      rfl
  · intro id
    have := hst id
    unfold Midi.autoNoteOff
    constructor
    · intro h
      rw [this]
      simp [(hdue id).mpr h, List.mem_finRange]
    · intro h
      rw [this]
      have : ¬ offDue (m._channel_states id) now = true := (not_congr (hdue id)).mpr h
      simp [this]

/-- Witness for C7: a Note On sent at tick 100 is switched off by `autoNoteOff` at
tick 121 and not at tick 120. -/
theorem autoNoteOff_call_witness :
    (Midi.autoNoteOff midiCrashOn (fun _ => allAcks) 120).2 = [] ∧
    (Midi.autoNoteOff midiCrashOn (fun _ => allAcks) 121).2 = [0x89, 49, 0] ∧
    ((Midi.autoNoteOff midiCrashOn (fun _ => allAcks) 121).1._channel_states 2).noteOn_sent
      = false := by
  refine ⟨?_, ?_, ?_⟩
  · rw [(autoNoteOff_call midiCrashOn (fun _ => allAcks) 120).1]
    decide
  · rw [(autoNoteOff_call midiCrashOn (fun _ => allAcks) 121).1]
    decide
  · rw [((autoNoteOff_call midiCrashOn (fun _ => allAcks) 121).2 2).1 (by decide)]

/-! ## Theorems: MIDI note scheduler, traces -/

/-- C8, counterexample. After connecting, two successful Note Ons for pad 0 with no
Note Off between them: two Note Ons, no Note Off, flag set. -/
theorem noteOn_noteOff_unmatched :
    onsCount 0 Midi.init doubleNoteOn = 2 ∧
    offsCount 0 Midi.init doubleNoteOn = 0 ∧
    ((runOps Midi.init doubleNoteOn)._channel_states 0).noteOn_sent = true ∧
    onsCount 0 Midi.init doubleNoteOn ≠
      offsCount 0 Midi.init doubleNoteOn +
        (if ((runOps Midi.init doubleNoteOn)._channel_states 0).noteOn_sent then 1 else 0) := by
  decide

theorem note_map_lt (q : Fin MIDI_CHANNELS_NUM) :
    Midi._PAD_MIDI_NOTE_MAP q &&& 0x7F = Midi._PAD_MIDI_NOTE_MAP q := by
  revert q; decide

theorem note_map_injective (q p : Fin MIDI_CHANNELS_NUM)
    (h : Midi._PAD_MIDI_NOTE_MAP q = Midi._PAD_MIDI_NOTE_MAP p) : q = p := by
  revert q p; decide

theorem statusByte_80_div (c : Nat) : statusByte 0x80 c / 16 = 8 := by
  rw [statusByte_80]
  have := Nat.mod_lt (c + 15) (show 16 > 0 by decide)
  omega

theorem statusByte_90_div (c : Nat) : statusByte 0x90 c / 16 = 9 := by
  rw [statusByte_90]
  have := Nat.mod_lt (c + 15) (show 16 > 0 by decide)
  omega

theorem noteOffCount_msg (note : Nat) (st : ChnState) (rest : List Nat) :
    noteOffCount note (noteOffMsg st ++ rest) =
      (if st.note &&& 0x7F = note then 1 else 0) + noteOffCount note rest := by
  simp [noteOffMsg, noteOffCount, statusByte_80_div]

/-- The bytes of a `sendNoteOn` call hold no Note Off message; the channel states
change only when the call returns true. -/
theorem sendNoteOn_spec (m : Midi) (acks : Nat → Bool) (tick : Nat)
    (padID : Fin MIDI_CHANNELS_NUM) (velocity channel : Nat) (note : Nat) :
    noteOffCount note (Midi.sendNoteOn m acks tick padID velocity channel).requested = 0 ∧
    ((Midi.sendNoteOn m acks tick padID velocity channel).ret = true →
      (Midi.sendNoteOn m acks tick padID velocity channel).midi._channel_states =
        Function.update m._channel_states padID
          { noteOn_sent := true, noteOn_timestamp := tick,
            note := Midi._PAD_MIDI_NOTE_MAP padID, channel := channel }) ∧
    ((Midi.sendNoteOn m acks tick padID velocity channel).ret = false →
      (Midi.sendNoteOn m acks tick padID velocity channel).midi._channel_states =
        m._channel_states) := by
  have hd := statusByte_90_div channel
  by_cases hc : m._connected = true
  · by_cases h0 : (m._ack || acks 0) = true
    · by_cases h1 : acks 1 = true
      · by_cases h2 : acks 2 = true
        · simp [Midi.sendNoteOn, Midi.sendNoteOnLoop, Midi._sendByte, hc, h0, h1, h2,
            noteOffCount, hd]
        · simp [Midi.sendNoteOn, Midi.sendNoteOnLoop, Midi._sendByte, hc, h0, h1, h2,
            noteOffCount, hd]
      · simp [Midi.sendNoteOn, Midi.sendNoteOnLoop, Midi._sendByte, hc, h0, h1, noteOffCount]
    · simp [Midi.sendNoteOn, Midi.sendNoteOnLoop, Midi._sendByte, hc, h0, noteOffCount]
  · simp [Midi.sendNoteOn, hc, noteOffCount]

/-- The Note Off messages that one `autoNoteOff` sweep requests for note `note`,
when every channel stores the note of its pad. -/
theorem noteOffCount_sweep (m : Midi) (now : Nat) (p : Fin MIDI_CHANNELS_NUM)
    (hinv : ∀ q, (m._channel_states q).note = Midi._PAD_MIDI_NOTE_MAP q)
    (l : List (Fin MIDI_CHANNELS_NUM)) (hl : l.Nodup) :
    noteOffCount (Midi._PAD_MIDI_NOTE_MAP p) (l.flatMap (fun id =>
        if offDue (m._channel_states id) now then noteOffMsg (m._channel_states id) else [])) =
      if p ∈ l ∧ offDue (m._channel_states p) now = true then 1 else 0 := by
  induction l with
  | nil => simp [noteOffCount]
  | cons a rest ih =>
    have hnot : a ∉ rest := (List.nodup_cons.mp hl).1
    have ih2 := ih (List.nodup_cons.mp hl).2
    rw [List.flatMap_cons]
    by_cases hd : offDue (m._channel_states a) now = true
    · simp only [hd, if_true]
      rw [noteOffCount_msg, ih2, hinv a, note_map_lt]
      by_cases hap : a = p
      · subst hap
        simp [hd, hnot]
      · have hne : Midi._PAD_MIDI_NOTE_MAP a ≠ Midi._PAD_MIDI_NOTE_MAP p :=
          fun h => hap (note_map_injective a p h)
        have hpa : ¬ p = a := fun h => hap h.symm
        simp [hne, hpa]
    · have hd2 : offDue (m._channel_states a) now = false := Bool.not_eq_true _ ▸ hd
      simp only [hd2, Bool.false_eq_true, if_false, List.nil_append]
      rw [ih2]
      by_cases hap : a = p
      · subst hap
        simp [hd, hnot]
      · have hpa : ¬ p = a := fun h => hap h.symm
        simp [hpa]

/-- The effect of one call on the counts of pad `p`, from a state in which every
channel stores the note of its pad. -/
theorem op_balance (m : Midi)
    (hinv : ∀ q, (m._channel_states q).note = Midi._PAD_MIDI_NOTE_MAP q)
    (op : MidiOp) (p : Fin MIDI_CHANNELS_NUM) :
    (∀ q, ((op.apply m).1._channel_states q).note = Midi._PAD_MIDI_NOTE_MAP q) ∧
    ((if op.noteOnOk m p then 1 else 0) + (if (m._channel_states p).noteOn_sent then 1 else 0) =
      noteOffCount (Midi._PAD_MIDI_NOTE_MAP p) (op.apply m).2 +
        (if ((op.apply m).1._channel_states p).noteOn_sent then 1 else 0) +
        (if op.noteOnOk m p && (m._channel_states p).noteOn_sent then 1 else 0)) ∧
    (noteOffCount (Midi._PAD_MIDI_NOTE_MAP p) (op.apply m).2 ≠ 0 →
      (m._channel_states p).noteOn_sent = true ∧
      ((op.apply m).1._channel_states p).noteOn_sent = false) := by
  cases op with
  | isConnected pinReset =>
    simp [MidiOp.apply, MidiOp.noteOnOk, Midi.isConnected, noteOffCount, hinv]
  | sendNoteOn acks tick padID velocity channel =>
    obtain ⟨hcnt, hok, hfail⟩ :=
      sendNoteOn_spec m acks tick padID velocity channel (Midi._PAD_MIDI_NOTE_MAP p)
    simp only [MidiOp.apply, MidiOp.noteOnOk, hcnt]
    by_cases hr : (Midi.sendNoteOn m acks tick padID velocity channel).ret = true
    · simp only [hok hr]
      by_cases hp : padID = p
      · subst hp
        refine ⟨?_, ?_, by simp⟩
        · intro q
          by_cases hq : q = padID
          · subst hq; simp
          · simp [Function.update_noteq hq, hinv]
        · cases hf : (m._channel_states padID).noteOn_sent <;> simp [hr]
      · have hp2 : p ≠ padID := fun h => hp h.symm
        refine ⟨?_, ?_, by simp⟩
        · intro q
          by_cases hq : q = padID
          · subst hq; simp
          · simp [Function.update_noteq hq, hinv]
        · simp [hp, Function.update_noteq hp2]
    · have hr2 : (Midi.sendNoteOn m acks tick padID velocity channel).ret = false :=
        Bool.not_eq_true _ ▸ hr
      simp only [hfail hr2]
      simp [hr2, hinv]
  | sendNoteOff acks padID =>
    simp only [MidiOp.apply, MidiOp.noteOnOk]
    by_cases h : padID < MIDI_CHANNELS_NUM
    · obtain ⟨hoff, hon⟩ := sendNoteOff_spec m acks ⟨padID, h⟩
      simp only at hoff hon
      cases hf : (m._channel_states ⟨padID, h⟩).noteOn_sent with
      | false =>
        simp only [hoff hf]
        simp [noteOffCount, hinv]
      | true =>
        obtain ⟨hb, hst⟩ := hon hf
        simp only [hb, hst]
        have hmsg := noteOffCount_msg (Midi._PAD_MIDI_NOTE_MAP p) (m._channel_states ⟨padID, h⟩) []
        simp only [noteOffMsg, List.append_nil] at hmsg
        simp only [hmsg, hinv, note_map_lt]
        by_cases hp : (⟨padID, h⟩ : Fin MIDI_CHANNELS_NUM) = p
        · subst hp
          refine ⟨?_, ?_, ?_⟩
          · intro q
            by_cases hq : q = ⟨padID, h⟩
            · subst hq; simp [hinv]
            · simp [Function.update_noteq hq, hinv]
          · simp [hf, noteOffCount, statusByte_80_div, hinv, note_map_lt]
          · simp [hf]
        · have hp2 : p ≠ ⟨padID, h⟩ := fun e => hp e.symm
          have hne : Midi._PAD_MIDI_NOTE_MAP ⟨padID, h⟩ ≠ Midi._PAD_MIDI_NOTE_MAP p :=
            fun e => hp (note_map_injective _ _ e)
          refine ⟨?_, ?_, ?_⟩
          · intro q
            by_cases hq : q = ⟨padID, h⟩
            · subst hq; simp [hinv]
            · simp [Function.update_noteq hq, hinv]
          · simp [hne, noteOffCount, Function.update_noteq hp2, statusByte_80_div, hinv, note_map_lt]
          · simp [hne, noteOffCount, statusByte_80_div, hinv, note_map_lt]
    · have hno : Midi.sendNoteOff m acks padID = (m, []) := by
        simp [Midi.sendNoteOff, h]
      simp only [hno]
      simp [noteOffCount, hinv]
  | autoNoteOff acks now =>
    obtain ⟨hb, hst⟩ := autoNoteOff_fold acks now (List.finRange MIDI_CHANNELS_NUM)
      (List.nodup_finRange _) m []
    have hcnt := noteOffCount_sweep m now p hinv (List.finRange MIDI_CHANNELS_NUM)
      (List.nodup_finRange _)
    simp only [MidiOp.apply, MidiOp.noteOnOk, Midi.autoNoteOff]
    simp only [hb, List.nil_append, hcnt]
    refine ⟨?_, ?_, ?_⟩
    · intro q
      simp only [hst q]
      split_ifs <;> simp [hinv]
    · simp only [hst p]
      by_cases hd : offDue (m._channel_states p) now = true
      · have hf : (m._channel_states p).noteOn_sent = true := by
          simp [offDue] at hd; exact hd.1
        simp [hd, hf, List.mem_finRange]
      · simp [hd]
    · simp only [hst p]
      by_cases hd : offDue (m._channel_states p) now = true
      · have hf : (m._channel_states p).noteOn_sent = true := by
          simp [offDue] at hd; exact hd.1
        simp [hd, hf, List.mem_finRange]
      · simp [hd]

/-- The counts of pad `p` over a sequence of calls, from a state in which every
channel stores the note of its pad. -/
theorem trace_balance (ops : List MidiOp) (p : Fin MIDI_CHANNELS_NUM) (m : Midi)
    (hinv : ∀ q, (m._channel_states q).note = Midi._PAD_MIDI_NOTE_MAP q) :
    (∀ q, ((runOps m ops)._channel_states q).note = Midi._PAD_MIDI_NOTE_MAP q) ∧
    onsCount p m ops + (if (m._channel_states p).noteOn_sent then 1 else 0) =
      offsCount p m ops + (if ((runOps m ops)._channel_states p).noteOn_sent then 1 else 0) +
        retriggerCount p m ops := by
  induction ops generalizing m with
  | nil => simp [runOps, onsCount, offsCount, retriggerCount, hinv]
  | cons op rest ih =>
    obtain ⟨hinv2, hbal, _⟩ := op_balance m hinv op p
    obtain ⟨hinv3, hrest⟩ := ih (op.apply m).1 hinv2
    refine ⟨hinv3, ?_⟩
    simp only [runOps, onsCount, offsCount, retriggerCount]
    omega

theorem init_notes (q : Fin MIDI_CHANNELS_NUM) :
    (Midi.init._channel_states q).note = Midi._PAD_MIDI_NOTE_MAP q := rfl

/-- On a disconnected scheduler with no flag set, a call other than `isConnected`
changes nothing, requests nothing and is not a successful Note On. -/
theorem op_idle (m : Midi) (hc : m._connected = false)
    (hf : ∀ q, (m._channel_states q).noteOn_sent = false)
    (op : MidiOp) (hop : op.isConnectedCall = false) (p : Fin MIDI_CHANNELS_NUM) :
    op.apply m = (m, []) ∧ op.noteOnOk m p = false := by
  cases op with
  | isConnected pinReset => simp [MidiOp.isConnectedCall] at hop
  | sendNoteOn acks tick padID velocity channel =>
    simp [MidiOp.apply, MidiOp.noteOnOk, Midi.sendNoteOn, hc]
  | sendNoteOff acks padID =>
    by_cases h : padID < MIDI_CHANNELS_NUM
    · simp [MidiOp.apply, MidiOp.noteOnOk, Midi.sendNoteOff, h, hf]
    · simp [MidiOp.apply, MidiOp.noteOnOk, Midi.sendNoteOff, h]
  | autoNoteOff acks now =>
    have hfold : ∀ l : List (Fin MIDI_CHANNELS_NUM),
        l.foldl (Midi.autoNoteOffStep acks now) (m, []) = (m, []) := by
      intro l
      induction l with
      | nil => rfl
      | cons a rest ih =>
        have hstep : Midi.autoNoteOffStep acks now (m, []) a = (m, []) := by
          simp [Midi.autoNoteOffStep, hf]
        rw [List.foldl_cons, hstep, ih]
    simp [MidiOp.apply, MidiOp.noteOnOk, Midi.autoNoteOff, hfold]

/-- Without an `isConnected` call no Note On succeeds and nothing is requested. -/
theorem trace_idle (ops : List MidiOp) (p : Fin MIDI_CHANNELS_NUM) (m : Midi)
    (hc : m._connected = false) (hf : ∀ q, (m._channel_states q).noteOn_sent = false)
    (hops : ∀ op ∈ ops, op.isConnectedCall = false) :
    onsCount p m ops = 0 ∧ offsCount p m ops = 0 := by
  induction ops with
  | nil => simp [onsCount, offsCount]
  | cons op rest ih =>
    obtain ⟨hap, hok⟩ := op_idle m hc hf op (hops op (List.mem_cons_self _ _)) p
    have ih2 := ih (fun o ho => hops o (List.mem_cons_of_mem _ ho))
    simp [onsCount, offsCount, hap, hok, noteOffCount, ih2]

/-- C8, amended. For every sequence of `isConnected`, `sendNoteOn`,
`sendNoteOff(padID)` and `autoNoteOff` calls on a freshly constructed scheduler
and every pad, at every point of the trace the number of successful Note Ons
for the pad equals the number of Note Off messages requested for it, plus 1 if
its `noteOn_sent` flag is set, plus the number of successful Note Ons issued
while the flag was already set (`sendNoteOn` does not test the flag). A call
requests a Note Off for a pad only while the pad's flag is set, and clears it.
A trace without an `isConnected` call has no successful Note On and no Note
Off at all, the constructor leaving the scheduler disconnected. -/
theorem noteOn_noteOff_balance (ops : List MidiOp) (p : Fin MIDI_CHANNELS_NUM) :
    onsCount p Midi.init ops =
      offsCount p Midi.init ops +
        (if ((runOps Midi.init ops)._channel_states p).noteOn_sent then 1 else 0) +
        retriggerCount p Midi.init ops ∧
    (∀ op : MidiOp,
      noteOffCount (Midi._PAD_MIDI_NOTE_MAP p) (op.apply (runOps Midi.init ops)).2 ≠ 0 →
        ((runOps Midi.init ops)._channel_states p).noteOn_sent = true ∧
        ((op.apply (runOps Midi.init ops)).1._channel_states p).noteOn_sent = false) ∧
    ((∀ op ∈ ops, op.isConnectedCall = false) →
      onsCount p Midi.init ops = 0 ∧ offsCount p Midi.init ops = 0) := by
  obtain ⟨hinv, hbal⟩ := trace_balance ops p Midi.init init_notes
  refine ⟨?_, ?_, trace_idle ops p Midi.init rfl (fun _ => rfl)⟩
  · have h0 : (Midi.init._channel_states p).noteOn_sent = false := rfl
    simp only [h0] at hbal
    simpa using hbal
  · intro op
    exact (op_balance (runOps Midi.init ops) hinv op p).2.2

/-- Witness for C8: one Note On answered by the sweep 25 ms later; one Note On, one
Note Off, flag clear, no re-trigger. -/
theorem noteOn_noteOff_balance_witness :
    onsCount 0 Midi.init noteOnThenSweep = 1 ∧
    retriggerCount 0 Midi.init noteOnThenSweep = 0 ∧
    ((runOps Midi.init noteOnThenSweep)._channel_states 0).noteOn_sent = false ∧
    onsCount 0 Midi.init noteOnThenSweep =
      offsCount 0 Midi.init noteOnThenSweep +
        (if ((runOps Midi.init noteOnThenSweep)._channel_states 0).noteOn_sent then 1 else 0) +
        retriggerCount 0 Midi.init noteOnThenSweep :=
  ⟨by decide, by decide, by decide, (noteOn_noteOff_balance noteOnThenSweep 0).1⟩

/-- A call that is not a successful Note On for pad `p` keeps the note and channel
stored for `p`, and does not set its flag. -/
theorem op_keeps_note (m : Midi) (op : MidiOp) (p : Fin MIDI_CHANNELS_NUM)
    (h : op.noteOnOk m p = false) :
    ((op.apply m).1._channel_states p).note = (m._channel_states p).note ∧
    ((op.apply m).1._channel_states p).channel = (m._channel_states p).channel ∧
    (((op.apply m).1._channel_states p).noteOn_sent = true →
      (m._channel_states p).noteOn_sent = true) := by
  cases op with
  | isConnected pinReset => simp [MidiOp.apply, Midi.isConnected]
  | sendNoteOn acks tick padID velocity channel =>
    obtain ⟨_, hok, hfail⟩ := sendNoteOn_spec m acks tick padID velocity channel 0
    simp only [MidiOp.apply]
    cases hr : (Midi.sendNoteOn m acks tick padID velocity channel).ret with
    | false => simp [hfail hr]
    | true =>
      have hp : padID ≠ p := by
        intro e
        simp [MidiOp.noteOnOk, e ▸ hr, e] at h
      have hp2 : p ≠ padID := fun e => hp e.symm
      simp [hok hr, Function.update_noteq hp2]
  | sendNoteOff acks padID =>
    simp only [MidiOp.apply]
    by_cases hlt : padID < MIDI_CHANNELS_NUM
    · obtain ⟨hoff, hon⟩ := sendNoteOff_spec m acks ⟨padID, hlt⟩
      simp only at hoff hon
      cases hf : (m._channel_states ⟨padID, hlt⟩).noteOn_sent with
      | false => simp [hoff hf]
      | true =>
        obtain ⟨_, hst⟩ := hon hf
        simp only [hst]
        by_cases hp : p = ⟨padID, hlt⟩
        · subst hp; simp
        · simp [Function.update_noteq hp]
    · have hno : Midi.sendNoteOff m acks padID = (m, []) := by
        simp [Midi.sendNoteOff, hlt]
      simp [hno]
  | autoNoteOff acks now =>
    obtain ⟨_, hst⟩ := autoNoteOff_fold acks now (List.finRange MIDI_CHANNELS_NUM)
      (List.nodup_finRange _) m []
    simp only [MidiOp.apply, Midi.autoNoteOff, hst p]
    split_ifs <;> simp

/-- The stored note and channel of pad `p` after a sequence of calls are the ones
recorded by the last successful Note On for `p`, and the flag of `p` is set only
after such a Note On. -/
theorem lastNoteOn_stored (ops : List MidiOp) (p : Fin MIDI_CHANNELS_NUM) (m : Midi)
    (acc : Option (Nat × Nat))
    (hacc : ∀ n c, acc = some (n, c) →
      (m._channel_states p).note = n ∧ (m._channel_states p).channel = c)
    (hflag : (m._channel_states p).noteOn_sent = true → acc ≠ none) :
    (∀ n c, lastNoteOn p acc m ops = some (n, c) →
      ((runOps m ops)._channel_states p).note = n ∧
      ((runOps m ops)._channel_states p).channel = c) ∧
    (((runOps m ops)._channel_states p).noteOn_sent = true → lastNoteOn p acc m ops ≠ none) := by
  induction ops generalizing m acc with
  | nil => exact ⟨hacc, hflag⟩
  | cons op rest ih =>
    by_cases hok : op.noteOnOk m p = true
    · cases op with
      | sendNoteOn acks tick padID velocity channel =>
        simp only [MidiOp.noteOnOk, Bool.and_eq_true, decide_eq_true_eq] at hok
        obtain ⟨hp, hr⟩ := hok
        subst hp
        have hst := (sendNoteOn_spec m acks tick padID velocity channel 0).2.1 hr
        have hlast : lastNoteOn padID acc m (MidiOp.sendNoteOn acks tick padID velocity channel :: rest) =
            lastNoteOn padID (some (Midi._PAD_MIDI_NOTE_MAP padID, channel))
              (Midi.sendNoteOn m acks tick padID velocity channel).midi rest := by
          simp [lastNoteOn, hr]
        have hrun : runOps m (MidiOp.sendNoteOn acks tick padID velocity channel :: rest) =
            runOps (Midi.sendNoteOn m acks tick padID velocity channel).midi rest := rfl
        rw [hlast, hrun]
        apply ih
        · intro n c e
          simp only [Option.some.injEq, Prod.mk.injEq] at e
          rw [hst, Function.update_same]
          exact e
        · intro _
          simp
      | isConnected _ => simp [MidiOp.noteOnOk] at hok
      | sendNoteOff _ _ => simp [MidiOp.noteOnOk] at hok
      | autoNoteOff _ _ => simp [MidiOp.noteOnOk] at hok
    · have hok2 : op.noteOnOk m p = false := Bool.not_eq_true _ ▸ hok
      obtain ⟨hn, hc, hf⟩ := op_keeps_note m op p hok2
      have hacc2 : ∀ n c, acc = some (n, c) →
          ((op.apply m).1._channel_states p).note = n ∧
          ((op.apply m).1._channel_states p).channel = c := by
        intro n c e
        rw [hn, hc]
        exact hacc n c e
      have hflag2 : ((op.apply m).1._channel_states p).noteOn_sent = true → acc ≠ none :=
        fun h => hflag (hf h)
      cases op with
      | sendNoteOn acks tick padID velocity channel =>
        have hcond : ¬ (padID = p ∧
            (Midi.sendNoteOn m acks tick padID velocity channel).ret = true) := by
          intro h
          apply hok
          simp only [MidiOp.noteOnOk, Bool.and_eq_true, decide_eq_true_eq]
          exact h
        have hlast : lastNoteOn p acc m (MidiOp.sendNoteOn acks tick padID velocity channel :: rest) =
            lastNoteOn p acc (Midi.sendNoteOn m acks tick padID velocity channel).midi rest := by
          simp only [lastNoteOn, hcond, if_false]
        have hrun : runOps m (MidiOp.sendNoteOn acks tick padID velocity channel :: rest) =
            runOps (Midi.sendNoteOn m acks tick padID velocity channel).midi rest := rfl
        rw [hlast, hrun]
        exact ih _ acc hacc2 hflag2
      | isConnected pinReset =>
        simp only [lastNoteOn, runOps]
        exact ih _ acc hacc2 hflag2
      | sendNoteOff acks padID =>
        simp only [lastNoteOn, runOps]
        exact ih _ acc hacc2 hflag2
      | autoNoteOff acks now =>
        simp only [lastNoteOn, runOps]
        exact ih _ acc hacc2 hflag2

/-- C5. The call `sendNoteOff(padID)`: when `padID` is out of range or the pad's
`noteOn_sent` flag is false, no byte is requested and the object is unchanged.
Otherwise exactly the three bytes
`[0x80 | ((channel - 1) & 0x0F), note & 0x7F, 0x00]` are requested in that order,
with `note` and `channel` the values stored for that pad; afterwards the flag of
that pad is false, its other fields are as before, and every other pad's
channel state is unchanged. In every state reached from a freshly constructed
scheduler the stored values are the ones recorded by the last successful Note On
for that pad: the note of the pad and the channel of that call. -/
theorem sendNoteOff_call (m : Midi) (acks : Nat → Bool) (padID : Nat) :
    (padID ≥ MIDI_CHANNELS_NUM → Midi.sendNoteOff m acks padID = (m, [])) ∧
    (∀ h : padID < MIDI_CHANNELS_NUM,
      ((m._channel_states ⟨padID, h⟩).noteOn_sent = false →
        Midi.sendNoteOff m acks padID = (m, [])) ∧
      ((m._channel_states ⟨padID, h⟩).noteOn_sent = true →
        (Midi.sendNoteOff m acks padID).2 =
          [0x80 ||| (Int.land (((m._channel_states ⟨padID, h⟩).channel : Int) - 1) 0x0F).toNat,
           (m._channel_states ⟨padID, h⟩).note &&& 0x7F, 0x00] ∧
        (Midi.sendNoteOff m acks padID).2 =
          [0x80 + ((m._channel_states ⟨padID, h⟩).channel + 15) % 16,
           (m._channel_states ⟨padID, h⟩).note % 128, 0] ∧
        (Midi.sendNoteOff m acks padID).1._channel_states ⟨padID, h⟩ =
          { (m._channel_states ⟨padID, h⟩) with noteOn_sent := false } ∧
        (∀ j, j ≠ (⟨padID, h⟩ : Fin MIDI_CHANNELS_NUM) →
          (Midi.sendNoteOff m acks padID).1._channel_states j = m._channel_states j))) ∧
    (∀ ops, m = runOps Midi.init ops → ∀ h : padID < MIDI_CHANNELS_NUM,
      (m._channel_states ⟨padID, h⟩).noteOn_sent = true →
      ∃ channel,
        lastNoteOn ⟨padID, h⟩ none Midi.init ops =
          some (Midi._PAD_MIDI_NOTE_MAP ⟨padID, h⟩, channel) ∧
        (Midi.sendNoteOff m acks padID).2 =
          [0x80 ||| (Int.land ((channel : Int) - 1) 0x0F).toNat,
           Midi._PAD_MIDI_NOTE_MAP ⟨padID, h⟩ &&& 0x7F, 0x00]) := by
  refine ⟨?_, ?_, ?_⟩
  · intro hge
    have : ¬ padID < MIDI_CHANNELS_NUM := Nat.not_lt.mpr hge
    simp [Midi.sendNoteOff, this]
  rotate_left
  · intro ops hm h hf
    subst hm
    obtain ⟨hstored, hsome⟩ := lastNoteOn_stored ops ⟨padID, h⟩ Midi.init none
      (by intro n c e; cases e) (by intro e; cases e)
    have hinv := (trace_balance ops ⟨padID, h⟩ Midi.init init_notes).1
    cases hl : lastNoteOn ⟨padID, h⟩ none Midi.init ops with
    | none => exact absurd hl (hsome hf)
    | some nc =>
      obtain ⟨n, c⟩ := nc
      obtain ⟨hn, hc⟩ := hstored n c hl
      have hn2 : n = Midi._PAD_MIDI_NOTE_MAP ⟨padID, h⟩ := by rw [← hn, hinv]
      refine ⟨c, by rw [hn2], ?_⟩
      obtain ⟨hb, _⟩ := (sendNoteOff_spec (runOps Midi.init ops) acks ⟨padID, h⟩).2 hf
      simp only at hb
      rw [hb, hc, hinv]
      rfl
  · intro h
    have hs := sendNoteOff_spec m acks ⟨padID, h⟩
    refine ⟨hs.1, ?_⟩
    intro hf
    obtain ⟨hb, hst⟩ := hs.2 hf
    simp only at hb hst
    refine ⟨hb, ?_, ?_, ?_⟩
    · rw [hb, statusByte_80, and_7F]
    · rw [hst, Function.update_same]
    · intro j hj
      rw [hst, Function.update_noteq hj]

/-- Witness for C5: with a Note On outstanding for pad 2 (note 49, channel 10),
`sendNoteOff(2)` requests `0x89, 49, 0` and clears the flag. -/
theorem sendNoteOff_call_witness :
    (Midi.sendNoteOff midiCrashOn allAcks 2).2 = [0x89, 49, 0] ∧
    ((Midi.sendNoteOff midiCrashOn allAcks 2).1._channel_states 2).noteOn_sent = false := by
  have h := (sendNoteOff_call midiCrashOn allAcks 2).2.1 (by decide)
  have h2 := h.2 (by decide)
  exact ⟨h2.2.1, congrArg ChnState.noteOn_sent h2.2.2.1⟩

/-! ## Theorems: single-precision rounding -/

theorem roundHalfEven_intCast (n : ℤ) : roundHalfEven (n : ℚ) = n := by
  simp [roundHalfEven]

theorem floor_le_roundHalfEven (q : ℚ) : ⌊q⌋ ≤ roundHalfEven q := by
  unfold roundHalfEven
  split_ifs <;> omega

theorem le_roundHalfEven (k : ℤ) (q : ℚ) (h : (k : ℚ) ≤ q) : k ≤ roundHalfEven q :=
  le_trans (Int.le_floor.mpr h) (floor_le_roundHalfEven q)

theorem rnd32_exact (m k : ℤ) (hm : |m| < 2 ^ 24) :
    rnd32 ((m : ℚ) * 2 ^ k) = (m : ℚ) * 2 ^ k := by
  by_cases hm0 : m = 0
  · simp [rnd32, hm0]
  have h2 : (2 : ℚ) ≠ 0 := by norm_num
  have hx : (m : ℚ) * 2 ^ k ≠ 0 := mul_ne_zero (by exact_mod_cast hm0) (zpow_ne_zero k h2)
  have hpos : 0 < abs ((m : ℚ) * 2 ^ k) := abs_pos.mpr hx
  have hlo := Int.zpow_log_le_self (b := 2) (by norm_num) hpos
  have habs : abs ((m : ℚ) * 2 ^ k) = (abs m : ℤ) * 2 ^ k := by
    rw [abs_mul, abs_of_pos (zpow_pos (by norm_num : (0 : ℚ) < 2) k)]
    push_cast
    rfl
  have hup : abs ((m : ℚ) * 2 ^ k) < 2 ^ (24 + k) := by
    rw [habs, zpow_add₀ h2]
    apply mul_lt_mul_of_pos_right _ (zpow_pos (by norm_num : (0 : ℚ) < 2) k)
    exact_mod_cast hm
  have he : Int.log 2 (abs ((m : ℚ) * 2 ^ k)) < 24 + k := by
    have hlt := lt_of_le_of_lt hlo hup
    have : ((2 : ℕ) : ℚ) = 2 := by norm_num
    rw [this] at hlt
    exact (zpow_lt_zpow_iff_right₀ (by norm_num : (1 : ℚ) < 2)).mp hlt
  simp only [rnd32, hx, if_false]
  generalize Int.log 2 (abs ((m : ℚ) * 2 ^ k)) = e at he ⊢
  obtain ⟨j, hj⟩ : ∃ j : ℕ, k - (e - 23) = j := ⟨(k - (e - 23)).toNat, by omega⟩
  have hdiv : (m : ℚ) * 2 ^ k / 2 ^ (e - 23) = ((m * 2 ^ j : ℤ) : ℚ) := by
    rw [mul_div_assoc, ← zpow_sub₀ h2, hj, zpow_natCast]
    push_cast
    rfl
  rw [hdiv, roundHalfEven_intCast]
  push_cast
  rw [mul_assoc, ← zpow_natCast, ← zpow_add₀ h2, ← hj]
  congr 2
  ring

theorem rnd32_natCast (n : ℕ) (h : n < 2 ^ 24) : rnd32 (n : ℚ) = n := by
  have := rnd32_exact (n : ℤ) 0 (by rw [abs_of_nonneg (by positivity)]; exact_mod_cast h)
  simpa using this

theorem rnd32_nonneg (x : ℚ) (h : 0 ≤ x) : 0 ≤ rnd32 x := by
  unfold rnd32
  split_ifs with hx
  · exact le_refl 0
  · have hu : (0 : ℚ) < 2 ^ (Int.log 2 (abs x) - 23) := zpow_pos (by norm_num) _
    apply mul_nonneg _ hu.le
    have : (0 : ℤ) ≤ roundHalfEven (x / 2 ^ (Int.log 2 (abs x) - 23)) :=
      le_roundHalfEven 0 _ (by simpa using div_nonneg h hu.le)
    exact_mod_cast this

theorem one_le_rnd32 (x : ℚ) (h : 1 ≤ x) : 1 ≤ rnd32 x := by
  have hx0 : x ≠ 0 := by linarith
  have hpos : 0 < x := by linarith
  have habs : abs x = x := abs_of_pos hpos
  simp only [rnd32, hx0, if_false, habs]
  have h2 : (2 : ℚ) ≠ 0 := by norm_num
  have hlo := Int.zpow_log_le_self (b := 2) (r := x) (by norm_num) hpos
  have he : 0 ≤ Int.log 2 x := by
    rw [Int.log_of_one_le_right 2 h]
    exact Int.natCast_nonneg _
  generalize Int.log 2 x = e at hlo he
  have hcast : ((2 : ℕ) : ℚ) = 2 := by norm_num
  rw [hcast] at hlo
  have hu : (0 : ℚ) < 2 ^ (e - 23) := zpow_pos (by norm_num) _
  have hsplit : (2 : ℚ) ^ e = 8388608 * 2 ^ (e - 23) := by
    have h23 : (8388608 : ℚ) = 2 ^ (23 : ℤ) := by norm_num
    rw [h23, ← zpow_add₀ h2]
    congr 1
    omega
  have hq : ((8388608 : ℤ) : ℚ) ≤ x / 2 ^ (e - 23) := by
    rw [le_div_iff₀ hu]
    push_cast
    rw [← hsplit]
    exact hlo
  have hr := le_roundHalfEven 8388608 _ hq
  have hr2 : (8388608 : ℚ) ≤ (roundHalfEven (x / 2 ^ (e - 23)) : ℚ) := by exact_mod_cast hr
  have h1 : (1 : ℚ) ≤ 2 ^ e := one_le_zpow₀ (by norm_num) he
  calc (1 : ℚ) ≤ 2 ^ e := h1
    _ = 8388608 * 2 ^ (e - 23) := hsplit
    _ ≤ roundHalfEven (x / 2 ^ (e - 23)) * 2 ^ (e - 23) :=
        mul_le_mul_of_nonneg_right hr2 hu.le

theorem fadd_one_ge (x : ℚ) (h : 0 ≤ x) : 1 ≤ fadd x 1 :=
  one_le_rnd32 _ (by linarith)

theorem one_le_fadd_one (x : ℚ) (h : 0 ≤ x) : 1 ≤ fadd 1 x :=
  one_le_rnd32 _ (by linarith)

theorem fmul_nonneg (x y : ℚ) (hx : 0 ≤ x) (hy : 0 ≤ y) : 0 ≤ fmul x y :=
  rnd32_nonneg _ (mul_nonneg hx hy)

theorem fdiv_nonneg (x y : ℚ) (hx : 0 ≤ x) (hy : 0 ≤ y) : 0 ≤ fdiv x y :=
  rnd32_nonneg _ (div_nonneg hx hy)

/-- The normalised value `(float)num / (float)den` is not negative. -/
theorem temp_nonneg (num den : Nat) : 0 ≤ fdiv (rnd32 (num : ℚ)) (rnd32 (den : ℚ)) :=
  fdiv_nonneg _ _ (rnd32_nonneg _ (Nat.cast_nonneg _)) (rnd32_nonneg _ (Nat.cast_nonneg _))

/-- The value of `temp` after the `switch` is at least 1, for a library whose `log`
is not negative from 1 on and positive at 10 and whose `pow(x, 1.5)` is not
negative for `x ≥ 0`. -/
theorem floatCurve_ge_one (L : Libm) (hlog : ∀ x, 1 ≤ x → 0 ≤ L.log x) (hlog10 : 0 < L.log 10)
    (hpow : ∀ x, 0 ≤ x → 0 ≤ L.pow x (3 / 2))
    (curve : ForceMappingCurve) (num den : Nat) : 1 ≤ floatCurve L curve num den := by
  have ht := temp_nonneg num den
  cases curve with
  | CURVE_LINEAR =>
    exact fadd_one_ge _ (fmul_nonneg _ _ ht (by norm_num))
  | CURVE_LOG =>
    have hx : 1 ≤ fadd 1 (fmul (fdiv (rnd32 (num : ℚ)) (rnd32 (den : ℚ))) 9) :=
      one_le_fadd_one _ (fmul_nonneg _ _ ht (by norm_num))
    exact fadd_one_ge _ (fmul_nonneg _ _ (fdiv_nonneg _ _ (hlog _ hx) hlog10.le) (by norm_num))
  | CURVE_EXP =>
    exact fadd_one_ge _ (fmul_nonneg _ _ (hpow _ ht) (by norm_num))

/-- At full scale (`num = den`) the value of `temp` after the `switch` is exactly
127, for a library with `log(10) ≠ 0` and `pow(1, 1.5) = 1`. -/
theorem floatCurve_full_scale (L : Libm) (hlog10 : L.log 10 ≠ 0) (hpow1 : L.pow 1 (3 / 2) = 1)
    (curve : ForceMappingCurve) (d : Nat) (hd : 0 < d) (hd2 : d < 2 ^ 24) :
    floatCurve L curve d d = 127 := by
  have hdq : (d : ℚ) ≠ 0 := by exact_mod_cast (Nat.pos_iff_ne_zero.mp hd)
  have h1 : rnd32 1 = 1 := by simpa using rnd32_natCast 1 (by norm_num)
  have h9 : rnd32 9 = 9 := by simpa using rnd32_natCast 9 (by norm_num)
  have h10 : rnd32 10 = 10 := by simpa using rnd32_natCast 10 (by norm_num)
  have h126 : rnd32 126 = 126 := by simpa using rnd32_natCast 126 (by norm_num)
  have h127 : rnd32 127 = 127 := by simpa using rnd32_natCast 127 (by norm_num)
  have ht : fdiv (rnd32 (d : ℚ)) (rnd32 (d : ℚ)) = 1 := by
    rw [rnd32_natCast d hd2, fdiv, div_self hdq, h1]
  cases curve with
  | CURVE_LINEAR =>
    simp only [floatCurve, ht, fadd, fmul]
    norm_num [h126, h127]
  | CURVE_LOG =>
    have e1 : fmul 1 9 = 9 := by simp [fmul, h9]
    have e2 : fadd 1 9 = 10 := by norm_num [fadd, h10]
    have e3 : fdiv (L.log 10) (L.log 10) = 1 := by rw [fdiv, div_self hlog10, h1]
    have e4 : fmul 1 126 = 126 := by simp [fmul, h126]
    have e5 : fadd 126 1 = 127 := by norm_num [fadd, h127]
    simp only [floatCurve, ht, e1, e2, e3, e4, e5]
  | CURVE_EXP =>
    simp only [floatCurve, ht, fadd, fmul, hpow1]
    norm_num [h126, h127]

/-! ## Theorems: velocity curve mapper -/

/-- The result of `_force_map` lies in `1..127` when the value of `temp` after the
`switch` is at least 1. -/
theorem force_map_within_of_ge_one (fp : CurveEval) (hfp : ∀ c n d, 1 ≤ fp c n d) (p : Pad)
    (adc_val : Nat) :
    1 ≤ Pad._force_map fp p adc_val ∧ Pad._force_map fp p adc_val ≤ 127 := by
  by_cases h1 : adc_val ≤ p._hit_threshold
  · simp [Pad._force_map, h1]
  by_cases h2 : (p._upper_limit + 65536 - p._hit_threshold % 65536) % 65536 ≤ 0
  · simp only [Pad._force_map, h1, if_false, h2, if_true]
    exact ⟨le_refl 1, by norm_num⟩
  have hy := hfp p._force_curve (adc_val - p._hit_threshold)
    ((p._upper_limit + 65536 - p._hit_threshold % 65536) % 65536)
  by_cases h3 : fp p._force_curve (adc_val - p._hit_threshold)
      ((p._upper_limit + 65536 - p._hit_threshold % 65536) % 65536) ≥ 126.5
  · have hfloor : ⌊(127 : ℚ)⌋ = 127 := by
      exact_mod_cast Int.floor_natCast (α := ℚ) 127
    simp only [Pad._force_map, h1, if_false, h2, h3, if_true, hfloor]
    exact ⟨by decide, by decide⟩
  · have hlt : fp p._force_curve (adc_val - p._hit_threshold)
        ((p._upper_limit + 65536 - p._hit_threshold % 65536) % 65536) < 126.5 := not_le.mp h3
    have hlo : (1 : ℤ) ≤ ⌊fp p._force_curve (adc_val - p._hit_threshold)
        ((p._upper_limit + 65536 - p._hit_threshold % 65536) % 65536)⌋ :=
      Int.le_floor.mpr (by simpa using hy)
    have hhi : ⌊fp p._force_curve (adc_val - p._hit_threshold)
        ((p._upper_limit + 65536 - p._hit_threshold % 65536) % 65536)⌋ < 127 :=
      Int.floor_lt.mpr (by norm_num at hlt ⊢; linarith)
    simp only [Pad._force_map, h1, if_false, h2, h3]
    omega

/-- The force stored by a finalizing `measureForce` call is 127 or a value of
`_force_map`. -/
theorem measureForce_force (fp : CurveEval) (p : Pad) (now v : Nat)
    (hm : p._adc_measuring = true)
    (hdone : (Pad.measureForce fp p now v)._adc_measuring = false) :
    (Pad.measureForce fp p now v)._force = 127 ∨
    ∃ q adc_val, (Pad.measureForce fp p now v)._force = Pad._force_map fp q adc_val := by
  revert hdone
  simp only [Pad.measureForce, hm, if_true]
  split_ifs <;> simp_all

/-- The body of `_force_map` outside the guard of its call site. A hit threshold
equal to the upper limit makes `_force_map` return 1 for every input. With the
threshold above the limit the `uint16_t` difference `orig_delta` wraps to a
positive range and the guard `orig_delta <= 0` does not fire: for threshold
40000, upper limit 7232 and the input 56384 (which `measureForce` never passes,
as it is not below the upper limit) the range is 32768, the normalised value
is `16384 / 32768 = 0.5` and the linear curve gives `0.5 * 126 + 1 = 64`, every
operation being exact. -/
theorem force_map_inverted_calibration :
    (∀ (fp : CurveEval) (p : Pad) (adc_val : Nat), p._hit_threshold = p._upper_limit →
      Pad._force_map fp p adc_val = 1) ∧
    (∀ L : Libm, Pad._force_map (floatCurve L) padInverted 56384 = 64) := by
  constructor
  · intro fp p adc_val h
    unfold Pad._force_map
    have : (p._upper_limit + 65536 - p._hit_threshold % 65536) % 65536 = 0 := by
      rw [h]; omega
    simp [this]
  · intro L
    have hhalf : rnd32 (1 / 2) = 1 / 2 := by
      have := rnd32_exact 1 (-1) (by norm_num)
      norm_num at this
      exact this
    have h63 : rnd32 63 = 63 := by simpa using rnd32_natCast 63 (by norm_num)
    have h64 : rnd32 64 = 64 := by simpa using rnd32_natCast 64 (by norm_num)
    have hn : rnd32 ((16384 : ℕ) : ℚ) = 16384 := by simpa using rnd32_natCast 16384 (by norm_num)
    have hd : rnd32 ((32768 : ℕ) : ℚ) = 32768 := by simpa using rnd32_natCast 32768 (by norm_num)
    have hcurve : floatCurve L ForceMappingCurve.CURVE_LINEAR 16384 32768 = 64 := by
      simp only [floatCurve, fdiv, fmul, fadd, hn, hd]
      norm_num [hhalf, h63, h64]
    have hfloor : ⌊(64 : ℚ)⌋ = 64 := by
      exact_mod_cast Int.floor_natCast (α := ℚ) 64
    have e : Pad._force_map (floatCurve L) padInverted 56384 =
        (Int.toNat ⌊(if floatCurve L ForceMappingCurve.CURVE_LINEAR 16384 32768 ≥ 126.5 then 127
          else floatCurve L ForceMappingCurve.CURVE_LINEAR 16384 32768 : ℚ)⌋) % 256 := by
      simp [Pad._force_map, padInverted, Pad.init]
    rw [e, hcurve]
    have hge : ¬ ((64 : ℚ) ≥ 126.5) := by norm_num
    simp only [hge, if_false, hfloor]
    rfl

/-- C14. For every pad with `_upper_limit > _hit_threshold` (both `uint16_t`) and
each of the three curves, `_force_map(_hit_threshold) = 1` and
`_force_map(_upper_limit) = 127`, in single precision with a C library for which
`log(10)` is not 0 and `pow(1, 1.5)` is 1: the normalised value is exactly 1 and
the curve value exactly 127. -/
theorem force_map_boundaries (L : Libm) (hlog10 : L.log 10 ≠ 0)
    (hpow1 : L.pow 1 (3 / 2) = 1) (p : Pad) (h : p._hit_threshold < p._upper_limit)
    (hu : p._upper_limit < 65536) :
    Pad._force_map (floatCurve L) p p._hit_threshold = 1 ∧
    Pad._force_map (floatCurve L) p p._upper_limit = 127 := by
  constructor
  · simp [Pad._force_map]
  · have hne : ¬ p._upper_limit ≤ p._hit_threshold := Nat.not_le.mpr h
    have hdelta : (p._upper_limit + 65536 - p._hit_threshold % 65536) % 65536 =
        p._upper_limit - p._hit_threshold := by omega
    have hpos : 0 < p._upper_limit - p._hit_threshold := by omega
    have hfull := floatCurve_full_scale L hlog10 hpow1 p._force_curve
      (p._upper_limit - p._hit_threshold) hpos (by omega)
    have hfloor : ⌊(127 : ℚ)⌋ = 127 := by
      exact_mod_cast Int.floor_natCast (α := ℚ) 127
    have hd0 : ¬ p._upper_limit - p._hit_threshold ≤ 0 := by omega
    have hge : (127 : ℚ) ≥ 126.5 := by norm_num
    simp only [Pad._force_map, hne, if_false, hdelta, hd0, hfull, hge, if_true, hfloor]
    rfl

/-- C15. For every calibration, curve and input, `_force_map` returns a value in
`1..127`, in single precision with a C library whose `log` is not negative from
1 on and positive at 10 and whose `pow(x, 1.5)` is not negative for `x ≥ 0`;
hence the force stored by a finalizing `measureForce` call is in `1..127`. -/
theorem force_map_range (L : Libm) (hlog : ∀ x, 1 ≤ x → 0 ≤ L.log x) (hlog10 : 0 < L.log 10)
    (hpow : ∀ x, 0 ≤ x → 0 ≤ L.pow x (3 / 2)) (p : Pad) :
    (∀ adc_val, 1 ≤ Pad._force_map (floatCurve L) p adc_val ∧
      Pad._force_map (floatCurve L) p adc_val ≤ 127) ∧
    (∀ now v, p._adc_measuring = true →
      (Pad.measureForce (floatCurve L) p now v)._adc_measuring = false →
      1 ≤ (Pad.measureForce (floatCurve L) p now v)._force ∧
      (Pad.measureForce (floatCurve L) p now v)._force ≤ 127) := by
  have hfp := floatCurve_ge_one L hlog hlog10 hpow
  constructor
  · intro adc_val
    exact force_map_within_of_ge_one _ hfp p adc_val
  · intro now v hm hdone
    rcases measureForce_force (floatCurve L) p now v hm hdone with h | ⟨q, a, h⟩
    · rw [h]; exact ⟨by decide, le_refl _⟩
    · rw [h]; exact force_map_within_of_ge_one _ hfp q a

/-- Witness for C14: the pad `OpenHiHat` (threshold 1333, upper limit 2084). -/
theorem force_map_boundaries_witness :
    padOpenHiHat._hit_threshold < padOpenHiHat._upper_limit ∧
    Pad._force_map (floatCurve tangentLibm) padOpenHiHat 1333 = 1 ∧
    Pad._force_map (floatCurve tangentLibm) padOpenHiHat 2084 = 127 :=
  ⟨by decide,
   force_map_boundaries tangentLibm (by norm_num [tangentLibm]) rfl padOpenHiHat
     (by decide) (by decide)⟩

/-- Witness for C15: the pad `OpenHiHat` at the ADC value 1700. -/
theorem force_map_range_witness :
    1 ≤ Pad._force_map (floatCurve tangentLibm) padOpenHiHat 1700 ∧
    Pad._force_map (floatCurve tangentLibm) padOpenHiHat 1700 ≤ 127 :=
  (force_map_range tangentLibm (by intro x hx; simp only [tangentLibm]; linarith)
    (by norm_num [tangentLibm]) (by intro x hx; exact hx) padOpenHiHat).1 1700

/-! ## Theorems: debounce runs -/

/-- A `debounce` call whose sample differs from the last raw level, or comes less
than `_debounce_ms` after the last raw change, keeps the stable level and
returns it. -/
theorem debounce_keeps (b : OneButtonTiny) (tick : Nat) (sample : Int)
    (h : sample = b._lastDebouncePinLevel →
      sub32 tick b._lastDebounceTime < b._debounce_ms) :
    (debounce b tick sample).1.debouncedPinLevel = b.debouncedPinLevel ∧
    (debounce b tick sample).2 = b.debouncedPinLevel := by
  by_cases he : b._lastDebouncePinLevel = sample
  · have hw := h he.symm
    simp [debounce, he, Nat.not_le.mpr hw]
  · simp [debounce, he]

/-- C11. Debounce stability: over a sequence of `debounce` calls in which every
call whose sample equals `_lastDebouncePinLevel` comes less than `_debounce_ms`
after `_lastDebounceTime` (the raw sample never stays equal for `_debounce_ms`),
every call returns the stable level held before the sequence, and that level is
still held after it. The timestamps may be any `uint32_t` ticks, nondecreasing
ones in particular. -/
theorem debounce_stability (b : OneButtonTiny) (calls : List (Nat × Int))
    (h : neverSettles b calls) :
    (∀ level ∈ (debounceRun b calls).2, level = b.debouncedPinLevel) ∧
    (debounceRun b calls).1.debouncedPinLevel = b.debouncedPinLevel := by
  induction calls generalizing b with
  | nil => simp [debounceRun]
  | cons c rest ih =>
    obtain ⟨tick, sample⟩ := c
    obtain ⟨hc, hrest⟩ := h
    obtain ⟨hk1, hk2⟩ := debounce_keeps b tick sample hc
    obtain ⟨ih1, ih2⟩ := ih (debounce b tick sample).1 hrest
    constructor
    · intro level hl
      simp only [debounceRun, List.mem_cons] at hl
      rcases hl with hl | hl
      · rw [hl, hk2]
      · rw [ih1 level hl, hk1]
    · simp only [debounceRun]
      rw [ih2, hk1]

/-- Witness for C11: a raw level flipping every 20 ms never changes the stable
level 1. -/
theorem debounce_stability_witness :
    neverSettles buttonStable bouncingCalls ∧
    (debounceRun buttonStable bouncingCalls).2 = [1, 1, 1, 1, 1, 1, 1, 1] ∧
    (∀ level ∈ (debounceRun buttonStable bouncingCalls).2,
      level = buttonStable.debouncedPinLevel) :=
  ⟨by decide, by decide, (debounce_stability buttonStable bouncingCalls (by decide)).1⟩

/-! ## Theorems: MIDI note scheduler, failures and scenarios -/

/-- C12. The call `sendNoteOn` on a transport that is not connected returns false,
requests no byte and leaves the object unchanged (connection flag false). On a
connected transport, when the first, second or third `_sendByte` call fails (the
first: `_ack` clear and no acknowledgment in time; the others: no acknowledgment
in time), the call returns false, has requested the bytes up to the failed one
and none after it, leaves every pad's channel state unchanged and leaves the
connection flag false. The call returns false in these cases only. -/
theorem sendNoteOn_failure (m : Midi) (acks : Nat → Bool) (tick : Nat)
    (padID : Fin MIDI_CHANNELS_NUM) (velocity channel : Nat) :
    (m._connected = false →
      (Midi.sendNoteOn m acks tick padID velocity channel).ret = false ∧
      (Midi.sendNoteOn m acks tick padID velocity channel).requested = [] ∧
      (Midi.sendNoteOn m acks tick padID velocity channel).midi = m) ∧
    (m._connected = true → (m._ack || acks 0) = false →
      (Midi.sendNoteOn m acks tick padID velocity channel).ret = false ∧
      (Midi.sendNoteOn m acks tick padID velocity channel).requested =
        [0x90 ||| (Int.land ((channel : Int) - 1) 0x0F).toNat] ∧
      (Midi.sendNoteOn m acks tick padID velocity channel).midi._channel_states =
        m._channel_states ∧
      (Midi.sendNoteOn m acks tick padID velocity channel).midi._connected = false) ∧
    (m._connected = true → (m._ack || acks 0) = true → acks 1 = false →
      (Midi.sendNoteOn m acks tick padID velocity channel).ret = false ∧
      (Midi.sendNoteOn m acks tick padID velocity channel).requested =
        [0x90 ||| (Int.land ((channel : Int) - 1) 0x0F).toNat,
         Midi._PAD_MIDI_NOTE_MAP padID &&& 0x7F] ∧
      (Midi.sendNoteOn m acks tick padID velocity channel).midi._channel_states =
        m._channel_states ∧
      (Midi.sendNoteOn m acks tick padID velocity channel).midi._connected = false) ∧
    (m._connected = true → (m._ack || acks 0) = true → acks 1 = true → acks 2 = false →
      (Midi.sendNoteOn m acks tick padID velocity channel).ret = false ∧
      (Midi.sendNoteOn m acks tick padID velocity channel).requested =
        [0x90 ||| (Int.land ((channel : Int) - 1) 0x0F).toNat,
         Midi._PAD_MIDI_NOTE_MAP padID &&& 0x7F, velocity &&& 0x7F] ∧
      (Midi.sendNoteOn m acks tick padID velocity channel).midi._channel_states =
        m._channel_states ∧
      (Midi.sendNoteOn m acks tick padID velocity channel).midi._connected = false) ∧
    ((Midi.sendNoteOn m acks tick padID velocity channel).ret = false ↔
      (m._connected = false ∨ (m._ack || acks 0) = false ∨ acks 1 = false ∨
        acks 2 = false)) := by
  refine ⟨?_, ?_, ?_, ?_, ?_⟩
  · intro hc
    simp [Midi.sendNoteOn, hc]
  · intro hc h0
    simp [Midi.sendNoteOn, Midi.sendNoteOnLoop, Midi._sendByte, hc, h0, statusByte]
  · intro hc h0 h1
    simp [Midi.sendNoteOn, Midi.sendNoteOnLoop, Midi._sendByte, hc, h0, h1, statusByte]
  · intro hc h0 h1 h2
    simp [Midi.sendNoteOn, Midi.sendNoteOnLoop, Midi._sendByte, hc, h0, h1, h2, statusByte]
  · cases hc : m._connected <;> cases h0 : (m._ack || acks 0) <;> cases h1 : acks 1 <;>
      cases h2 : acks 2 <;>
      simp [Midi.sendNoteOn, Midi.sendNoteOnLoop, Midi._sendByte, hc, h0, h1, h2]

/-- Witness for C12: on a connected scheduler the acknowledgment of the second
byte of a Note On for pad 5 is late; two bytes are requested and the call fails. -/
theorem sendNoteOn_failure_witness :
    midiConnected._connected = true ∧
    (Midi.sendNoteOn midiConnected secondAckLate 7 5 100 10).ret = false ∧
    (Midi.sendNoteOn midiConnected secondAckLate 7 5 100 10).requested = [0x99, 35] ∧
    (Midi.sendNoteOn midiConnected secondAckLate 7 5 100 10).midi._connected = false := by
  have h := (sendNoteOn_failure midiConnected secondAckLate 7 5 100 10).2.2.1 rfl rfl rfl
  exact ⟨rfl, h.1, h.2.1, h.2.2.2⟩

theorem flatMap_single {α β : Type} (l : List α) (hl : l.Nodup) (a : α) (ha : a ∈ l)
    (f : α → List β) (h : ∀ x, x ≠ a → f x = []) : l.flatMap f = f a := by
  induction l with
  | nil => cases ha
  | cons x rest ih =>
    have hnot : x ∉ rest := (List.nodup_cons.mp hl).1
    rw [List.flatMap_cons]
    by_cases hx : x = a
    · subst hx
      have : rest.flatMap f = [] := by
        rw [List.flatMap_eq_nil_iff]
        intro y hy
        exact h y (fun e => hnot (e ▸ hy))
      rw [this, List.append_nil]
    · have ha2 : a ∈ rest := by
        rcases List.mem_cons.mp ha with e | e
        · exact absurd e.symm hx
        · exact e
      rw [h x hx, List.nil_append]
      exact ih (List.nodup_cons.mp hl).2 ha2

/-- A sweep over a scheduler with no flag set requests nothing. -/
theorem autoNoteOff_idle (m : Midi) (acks : Fin MIDI_CHANNELS_NUM → Nat → Bool) (now : Nat)
    (h : ∀ q, (m._channel_states q).noteOn_sent = false) :
    (Midi.autoNoteOff m acks now).2 = [] := by
  obtain ⟨hb, _⟩ := autoNoteOff_fold acks now (List.finRange MIDI_CHANNELS_NUM)
    (List.nodup_finRange _) m []
  unfold Midi.autoNoteOff
  rw [hb, List.nil_append, List.flatMap_eq_nil_iff]
  intro q _
  simp [offDue, h q]

/-- C19. Scenario D: on a connected scheduler with no note outstanding, after a
successful `sendNoteOn` for a pad at tick 0 on channel 10, `autoNoteOff` at tick
25 requests exactly the three bytes `0x89, note, 0x00` of one Note Off, with the
note stored by the Note On, and clears the flag of the pad; a further
`autoNoteOff`, at any tick, requests nothing. -/
theorem noteOff_after_delay (m : Midi) (acks : Nat → Bool)
    (acks1 acks2 : Fin MIDI_CHANNELS_NUM → Nat → Bool)
    (padID : Fin MIDI_CHANNELS_NUM) (velocity : Nat)
    (hc : m._connected = true) (h0 : m._ack = true ∨ acks 0 = true)
    (h1 : acks 1 = true) (h2 : acks 2 = true)
    (hidle : ∀ q, (m._channel_states q).noteOn_sent = false) :
    (Midi.sendNoteOn m acks 0 padID velocity 10).ret = true ∧
    ((Midi.sendNoteOn m acks 0 padID velocity 10).midi._channel_states padID).note =
      Midi._PAD_MIDI_NOTE_MAP padID ∧
    (Midi.autoNoteOff (Midi.sendNoteOn m acks 0 padID velocity 10).midi acks1 25).2 =
      [0x89, Midi._PAD_MIDI_NOTE_MAP padID, 0x00] ∧
    ((Midi.autoNoteOff (Midi.sendNoteOn m acks 0 padID velocity 10).midi acks1
      25).1._channel_states padID).noteOn_sent = false ∧
    (∀ now,
      (Midi.autoNoteOff (Midi.autoNoteOff (Midi.sendNoteOn m acks 0 padID velocity 10).midi
        acks1 25).1 acks2 now).2 = []) := by
  have hfirst : (m._ack || acks 0) = true := by
    rcases h0 with h | h <;> simp [h]
  have hret : (Midi.sendNoteOn m acks 0 padID velocity 10).ret = true := by
    simp [Midi.sendNoteOn, Midi.sendNoteOnLoop, Midi._sendByte, hc, hfirst, h1, h2]
  have hst := (sendNoteOn_spec m acks 0 padID velocity 10 0).2.1 hret
  generalize (Midi.sendNoteOn m acks 0 padID velocity 10).midi = m1 at hst ⊢
  obtain ⟨hb, hcs⟩ := autoNoteOff_fold acks1 25 (List.finRange MIDI_CHANNELS_NUM)
    (List.nodup_finRange _) m1 []
  have hdue : offDue (m1._channel_states padID) 25 = true := by
    rw [hst, Function.update_same]
    simp [offDue, sub32, NOTEOFF_DELAY_MS]
  have hother : ∀ q, q ≠ padID → offDue (m1._channel_states q) 25 = false := by
    intro q hq
    rw [hst, Function.update_noteq hq]
    simp [offDue, hidle q]
  have hmsg : noteOffMsg (m1._channel_states padID) =
      [0x89, Midi._PAD_MIDI_NOTE_MAP padID, 0x00] := by
    rw [hst, Function.update_same]
    simp only [noteOffMsg, note_map_lt]
    rfl
  have hflags : ∀ q, ((Midi.autoNoteOff m1 acks1 25).1._channel_states q).noteOn_sent
      = false := by
    intro q
    unfold Midi.autoNoteOff
    rw [hcs q]
    by_cases hq : q = padID
    · subst hq
      simp [hdue, List.mem_finRange]
    · have := hother q hq
      simp only [this, Bool.false_eq_true, and_false, if_false]
      rw [hst, Function.update_noteq hq]
      exact hidle q
  refine ⟨hret, ?_, ?_, hflags padID, ?_⟩
  · rw [hst, Function.update_same]
  · unfold Midi.autoNoteOff
    rw [hb, List.nil_append,
      flatMap_single _ (List.nodup_finRange _) padID (List.mem_finRange _) _ (by
        intro q hq
        simp [hother q hq])]
    simp [hdue, hmsg]
  · intro now
    exact autoNoteOff_idle _ acks2 now hflags

/-- Witness for C19: a Note On for pad `Kick` (note 35) on a freshly constructed,
connected scheduler. -/
theorem noteOff_after_delay_witness :
    midiConnected._connected = true ∧
    (Midi.autoNoteOff (Midi.sendNoteOn midiConnected allAcks 0 5 100 10).midi
      (fun _ => allAcks) 25).2 = [0x89, 35, 0x00] :=
  ⟨rfl, (noteOff_after_delay midiConnected allAcks (fun _ => allAcks) (fun _ => allAcks) 5 100
    rfl (Or.inl rfl) rfl rfl (fun _ => rfl)).2.2.1⟩

/-! ## Theorems: button FSM, unknown state -/

/-- The `default:` branch of `_fsm`. In a state that is none of the six defined ones
it runs `_newState(OCS_INIT)` and nothing else: the state becomes INIT and no
callback is invoked, and the click counter and the entry time keep their
values (`reset()` is not called). With state 4 and three clicks counted, the
step ends in INIT with the click counter still 3. -/
theorem fsm_unknown_state_keeps_clicks :
    (∀ (b : OneButtonTiny) (level : Bool),
      b._state ≠ OCS_INIT → b._state ≠ OCS_DOWN → b._state ≠ OCS_UP → b._state ≠ OCS_COUNT →
      b._state ≠ OCS_PRESS → b._state ≠ OCS_PRESSEND →
      _fsm b level = ({ b with _state := OCS_INIT }, [])) ∧
    (_fsm buttonCorrupt false).1._state = OCS_INIT ∧
    (_fsm buttonCorrupt false).2 = [] ∧
    (_fsm buttonCorrupt false).1._nClicks = 3 ∧
    (_fsm buttonCorrupt true).1._nClicks = 3 := by
  refine ⟨?_, by decide, by decide, by decide, by decide⟩
  intro b level h1 h2 h3 h4 h5 h6
  simp [_fsm, h1, h2, h3, h4, h5, h6, _newState]

/-! ## Theorems: pad loop, scenario A -/

theorem padLoopRun_append (fp : CurveEval) (s : Pad × Bool) (xs ys : List (Nat × Nat)) :
    padLoopRun fp s (xs ++ ys) =
      ((padLoopRun fp (padLoopRun fp s xs).1 ys).1,
        (padLoopRun fp s xs).2 ++ (padLoopRun fp (padLoopRun fp s xs).1 ys).2) := by
  induction xs generalizing s with
  | nil => simp [padLoopRun]
  | cons x xs ih =>
    obtain ⟨now, v⟩ := x
    simp [padLoopRun, ih, List.append_assoc]

/-- C16, counterexample. The seven samples of scenario A, at the ticks 0 to 6,
complete no measurement: the window opened at tick 2 and is 18 ms long, so the
pad is still measuring after the last sample, with running peak 1200. -/
theorem scenarioA_incomplete :
    (padLoopRun (floatCurve tangentLibm) (padScenarioA, false) scenarioA).2 = [] ∧
    (padLoopRun (floatCurve tangentLibm) (padScenarioA, false) scenarioA).1.1._adc_measuring
      = true ∧
    (padLoopRun (floatCurve tangentLibm) (padScenarioA, false) scenarioA).1.1._measurement_cplt
      = false ∧
    (padLoopRun (floatCurve tangentLibm) (padScenarioA, false) scenarioA).1.1._peak_val
      = 1200 := by
  decide

/-- Below the threshold, before any hit, an iteration changes nothing. -/
theorem scenarioA_quiet_step (fp : CurveEval) (now v : Nat) (hv : v ≤ 1000) :
    padLoopStep fp (padScenarioA, false) now v = ((padScenarioA, false), none) := by
  have hv2 : ¬ v > 1000 := Nat.not_lt.mpr hv
  simp [padLoopStep, Pad.detectHit, Pad.isTriggered, Pad._isHit, padScenarioA, Pad.init, hv2]

/-- The hit at tick 2 starts the measurement and opens the window. -/
theorem scenarioA_hit_step (fp : CurveEval) :
    padLoopStep fp (padScenarioA, false) 2 1200 =
      (({ padScenarioAOpen with _last_trigger_state := true }, true), none) := by
  simp [padLoopStep, Pad.detectHit, Pad.isTriggered, Pad.measureForce, Pad._isHit,
    padScenarioAOpen, padScenarioA, Pad.init, ADC_MEASURING_WINDOW_MS]

/-- While the sample stays above the threshold and below the peak, only the
measurement goes on. -/
theorem scenarioA_high_step (fp : CurveEval) (now v : Nat) (hv : 1000 < v) (hp : v ≤ 1200) :
    padLoopStep fp ({ padScenarioAOpen with _last_trigger_state := true }, true) now v =
      (({ padScenarioAOpen with _last_trigger_state := true }, true), none) := by
  have hmax : (if 1200 > v then 1200 else v) = 1200 := by
    by_cases h : 1200 > v
    · rw [if_pos h]
    · rw [if_neg h]; omega
  simp [padLoopStep, Pad.detectHit, Pad.isTriggered, Pad.measureForce, Pad._isHit,
    padScenarioAOpen, padScenarioA, Pad.init, ADC_MEASURING_WINDOW_MS, hv, hmax]

/-- The first sample back below the threshold, inside the window, clears the edge
memory only. -/
theorem scenarioA_fall_step (fp : CurveEval) (now v : Nat) (hw : sub32 now 2 ≤ 18)
    (hv : v ≤ 1000) :
    padLoopStep fp ({ padScenarioAOpen with _last_trigger_state := true }, true) now v =
      ((padScenarioAOpen, true), none) := by
  have hv2 : ¬ v > 1000 := Nat.not_lt.mpr hv
  have hw2 : ¬ sub32 now 2 > 18 := Nat.not_lt.mpr hw
  have hmax : (if 1200 > v then 1200 else v) = 1200 := by
    rw [if_pos (by omega)]
  simp [padLoopStep, Pad.detectHit, Pad.isTriggered, Pad.measureForce, Pad._isHit,
    padScenarioAOpen, padScenarioA, Pad.init, ADC_MEASURING_WINDOW_MS, hv2, hw2, hmax]

/-- While the window is open, a sample at or below the threshold changes nothing. -/
theorem scenarioA_wait (fp : CurveEval) (now v : Nat) (hw : sub32 now 2 ≤ 18)
    (hv : v ≤ 1000) :
    padLoopStep fp (padScenarioAOpen, true) now v = ((padScenarioAOpen, true), none) := by
  have hv2 : ¬ v > 1000 := Nat.not_lt.mpr hv
  have hw2 : ¬ sub32 now 2 > 18 := Nat.not_lt.mpr hw
  have hp : ¬ 1200 < v := by omega
  have hmax : (if 1200 > v then 1200 else v) = 1200 := by
    rw [if_pos (by omega)]
  simp [padLoopStep, Pad.detectHit, Pad.isTriggered, Pad.measureForce, Pad._isHit,
    padScenarioAOpen, padScenarioA, Pad.init, ADC_MEASURING_WINDOW_MS, hv2, hw2, hmax]

/-- The seven samples of scenario A leave the pad measuring, for every curve
evaluation. -/
theorem scenarioA_open (fp : CurveEval) :
    padLoopRun fp (padScenarioA, false) scenarioA = ((padScenarioAOpen, true), []) := by
  simp only [scenarioA, padLoopRun,
    scenarioA_quiet_step fp 0 0 (by decide), scenarioA_quiet_step fp 1 0 (by decide),
    scenarioA_hit_step fp,
    scenarioA_high_step fp 3 1200 (by decide) (by decide),
    scenarioA_high_step fp 4 1100 (by decide) (by decide),
    scenarioA_fall_step fp 5 0 (by decide) (by decide),
    scenarioA_wait fp 6 0 (by decide) (by decide)]
  rfl

/-- The pad of scenario A after its measurement completed and was consumed. -/
theorem scenarioA_finish (fp : CurveEval) (now v : Nat) (hw : sub32 now 2 > 18)
    (hv : v ≤ 1000) :
    padLoopStep fp (padScenarioAOpen, true) now v =
      (({ padScenarioAOpen with
          _force := Pad._force_map fp padScenarioA 1200, _adc_measuring := false,
          _last_adc_measuring_state := 0 }, false),
        some (Pad._force_map fp padScenarioA 1200)) := by
  have hv2 : ¬ v > 1000 := Nat.not_lt.mpr hv
  have hmax : (if 1200 > v then 1200 else v) = 1200 := by
    rw [if_pos (by omega)]
  simp [padLoopStep, Pad.detectHit, Pad.isTriggered, Pad.measureForce, Pad._isHit,
    padScenarioAOpen, padScenarioA, Pad.init, ADC_MEASURING_WINDOW_MS, hv2, hw, hmax,
    Pad.resetMeasurementCplt]
  exact force_map_congr fp _ _ _ rfl rfl rfl

/-- After the measurement was consumed, samples at or below the threshold change
nothing and complete nothing. -/
theorem scenarioA_rest (fp : CurveEval) (now v : Nat) (hv : v ≤ 1000) :
    padLoopStep fp
      ({ padScenarioAOpen with
          _force := Pad._force_map fp padScenarioA 1200, _adc_measuring := false,
          _last_adc_measuring_state := 0 }, false) now v =
      (({ padScenarioAOpen with
          _force := Pad._force_map fp padScenarioA 1200, _adc_measuring := false,
          _last_adc_measuring_state := 0 }, false), none) := by
  have hv2 : ¬ v > 1000 := Nat.not_lt.mpr hv
  simp [padLoopStep, Pad.detectHit, Pad.isTriggered, Pad._isHit,
    padScenarioAOpen, padScenarioA, Pad.init, hv2]

theorem scenarioA_wait_run (fp : CurveEval) (pre : List (Nat × Nat))
    (h : ∀ x ∈ pre, sub32 x.1 2 ≤ 18 ∧ x.2 ≤ 1000) :
    padLoopRun fp (padScenarioAOpen, true) pre = ((padScenarioAOpen, true), []) := by
  induction pre with
  | nil => rfl
  | cons x rest ih =>
    obtain ⟨now, v⟩ := x
    have hx := h (now, v) (List.mem_cons_self _ _)
    have ih2 := ih (fun y hy => h y (List.mem_cons_of_mem _ hy))
    simp only [padLoopRun, scenarioA_wait fp now v hx.1 hx.2, ih2]
    rfl

theorem scenarioA_rest_run (fp : CurveEval) (post : List (Nat × Nat))
    (h : ∀ x ∈ post, x.2 ≤ 1000) :
    padLoopRun fp
      ({ padScenarioAOpen with
          _force := Pad._force_map fp padScenarioA 1200, _adc_measuring := false,
          _last_adc_measuring_state := 0 }, false) post =
      (({ padScenarioAOpen with
          _force := Pad._force_map fp padScenarioA 1200, _adc_measuring := false,
          _last_adc_measuring_state := 0 }, false), []) := by
  induction post with
  | nil => rfl
  | cons x rest ih =>
    obtain ⟨now, v⟩ := x
    have hx := h (now, v) (List.mem_cons_self _ _)
    have ih2 := ih (fun y hy => h y (List.mem_cons_of_mem _ hy))
    simp only [padLoopRun, scenarioA_rest fp now v hx, ih2]
    rfl

/-- C16, amended. Scenario A: one pad (threshold 1000, upper limit 2000, window
18 ms, linear curve) driven through the main-loop order `detectHit`,
`isTriggered`, `measureForce` while triggered. The seven samples
`[0, 0, 1200, 1200, 1100, 0, 0]` at the ticks 0 to 6 complete no measurement. When
the samples that follow stay at or below the threshold, exactly one measurement
completes, at the first tick more than 18 ms after tick 2 (where the window
opened), and its force is `_force_map(1200)`. -/
theorem scenarioA_one_measurement (fp : CurveEval) (pre : List (Nat × Nat)) (now v : Nat)
    (post : List (Nat × Nat))
    (hpre : ∀ x ∈ pre, sub32 x.1 2 ≤ 18 ∧ x.2 ≤ 1000)
    (hnow : sub32 now 2 > 18) (hv : v ≤ 1000)
    (hpost : ∀ x ∈ post, x.2 ≤ 1000) :
    (padLoopRun fp (padScenarioA, false) scenarioA).2 = [] ∧
    (padLoopRun fp (padScenarioA, false) (scenarioA ++ pre)).2 = [] ∧
    (padLoopRun fp (padScenarioA, false) (scenarioA ++ pre ++ (now, v) :: post)).2 =
      [Pad._force_map fp padScenarioA 1200] := by
  have h1 := scenarioA_open fp
  have h2 := scenarioA_wait_run fp pre hpre
  have h3 := scenarioA_finish fp now v hnow hv
  have h4 := scenarioA_rest_run fp post hpost
  refine ⟨by rw [h1], ?_, ?_⟩
  · rw [padLoopRun_append, h1, h2]
    rfl
  · rw [List.append_assoc, padLoopRun_append, h1, padLoopRun_append, h2]
    simp only [padLoopRun, h3, h4]
    rfl

/-- Witness for C16: the samples stay 0 up to tick 23; the measurement completes
at tick 21. -/
theorem scenarioA_one_measurement_witness :
    (padLoopRun (floatCurve tangentLibm) (padScenarioA, false)
      (scenarioA ++ scenarioAQuiet)).2 = [] ∧
    (padLoopRun (floatCurve tangentLibm) (padScenarioA, false)
      (scenarioA ++ scenarioAQuiet ++ (21, 0) :: [(22, 0), (23, 0)])).2 =
      [Pad._force_map (floatCurve tangentLibm) padScenarioA 1200] :=
  (scenarioA_one_measurement (floatCurve tangentLibm) scenarioAQuiet 21 0 [(22, 0), (23, 0)]
    (by decide) (by decide) (by decide) (by decide)).2

/-! ## Theorems: button FSM, scenarios -/

theorem step_init_press (b : OneButtonTiny) (h : b._state = OCS_INIT) (t : Nat) :
    fsmAt b (true, t) =
      ({ b with now := t, _state := OCS_DOWN, _startTime := t, _nClicks := 0 }, []) := by
  simp [fsmAt, _fsm, h, _newState]

theorem step_init_idle (b : OneButtonTiny) (h : b._state = OCS_INIT) (t : Nat) :
    fsmAt b (false, t) = ({ b with now := t }, []) := by
  simp [fsmAt, _fsm, h]

theorem step_count_press (b : OneButtonTiny) (h : b._state = OCS_COUNT) (t : Nat) :
    fsmAt b (true, t) = ({ b with now := t, _state := OCS_DOWN, _startTime := t }, []) := by
  simp [fsmAt, _fsm, h, _newState, OCS_INIT, OCS_DOWN, OCS_UP, OCS_COUNT]

theorem step_down_hold (b : OneButtonTiny) (h : b._state = OCS_DOWN) (t : Nat)
    (hw : sub32 t b._startTime ≤ b._press_ms) :
    fsmAt b (true, t) = ({ b with now := t }, []) := by
  simp [fsmAt, _fsm, h, OCS_INIT, OCS_DOWN, Nat.not_lt.mpr hw]

theorem step_down_long (b : OneButtonTiny) (h : b._state = OCS_DOWN) (t : Nat)
    (hw : sub32 t b._startTime > b._press_ms) :
    fsmAt b (true, t) =
      ({ b with now := t, _state := OCS_PRESS },
        callSlot b._longPressStartFunc Callback.longPressStart) := by
  simp [fsmAt, _fsm, h, OCS_INIT, OCS_DOWN, hw, _newState]

theorem step_down_release (b : OneButtonTiny) (h : b._state = OCS_DOWN) (t : Nat) :
    fsmAt b (false, t) = ({ b with now := t, _state := OCS_UP, _startTime := t }, []) := by
  simp [fsmAt, _fsm, h, OCS_INIT, OCS_DOWN, _newState]

theorem step_up (b : OneButtonTiny) (h : b._state = OCS_UP) (step : Bool × Nat) :
    fsmAt b step =
      ({ b with now := step.2, _state := OCS_COUNT, _nClicks := b._nClicks + 1 }, []) := by
  simp [fsmAt, _fsm, h, OCS_INIT, OCS_DOWN, OCS_UP, _newState]

theorem step_count_wait (b : OneButtonTiny) (h : b._state = OCS_COUNT) (t : Nat)
    (hw : ¬ ((b._nClicks > 2 ∧ sub32 t b._startTime ≥ b._multiClick_ms) ∨
      (b._nClicks ≤ 2 ∧ sub32 t b._startTime ≥ b._click_ms))) :
    fsmAt b (false, t) = ({ b with now := t }, []) := by
  simp only [fsmAt, _fsm, h]
  simp [OCS_INIT, OCS_DOWN, OCS_UP, OCS_COUNT]
  intro hc
  exact absurd hc hw

theorem step_count_multi (b : OneButtonTiny) (h : b._state = OCS_COUNT) (t : Nat)
    (hn : b._nClicks > 2) (hw : sub32 t b._startTime ≥ b._multiClick_ms) :
    fsmAt b (false, t) =
      ({ b with now := t, _state := OCS_INIT, _nClicks := 0, _startTime := 0 },
        callSlot b._multiClickFunc Callback.multiClick) := by
  have h1 : b._nClicks ≠ 1 := by omega
  have h2 : b._nClicks ≠ 2 := by omega
  simp only [fsmAt, _fsm, h]
  simp [OCS_INIT, OCS_DOWN, OCS_UP, OCS_COUNT, hn, hw, h1, h2, reset]

theorem step_press_hold (b : OneButtonTiny) (h : b._state = OCS_PRESS) (t : Nat) :
    fsmAt b (true, t) = ({ b with now := t }, []) := by
  simp [fsmAt, _fsm, h, OCS_INIT, OCS_DOWN, OCS_UP, OCS_COUNT, OCS_PRESS]

theorem step_press_release (b : OneButtonTiny) (h : b._state = OCS_PRESS) (t : Nat) :
    fsmAt b (false, t) =
      ({ b with now := t, _state := OCS_PRESSEND, _startTime := t }, []) := by
  simp [fsmAt, _fsm, h, OCS_INIT, OCS_DOWN, OCS_UP, OCS_COUNT, OCS_PRESS, _newState]

theorem step_pressend (b : OneButtonTiny) (h : b._state = OCS_PRESSEND) (step : Bool × Nat) :
    fsmAt b step =
      ({ b with now := step.2, _state := OCS_INIT, _nClicks := 0, _startTime := 0 }, []) := by
  simp [fsmAt, _fsm, h, OCS_INIT, OCS_DOWN, OCS_UP, OCS_COUNT, OCS_PRESS, OCS_PRESSEND, reset]

theorem runFsm_cons (b : OneButtonTiny) (s : Bool × Nat) (rest : List (Bool × Nat)) :
    runFsm b (s :: rest) =
      ((runFsm (fsmAt b s).1 rest).1, (fsmAt b s).2 ++ (runFsm (fsmAt b s).1 rest).2) := rfl

theorem tapSteps_cons (tPress : Nat) (holds : List Nat) (tRelease : Nat) (transit : Bool × Nat)
    (waits : List Nat) :
    tapSteps tPress holds tRelease transit waits =
      (true, tPress) :: (holds.map (fun t => (true, t)) ++
        (false, tRelease) :: transit :: waits.map (fun t => (false, t))) := rfl

/-- Steps with the level active, in DOWN, none of them later than `_press_ms`
after the press: only `now` changes. -/
theorem run_hold (ts : List Nat) (b : OneButtonTiny) (h : b._state = OCS_DOWN)
    (hw : ∀ t ∈ ts, sub32 t b._startTime ≤ b._press_ms) :
    ∃ n, runFsm b (ts.map (fun t => (true, t))) = ({ b with now := n }, []) := by
  induction ts generalizing b with
  | nil => exact ⟨b.now, rfl⟩
  | cons t rest ih =>
    have hstep := step_down_hold b h t (hw t (List.mem_cons_self _ _))
    obtain ⟨n, hn⟩ := ih { b with now := t } h (fun x hx => hw x (List.mem_cons_of_mem _ hx))
    refine ⟨n, ?_⟩
    simp only [List.map_cons, runFsm, hstep, hn]
    rfl

/-- Steps with the level inactive, in COUNT, before the click window has
elapsed: only `now` changes. -/
theorem run_wait (ts : List Nat) (b : OneButtonTiny) (h : b._state = OCS_COUNT)
    (hw : ∀ t ∈ ts, ¬ ((b._nClicks > 2 ∧ sub32 t b._startTime ≥ b._multiClick_ms) ∨
      (b._nClicks ≤ 2 ∧ sub32 t b._startTime ≥ b._click_ms))) :
    ∃ n, runFsm b (ts.map (fun t => (false, t))) = ({ b with now := n }, []) := by
  induction ts generalizing b with
  | nil => exact ⟨b.now, rfl⟩
  | cons t rest ih =>
    have hstep := step_count_wait b h t (hw t (List.mem_cons_self _ _))
    obtain ⟨n, hn⟩ := ih { b with now := t } h (fun x hx => hw x (List.mem_cons_of_mem _ hx))
    refine ⟨n, ?_⟩
    simp only [List.map_cons, runFsm, hstep, hn]
    rfl

/-- Steps with the level active, in PRESS: only `now` changes. -/
theorem run_pressed (ts : List Nat) (b : OneButtonTiny) (h : b._state = OCS_PRESS) :
    ∃ n, runFsm b (ts.map (fun t => (true, t))) = ({ b with now := n }, []) := by
  induction ts generalizing b with
  | nil => exact ⟨b.now, rfl⟩
  | cons t rest ih =>
    have hstep := step_press_hold b h t
    obtain ⟨n, hn⟩ := ih { b with now := t } h
    refine ⟨n, ?_⟩
    simp only [List.map_cons, runFsm, hstep, hn]
    rfl

/-- Steps with the level inactive, in INIT: only `now` changes. -/
theorem run_idle (ts : List Nat) (b : OneButtonTiny) (h : b._state = OCS_INIT) :
    ∃ n, runFsm b (ts.map (fun t => (false, t))) = ({ b with now := n }, []) := by
  induction ts generalizing b with
  | nil => exact ⟨b.now, rfl⟩
  | cons t rest ih =>
    have hstep := step_init_idle b h t
    obtain ⟨n, hn⟩ := ih { b with now := t } h
    refine ⟨n, ?_⟩
    simp only [List.map_cons, runFsm, hstep, hn]
    rfl

/-- From DOWN, the rest of a tap: holds, the release, the step spent in UP and
the waits end in COUNT with one more click, and invoke no callback. -/
theorem tap_from_down (b : OneButtonTiny) (h : b._state = OCS_DOWN) (holds : List Nat)
    (tRelease : Nat) (transit : Bool × Nat) (waits : List Nat)
    (hh : ∀ t ∈ holds, sub32 t b._startTime ≤ b._press_ms)
    (hw : ∀ t ∈ waits,
      ¬ ((b._nClicks + 1 > 2 ∧ sub32 t tRelease ≥ b._multiClick_ms) ∨
        (b._nClicks + 1 ≤ 2 ∧ sub32 t tRelease ≥ b._click_ms))) :
    ∃ n, runFsm b (holds.map (fun t => (true, t)) ++
        (false, tRelease) :: transit :: waits.map (fun t => (false, t))) =
      ({ b with now := n, _state := OCS_COUNT, _startTime := tRelease,
                _nClicks := b._nClicks + 1 }, []) := by
  obtain ⟨n1, hn1⟩ := run_hold holds b h hh
  have h2 := step_down_release { b with now := n1 } h tRelease
  have h3 := step_up { b with now := tRelease, _state := OCS_UP, _startTime := tRelease } rfl
    transit
  obtain ⟨n4, hn4⟩ := run_wait waits
    { b with now := transit.2, _state := OCS_COUNT, _startTime := tRelease,
             _nClicks := b._nClicks + 1 } rfl hw
  refine ⟨n4, ?_⟩
  rw [runFsm_append, hn1]
  simp only [runFsm, h2, h3, hn4]
  rfl

/-- The first tap, from INIT: it ends in COUNT with one click. -/
theorem first_tap (b : OneButtonTiny) (h : b._state = OCS_INIT) (tPress : Nat)
    (holds : List Nat) (tRelease : Nat) (transit : Bool × Nat) (waits : List Nat)
    (hh : ∀ t ∈ holds, sub32 t tPress ≤ b._press_ms)
    (hw : ∀ t ∈ waits, sub32 t tRelease < b._click_ms) :
    ∃ n, runFsm b (tapSteps tPress holds tRelease transit waits) =
      ({ b with now := n, _state := OCS_COUNT, _startTime := tRelease, _nClicks := 1 }, []) := by
  have h1 := step_init_press b h tPress
  obtain ⟨n, hn⟩ := tap_from_down
    { b with now := tPress, _state := OCS_DOWN, _startTime := tPress, _nClicks := 0 } rfl
    holds tRelease transit waits hh (by
      intro t ht hc
      have := hw t ht
      rcases hc with hc | hc
      · simp at hc
      · exact absurd hc.2 (Nat.not_le.mpr this))
  refine ⟨n, ?_⟩
  rw [tapSteps_cons, runFsm_cons, h1]
  simp only [hn, List.nil_append, zero_add]

/-- A further tap, from COUNT: it ends in COUNT with one more click. -/
theorem next_tap (b : OneButtonTiny) (h : b._state = OCS_COUNT) (tPress : Nat)
    (holds : List Nat) (tRelease : Nat) (transit : Bool × Nat) (waits : List Nat)
    (hh : ∀ t ∈ holds, sub32 t tPress ≤ b._press_ms)
    (hw : ∀ t ∈ waits,
      ¬ ((b._nClicks + 1 > 2 ∧ sub32 t tRelease ≥ b._multiClick_ms) ∨
        (b._nClicks + 1 ≤ 2 ∧ sub32 t tRelease ≥ b._click_ms))) :
    ∃ n, runFsm b (tapSteps tPress holds tRelease transit waits) =
      ({ b with now := n, _state := OCS_COUNT, _startTime := tRelease,
                _nClicks := b._nClicks + 1 }, []) := by
  have h1 := step_count_press b h tPress
  obtain ⟨n, hn⟩ := tap_from_down
    { b with now := tPress, _state := OCS_DOWN, _startTime := tPress } rfl
    holds tRelease transit waits hh hw
  refine ⟨n, ?_⟩
  rw [tapSteps_cons, runFsm_cons, h1]
  simp only [hn, List.nil_append]

/-- C17. Scenario C: with `_click_ms = 400` and `_multiClick_ms = 600`, starting in
INIT, three taps followed by a pause invoke the multi-click callback exactly
once (when its slot is attached) and no other callback, and the FSM ends in INIT
with click counter 0. A tap is a press, steps with the level still active no
later than `_press_ms` after the press, the release, the step after it and steps
with the level inactive; after the first and the second tap these come less
than 400 ms after the release (the re-press is seen before the click window
ends), after the third less than 600 ms, until a step 600 ms or more after the
third release; the level stays inactive afterwards. -/
theorem three_taps_multi_click (b : OneButtonTiny) (hs : b._state = OCS_INIT)
    (hC : b._click_ms = 400) (hM : b._multiClick_ms = 600)
    (p1 p2 p3 r1 r2 r3 tEnd : Nat) (hold1 hold2 hold3 wait1 wait2 wait3 idle : List Nat)
    (u1 u2 u3 : Bool × Nat)
    (hh1 : ∀ t ∈ hold1, sub32 t p1 ≤ b._press_ms)
    (hh2 : ∀ t ∈ hold2, sub32 t p2 ≤ b._press_ms)
    (hh3 : ∀ t ∈ hold3, sub32 t p3 ≤ b._press_ms)
    (hw1 : ∀ t ∈ wait1, sub32 t r1 < 400)
    (hw2 : ∀ t ∈ wait2, sub32 t r2 < 400)
    (hw3 : ∀ t ∈ wait3, sub32 t r3 < 600)
    (hEnd : sub32 tEnd r3 ≥ 600) :
    (runFsm b (tapSteps p1 hold1 r1 u1 wait1 ++ tapSteps p2 hold2 r2 u2 wait2 ++
        tapSteps p3 hold3 r3 u3 wait3 ++
        (false, tEnd) :: idle.map (fun t => (false, t)))).2 =
      (if b._multiClickFunc then [Callback.multiClick] else []) ∧
    (runFsm b (tapSteps p1 hold1 r1 u1 wait1 ++ tapSteps p2 hold2 r2 u2 wait2 ++
        tapSteps p3 hold3 r3 u3 wait3 ++
        (false, tEnd) :: idle.map (fun t => (false, t)))).1._state = OCS_INIT ∧
    (runFsm b (tapSteps p1 hold1 r1 u1 wait1 ++ tapSteps p2 hold2 r2 u2 wait2 ++
        tapSteps p3 hold3 r3 u3 wait3 ++
        (false, tEnd) :: idle.map (fun t => (false, t)))).1._nClicks = 0 := by
  obtain ⟨n1, e1⟩ := first_tap b hs p1 hold1 r1 u1 wait1 hh1 (by rw [hC]; exact hw1)
  obtain ⟨n2, e2⟩ := next_tap
    { b with now := n1, _state := OCS_COUNT, _startTime := r1, _nClicks := 1 } rfl
    p2 hold2 r2 u2 wait2 hh2 (by
      intro t ht hc
      have := hw2 t ht
      rcases hc with hc | hc
      · simp at hc
      · have h2 := hc.2
        simp only [hC] at h2
        omega)
  obtain ⟨n3, e3⟩ := next_tap
    { b with now := n2, _state := OCS_COUNT, _startTime := r2, _nClicks := 1 + 1 } rfl
    p3 hold3 r3 u3 wait3 hh3 (by
      intro t ht hc
      have := hw3 t ht
      rcases hc with hc | hc
      · have h2 := hc.2
        simp only [hM] at h2
        omega
      · simp at hc)
  have e4 := step_count_multi
    { b with now := n3, _state := OCS_COUNT, _startTime := r3, _nClicks := 1 + 1 + 1 } rfl
    tEnd (show (1 : Int) + 1 + 1 > 2 by decide) (by simp only [hM]; exact hEnd)
  obtain ⟨n5, e5⟩ := run_idle idle
    { b with now := tEnd, _state := OCS_INIT, _nClicks := 0, _startTime := 0 } rfl
  have hrun : runFsm b (tapSteps p1 hold1 r1 u1 wait1 ++ tapSteps p2 hold2 r2 u2 wait2 ++
        tapSteps p3 hold3 r3 u3 wait3 ++
        (false, tEnd) :: idle.map (fun t => (false, t))) =
      ({ b with now := n5, _state := OCS_INIT, _nClicks := 0, _startTime := 0 },
        callSlot b._multiClickFunc Callback.multiClick) := by
    rw [runFsm_append, runFsm_append, runFsm_append, e1, e2, e3]
    simp only [runFsm, e4, e5]
    simp
  rw [hrun]
  exact ⟨rfl, rfl, rfl⟩

/-- A long press from INIT: the press, holds no later than `_press_ms` after it, a
step later than that, further steps with the level active, the release, the
step after it and steps with the level inactive end in INIT with click counter
0 and invoke the long-press-start callback once and nothing else. -/
theorem long_press_run (b : OneButtonTiny) (h : b._state = OCS_INIT) (t0 : Nat)
    (holds : List Nat) (tLong : Nat) (pressed : List Nat) (tRel : Nat) (final : Bool × Nat)
    (idle : List Nat)
    (hh : ∀ t ∈ holds, sub32 t t0 ≤ b._press_ms) (hl : sub32 tLong t0 > b._press_ms) :
    ∃ n, runFsm b ((true, t0) :: holds.map (fun t => (true, t)) ++
        (true, tLong) :: pressed.map (fun t => (true, t)) ++
        (false, tRel) :: final :: idle.map (fun t => (false, t))) =
      ({ b with now := n, _state := OCS_INIT, _nClicks := 0, _startTime := 0 },
        callSlot b._longPressStartFunc Callback.longPressStart) := by
  have e1 := step_init_press b h t0
  obtain ⟨n2, e2⟩ := run_hold holds
    { b with now := t0, _state := OCS_DOWN, _startTime := t0, _nClicks := 0 } rfl hh
  have e3 := step_down_long
    { b with now := n2, _state := OCS_DOWN, _startTime := t0, _nClicks := 0 } rfl tLong hl
  obtain ⟨n4, e4⟩ := run_pressed pressed
    { b with now := tLong, _state := OCS_PRESS, _startTime := t0, _nClicks := 0 } rfl
  have e5 := step_press_release
    { b with now := n4, _state := OCS_PRESS, _startTime := t0, _nClicks := 0 } rfl tRel
  have e6 := step_pressend
    { b with now := tRel, _state := OCS_PRESSEND, _startTime := tRel, _nClicks := 0 } rfl final
  obtain ⟨n7, e7⟩ := run_idle idle
    { b with now := final.2, _state := OCS_INIT, _nClicks := 0, _startTime := 0 } rfl
  refine ⟨n7, ?_⟩
  have hsteps : (true, t0) :: holds.map (fun t => (true, t)) ++
        (true, tLong) :: pressed.map (fun t => (true, t)) ++
        (false, tRel) :: final :: idle.map (fun t => (false, t)) =
      (true, t0) :: (holds.map (fun t => (true, t)) ++
        (true, tLong) :: (pressed.map (fun t => (true, t)) ++
          (false, tRel) :: final :: idle.map (fun t => (false, t)))) := by
    simp
  rw [hsteps, runFsm_cons, e1]
  simp only []
  rw [runFsm_append, e2]
  simp only []
  rw [runFsm_cons, e3]
  simp only []
  rw [runFsm_append, e4]
  simp only []
  rw [runFsm_cons, e5]
  simp only []
  rw [runFsm_cons, e6]
  simp only []
  rw [e7]
  simp

/-- The steps of scenario B, by phases. -/
theorem heldSteps_phases (t0 k : Nat) :
    heldSteps t0 (53 + k) =
      (true, t0) ::
        ([t0 + 1, t0 + 2, t0 + 3, t0 + 4, t0 + 5, t0 + 6, t0 + 7, t0 + 8, t0 + 9, t0 + 10,
         t0 + 11, t0 + 12, t0 + 13, t0 + 14, t0 + 15, t0 + 16, t0 + 17, t0 + 18, t0 + 19,
         t0 + 20, t0 + 21, t0 + 22, t0 + 23, t0 + 24, t0 + 25, t0 + 26, t0 + 27, t0 + 28,
         t0 + 29, t0 + 30, t0 + 31, t0 + 32, t0 + 33, t0 + 34, t0 + 35, t0 + 36, t0 + 37,
         t0 + 38, t0 + 39, t0 + 40]).map
          (fun t => (true, t)) ++
        (true, t0 + 41) ::
        ([t0 + 42, t0 + 43, t0 + 44, t0 + 45, t0 + 46, t0 + 47, t0 + 48, t0 + 49, t0 + 50]).map
          (fun t => (true, t)) ++
        (false, t0 + 51) :: (false, t0 + 52) ::
          ((List.range k).map (fun j => t0 + 53 + j)).map (fun t => (false, t)) := by
  have r53 : List.range 53 =
      [0, 1, 2, 3, 4, 5, 6, 7, 8, 9, 10, 11, 12, 13, 14, 15, 16, 17, 18, 19, 20, 21, 22,
      23, 24, 25, 26, 27, 28, 29, 30, 31, 32, 33, 34, 35, 36, 37, 38, 39, 40, 41, 42, 43,
      44, 45, 46, 47, 48, 49, 50, 51, 52] := by
    decide
  simp only [heldSteps, List.range_add, List.map_append, r53, List.map_cons, List.map_nil,
    List.map_map]
  simp [Function.comp_def, Nat.add_assoc]
  intro a _
  omega

/-- C18. Scenario B: with `_press_ms = 40`, starting in INIT, a level that is active
on every step from `t0` to `t0 + 50` (steps at 1 ms intervals) and inactive
afterwards, for two steps or more, invokes the long-press-start callback
exactly once (when its slot is attached; at tick `t0 + 41`) and no click,
double-click or multi-click callback, and the FSM ends in INIT. -/
theorem long_press_scenario (b : OneButtonTiny) (hs : b._state = OCS_INIT)
    (hP : b._press_ms = 40) (t0 k : Nat) :
    (runFsm b (heldSteps t0 (53 + k))).2 =
      (if b._longPressStartFunc then [Callback.longPressStart] else []) ∧
    (runFsm b (heldSteps t0 (53 + k))).1._state = OCS_INIT ∧
    (runFsm b (heldSteps t0 (53 + k))).1._nClicks = 0 := by
  obtain ⟨n, hn⟩ := long_press_run b hs t0
    [t0 + 1, t0 + 2, t0 + 3, t0 + 4, t0 + 5, t0 + 6, t0 + 7, t0 + 8, t0 + 9, t0 + 10, t0 +
    11, t0 + 12, t0 + 13, t0 + 14, t0 + 15, t0 + 16, t0 + 17, t0 + 18, t0 + 19, t0 + 20,
    t0 + 21, t0 + 22, t0 + 23, t0 + 24, t0 + 25, t0 + 26, t0 + 27, t0 + 28, t0 + 29, t0 +
    30, t0 + 31, t0 + 32, t0 + 33, t0 + 34, t0 + 35, t0 + 36, t0 + 37, t0 + 38, t0 + 39,
    t0 + 40]
    (t0 + 41)
    [t0 + 42, t0 + 43, t0 + 44, t0 + 45, t0 + 46, t0 + 47, t0 + 48, t0 + 49, t0 + 50]
    (t0 + 51) (false, t0 + 52) ((List.range k).map (fun j => t0 + 53 + j))
    (by
      intro t ht
      simp only [List.mem_cons, List.mem_singleton, List.not_mem_nil, or_false] at ht
      rw [hP]
      unfold sub32
      omega)
    (by
      rw [hP]
      unfold sub32
      omega)
  rw [heldSteps_phases, hn]
  exact ⟨rfl, rfl, rfl⟩

/-- Witness for C18: a button with `_press_ms = 40` held from tick 1000 to tick
1050 and released afterwards. -/
theorem long_press_scenario_witness :
    buttonPress40._state = OCS_INIT ∧ buttonPress40._press_ms = 40 ∧
    (runFsm buttonPress40 (heldSteps 1000 56)).2 = [Callback.longPressStart] ∧
    (runFsm buttonPress40 (heldSteps 1000 56)).1._state = OCS_INIT :=
  ⟨rfl, rfl, (long_press_scenario buttonPress40 rfl rfl 1000 3).1,
    (long_press_scenario buttonPress40 rfl rfl 1000 3).2.1⟩

/-- Witness for C17: three taps released at the ticks 50, 350 and 550, re-pressed
250 ms and 150 ms after the releases, and a pause of 601 ms. -/
theorem three_taps_multi_click_witness :
    buttonAttached._state = OCS_INIT ∧
    (runFsm buttonAttached
      (tapSteps 0 [10, 20] 50 (false, 51) [100, 200] ++ tapSteps 300 [] 350 (false, 351) [] ++
        tapSteps 500 [] 550 (false, 551) [700, 1000] ++
        (false, 1151) :: [1200].map (fun t => (false, t)))).2 = [Callback.multiClick] :=
  ⟨rfl, (three_taps_multi_click buttonAttached rfl rfl rfl 0 300 500 50 350 550 1151
    [10, 20] [] [] [100, 200] [] [700, 1000] [1200] (false, 51) (false, 351) (false, 551)
    (by decide) (by decide) (by decide) (by decide) (by decide) (by decide) (by decide)).1⟩

/-! ## Theorems: button FSM, reachable states -/

/-- In COUNT with the level inactive, once the wait is over the object is reset. -/
theorem step_count_done (b : OneButtonTiny) (h : b._state = OCS_COUNT) (t : Nat)
    (hw : (b._nClicks > 2 ∧ sub32 t b._startTime ≥ b._multiClick_ms) ∨
      (b._nClicks ≤ 2 ∧ sub32 t b._startTime ≥ b._click_ms)) :
    (fsmAt b (false, t)).1 =
      { b with now := t, _state := OCS_INIT, _nClicks := 0, _startTime := 0 } := by
  simp only [fsmAt, _fsm, h]
  rcases hw with ⟨h1, h2⟩ | ⟨h1, h2⟩
  · simp [OCS_INIT, OCS_DOWN, OCS_UP, OCS_COUNT, reset, h1, h2]
  · have h3 : ¬ 2 < b._nClicks := not_lt.mpr h1
    simp [OCS_INIT, OCS_DOWN, OCS_UP, OCS_COUNT, reset, h1, h2, h3]

/-- One `_fsm` step keeps the state among the six named ones, and the click
counter at 0 whenever the state is INIT. -/
theorem fsmAt_keeps_invariant (b : OneButtonTiny) (step : Bool × Nat)
    (hk : b._state = OCS_INIT ∨ b._state = OCS_DOWN ∨ b._state = OCS_UP ∨
      b._state = OCS_COUNT ∨ b._state = OCS_PRESS ∨ b._state = OCS_PRESSEND)
    (hi : b._state = OCS_INIT → b._nClicks = 0) :
    ((fsmAt b step).1._state = OCS_INIT ∨ (fsmAt b step).1._state = OCS_DOWN ∨
      (fsmAt b step).1._state = OCS_UP ∨ (fsmAt b step).1._state = OCS_COUNT ∨
      (fsmAt b step).1._state = OCS_PRESS ∨ (fsmAt b step).1._state = OCS_PRESSEND) ∧
    ((fsmAt b step).1._state = OCS_INIT → (fsmAt b step).1._nClicks = 0) := by
  have nDown : ¬ OCS_DOWN = OCS_INIT := by decide
  have nUp : ¬ OCS_UP = OCS_INIT := by decide
  have nCount : ¬ OCS_COUNT = OCS_INIT := by decide
  have nPress : ¬ OCS_PRESS = OCS_INIT := by decide
  obtain ⟨level, t⟩ := step
  rcases hk with h | h | h | h | h | h
  · cases level
    · rw [step_init_idle b h t]
      exact ⟨Or.inl h, hi⟩
    · rw [step_init_press b h t]
      exact ⟨Or.inr (Or.inl rfl), fun _ => rfl⟩
  · cases level
    · rw [step_down_release b h t]
      exact ⟨Or.inr (Or.inr (Or.inl rfl)), fun hc => absurd hc nUp⟩
    · by_cases hw : sub32 t b._startTime > b._press_ms
      · rw [step_down_long b h t hw]
        exact ⟨Or.inr (Or.inr (Or.inr (Or.inr (Or.inl rfl)))), fun hc => absurd hc nPress⟩
      · rw [step_down_hold b h t (Nat.not_lt.mp hw)]
        exact ⟨Or.inr (Or.inl h), fun hc => absurd (h.symm.trans hc) nDown⟩
  · rw [step_up b h (level, t)]
    exact ⟨Or.inr (Or.inr (Or.inr (Or.inl rfl))), fun hc => absurd hc nCount⟩
  · cases level
    · by_cases hw : (b._nClicks > 2 ∧ sub32 t b._startTime ≥ b._multiClick_ms) ∨
          (b._nClicks ≤ 2 ∧ sub32 t b._startTime ≥ b._click_ms)
      · rw [step_count_done b h t hw]
        exact ⟨Or.inl rfl, fun _ => rfl⟩
      · rw [step_count_wait b h t hw]
        exact ⟨Or.inr (Or.inr (Or.inr (Or.inl h))), fun hc => absurd (h.symm.trans hc) nCount⟩
    · rw [step_count_press b h t]
      exact ⟨Or.inr (Or.inl rfl), fun hc => absurd hc nDown⟩
  · cases level
    · rw [step_press_release b h t]
      exact ⟨Or.inr (Or.inr (Or.inr (Or.inr (Or.inr rfl)))),
        fun hc => absurd hc (by decide : ¬ OCS_PRESSEND = OCS_INIT)⟩
    · rw [step_press_hold b h t]
      exact ⟨Or.inr (Or.inr (Or.inr (Or.inr (Or.inl h)))),
        fun hc => absurd (h.symm.trans hc) nPress⟩
  · rw [step_pressend b h (level, t)]
    exact ⟨Or.inl rfl, fun _ => rfl⟩

/-- A sequence of `_fsm` steps and `reset()` calls keeps the state among the six
named ones, and the click counter at 0 whenever the state is INIT. -/
theorem ops_keep_invariant (ops : List ButtonOp) (b : OneButtonTiny)
    (hk : b._state = OCS_INIT ∨ b._state = OCS_DOWN ∨ b._state = OCS_UP ∨
      b._state = OCS_COUNT ∨ b._state = OCS_PRESS ∨ b._state = OCS_PRESSEND)
    (hi : b._state = OCS_INIT → b._nClicks = 0) :
    ((runButtonOps b ops)._state = OCS_INIT ∨ (runButtonOps b ops)._state = OCS_DOWN ∨
      (runButtonOps b ops)._state = OCS_UP ∨ (runButtonOps b ops)._state = OCS_COUNT ∨
      (runButtonOps b ops)._state = OCS_PRESS ∨ (runButtonOps b ops)._state = OCS_PRESSEND) ∧
    ((runButtonOps b ops)._state = OCS_INIT → (runButtonOps b ops)._nClicks = 0) := by
  induction ops generalizing b with
  | nil => exact ⟨hk, hi⟩
  | cons op rest ih =>
    cases op with
    | fsm level t =>
      have hstep := fsmAt_keeps_invariant b (level, t) hk hi
      exact ih (fsmAt b (level, t)).1 hstep.1 hstep.2
    | reset => exact ih (reset b) (Or.inl rfl) (fun _ => rfl)

/-- C21. In every button state reached from a state with `_state = OCS_INIT` and
`_nClicks = 0` (whatever the times and the callback slots) by a sequence of
`_fsm` steps, on any levels at any ticks, and `reset()` calls, `_state = OCS_INIT`
implies `_nClicks = 0`. -/
theorem init_state_has_no_clicks (b : OneButtonTiny) (hs : b._state = OCS_INIT)
    (hc : b._nClicks = 0) (ops : List ButtonOp)
    (hend : (runButtonOps b ops)._state = OCS_INIT) :
    (runButtonOps b ops)._nClicks = 0 :=
  (ops_keep_invariant ops b (Or.inl hs) (fun _ => hc)).2 hend

/-- Witness for C21: a click, its report and a `reset()` on an idle button. -/
theorem init_state_has_no_clicks_witness :
    buttonIdle._state = OCS_INIT ∧ buttonIdle._nClicks = 0 ∧
    (runButtonOps buttonIdle clickThenReset)._state = OCS_INIT ∧
    (runButtonOps buttonIdle clickThenReset)._nClicks = 0 :=
  ⟨rfl, rfl, by decide, init_state_has_no_clicks buttonIdle rfl rfl clickThenReset (by decide)⟩

/-! ## Theorems: the level-driven tick -/

/-- C29, at the failing input. On a freshly constructed button the first
`tick(false)`, at any tick `t`, moves the FSM from INIT to DOWN: `debounce`
returns the initial level `-1`, which `_fsm` receives as `true`. Four
`tick(false)` calls at the ticks 0, 50, 51 and 451 on a button that is never
pressed invoke the click callback. -/
theorem tick_unknown_level_is_active (t : Nat) :
    (OneButtonTiny.tick OneButtonTiny.init t false).1._state = OCS_DOWN ∧
    (tickRun buttonIdle idleTicks).2 = [Callback.click] := by
  constructor
  · simp [OneButtonTiny.tick, debounce, _fsm, OneButtonTiny.init, _newState, OCS_INIT, OCS_DOWN]
  · decide

/-! ## Theorems: clicks followed by a hold -/

/-- C30. From COUNT (one or more clicks of the gesture are counted), a press
followed by steps with the level active no later than `_press_ms` after the
press, a step later than that, further steps with the level active, the
release and one more step invoke the long-press-start callback once (when its
slot is attached) and no other callback, and end in INIT with click counter
0: the counted clicks are never reported. -/
theorem clicks_then_hold_discarded (b : OneButtonTiny) (h : b._state = OCS_COUNT)
    (tPress : Nat) (holds : List Nat) (tLong : Nat) (pressed : List Nat) (tRelease : Nat)
    (final : Bool × Nat)
    (hh : ∀ t ∈ holds, sub32 t tPress ≤ b._press_ms)
    (hl : sub32 tLong tPress > b._press_ms) :
    (runFsm b (holdSteps tPress holds tLong pressed tRelease final)).2 =
      (if b._longPressStartFunc then [Callback.longPressStart] else []) ∧
    (runFsm b (holdSteps tPress holds tLong pressed tRelease final)).1._state = OCS_INIT ∧
    (runFsm b (holdSteps tPress holds tLong pressed tRelease final)).1._nClicks = 0 := by
  have e1 := step_count_press b h tPress
  obtain ⟨n2, e2⟩ := run_hold holds
    { b with now := tPress, _state := OCS_DOWN, _startTime := tPress } rfl hh
  have e3 := step_down_long
    { b with now := n2, _state := OCS_DOWN, _startTime := tPress } rfl tLong hl
  obtain ⟨n4, e4⟩ := run_pressed pressed
    { b with now := tLong, _state := OCS_PRESS, _startTime := tPress } rfl
  have e5 := step_press_release
    { b with now := n4, _state := OCS_PRESS, _startTime := tPress } rfl tRelease
  have e6 := step_pressend
    { b with now := tRelease, _state := OCS_PRESSEND, _startTime := tRelease } rfl final
  have hrun : runFsm b (holdSteps tPress holds tLong pressed tRelease final) =
      ({ b with now := final.2, _state := OCS_INIT, _nClicks := 0, _startTime := 0 },
        callSlot b._longPressStartFunc Callback.longPressStart) := by
    unfold holdSteps
    rw [runFsm_cons, e1]
    simp only []
    rw [runFsm_append, e2]
    simp only []
    rw [runFsm_cons, e3]
    simp only []
    rw [runFsm_append, e4]
    simp only []
    rw [runFsm_cons, e5]
    simp only []
    rw [runFsm_cons, e6]
    simp [runFsm]
  rw [hrun]
  exact ⟨rfl, rfl, rfl⟩

/-- Witness for C30: after one click released at tick 100, a press at tick 300
held until tick 1200. -/
theorem clicks_then_hold_discarded_witness :
    buttonClickedOnce._state = OCS_COUNT ∧ buttonClickedOnce._nClicks = 1 ∧
    (runFsm buttonClickedOnce
      (holdSteps 300 [500, 1100] 1101 [1150] 1200 (false, 1201))).2 =
      [Callback.longPressStart] ∧
    (runFsm buttonClickedOnce
      (holdSteps 300 [500, 1100] 1101 [1150] 1200 (false, 1201))).1._nClicks = 0 :=
  ⟨rfl, rfl,
    (clicks_then_hold_discarded buttonClickedOnce rfl 300 [500, 1100] 1101 [1150] 1200
      (false, 1201) (by decide) (by decide)).1,
    (clicks_then_hold_discarded buttonClickedOnce rfl 300 [500, 1100] 1101 [1150] 1200
      (false, 1201) (by decide) (by decide)).2.2⟩

/-! ## Theorems: pad, single calls -/

/-- C22. `isTriggered()` with ADC sample `v` returns `true` exactly when
`v > _hit_threshold` and the stored `_last_trigger_state` is `false`; the pad
after the call is the pad before it with `_last_trigger_state` set to the
current hit state `v > _hit_threshold`, every other field unchanged. A second
call on the same sample returns `false`. The constructor sets
`_last_trigger_state` to `false`. -/
theorem isTriggered_rising_edge (p : Pad) (v : Nat) (pad_id hit upper : Nat)
    (curve : ForceMappingCurve) :
    ((Pad.isTriggered p v).2 = true ↔ (v > p._hit_threshold ∧ p._last_trigger_state = false)) ∧
    (Pad.isTriggered p v).1 = { p with _last_trigger_state := decide (v > p._hit_threshold) } ∧
    (Pad.isTriggered (Pad.isTriggered p v).1 v).2 = false ∧
    (Pad.init pad_id hit upper curve)._last_trigger_state = false := by
  refine ⟨?_, rfl, ?_, rfl⟩
  · simp [Pad.isTriggered, Pad._isHit]
  · simp [Pad.isTriggered, Pad._isHit]

/-- C23. `detectHit()` with ADC sample `v`: when `v > _hit_threshold` and the pad is
not measuring, the pad after the call is the pad before it with
`_adc_measuring = true` and `_peak_val = 0`; otherwise the pad is unchanged, so
a measuring pad is unchanged whatever the sample. The call never changes
`_force`, `_measurement_cplt`, `_last_trigger_state` or
`_adc_measuring_start_time`. -/
theorem detectHit_step (p : Pad) (v : Nat) :
    Pad.detectHit p v =
      (if v > p._hit_threshold ∧ p._adc_measuring = false then
        { p with _adc_measuring := true, _peak_val := 0 }
      else p) ∧
    Pad.detectHit { p with _adc_measuring := true } v = { p with _adc_measuring := true } ∧
    (Pad.detectHit p v)._force = p._force ∧
    (Pad.detectHit p v)._measurement_cplt = p._measurement_cplt ∧
    (Pad.detectHit p v)._last_trigger_state = p._last_trigger_state ∧
    (Pad.detectHit p v)._adc_measuring_start_time = p._adc_measuring_start_time := by
  refine ⟨?_, ?_, ?_, ?_, ?_, ?_⟩
  · by_cases h1 : v > p._hit_threshold <;> by_cases h2 : p._adc_measuring = false <;>
      simp [Pad.detectHit, Pad._isHit, h1, h2]
  · simp [Pad.detectHit]
  all_goals
    simp only [Pad.detectHit]
    split_ifs <;> rfl

/-- C26. `resetMeasurementCplt()` applied twice gives the same pad as applied once;
it sets `_measurement_cplt` to `false` and changes no other field. -/
theorem resetMeasurementCplt_idempotent (p : Pad) :
    Pad.resetMeasurementCplt (Pad.resetMeasurementCplt p) = Pad.resetMeasurementCplt p ∧
    (Pad.resetMeasurementCplt p)._measurement_cplt = false ∧
    (Pad.resetMeasurementCplt p)._force = p._force ∧
    (Pad.resetMeasurementCplt p)._force_curve = p._force_curve ∧
    (Pad.resetMeasurementCplt p)._last_trigger_state = p._last_trigger_state ∧
    (Pad.resetMeasurementCplt p)._pad_id = p._pad_id ∧
    (Pad.resetMeasurementCplt p)._hit_threshold = p._hit_threshold ∧
    (Pad.resetMeasurementCplt p)._upper_limit = p._upper_limit ∧
    (Pad.resetMeasurementCplt p)._peak_val = p._peak_val ∧
    (Pad.resetMeasurementCplt p)._adc_measuring = p._adc_measuring ∧
    (Pad.resetMeasurementCplt p)._adc_measuring_start_time = p._adc_measuring_start_time ∧
    (Pad.resetMeasurementCplt p)._last_adc_measuring_state = p._last_adc_measuring_state :=
  ⟨rfl, rfl, rfl, rfl, rfl, rfl, rfl, rfl, rfl, rfl, rfl, rfl⟩

/-! ## Theorems: pad, sequences of calls -/

/-- The conditional of `measureForce` that updates the peak is a maximum. -/
theorem peak_update (a b : Nat) : (if a > b then a else b) = max a b := by
  split_ifs <;> omega

/-- The difference of a tick with itself is 0. -/
theorem sub32_self (a : Nat) : sub32 a a = 0 := by
  unfold sub32
  omega

/-- A measuring pad takes the maximum of its peak and the sample as its peak. -/
theorem measureForce_peak (fp : CurveEval) (p : Pad) (now v : Nat)
    (hm : p._adc_measuring = true) :
    (Pad.measureForce fp p now v)._peak_val = max p._peak_val v := by
  simp only [Pad.measureForce, hm, if_true, peak_update]
  split_ifs <;> rfl

/-- The window start after a `measureForce` call on a measuring pad. -/
theorem measureForce_start (fp : CurveEval) (p : Pad) (now v : Nat)
    (hm : p._adc_measuring = true) :
    (Pad.measureForce fp p now v)._adc_measuring_start_time =
      (if p._last_adc_measuring_state = 1 then p._adc_measuring_start_time else now) := by
  simp only [Pad.measureForce, hm, if_true, peak_update]
  split_ifs <;> first | rfl | contradiction

/-- After a `measureForce` call on a measuring pad, `_last_adc_measuring_state`
mirrors `_adc_measuring`. -/
theorem measureForce_last (fp : CurveEval) (p : Pad) (now v : Nat)
    (hm : p._adc_measuring = true) :
    (Pad.measureForce fp p now v)._last_adc_measuring_state =
      (if (Pad.measureForce fp p now v)._adc_measuring then 1 else 0) := by
  simp only [Pad.measureForce, hm, if_true]

/-- A `measureForce` call on a measuring pad that clears `_adc_measuring` sets the
completion flag and computes the force from the updated peak; more than
`ADC_MEASURING_WINDOW_MS` have elapsed since the window start. -/
theorem measureForce_final (fp : CurveEval) (p : Pad) (now v : Nat)
    (hm : p._adc_measuring = true)
    (hfin : (Pad.measureForce fp p now v)._adc_measuring = false) :
    (Pad.measureForce fp p now v)._measurement_cplt = true ∧
    (Pad.measureForce fp p now v)._force =
      (if max p._peak_val v ≥ p._upper_limit then 127
       else Pad._force_map fp p (max p._peak_val v)) ∧
    sub32 now (Pad.measureForce fp p now v)._adc_measuring_start_time >
      ADC_MEASURING_WINDOW_MS := by
  revert hfin
  simp only [Pad.measureForce, hm, if_true, peak_update]
  split_ifs <;> simp_all
  all_goals exact force_map_congr fp _ _ _ rfl rfl rfl

/-- Every call keeps the calibration of the pad. -/
theorem apply_calibration (fp : CurveEval) (p : Pad) (op : PadOp) :
    (PadOp.apply fp p op)._hit_threshold = p._hit_threshold ∧
    (PadOp.apply fp p op)._upper_limit = p._upper_limit ∧
    (PadOp.apply fp p op)._force_curve = p._force_curve := by
  cases op with
  | detectHit v =>
    simp only [PadOp.apply, Pad.detectHit]
    split_ifs <;> exact ⟨rfl, rfl, rfl⟩
  | isTriggered v => exact ⟨rfl, rfl, rfl⟩
  | measureForce now v =>
    simp only [PadOp.apply, Pad.measureForce]
    split_ifs <;> exact ⟨rfl, rfl, rfl⟩
  | resetMeasurementCplt => exact ⟨rfl, rfl, rfl⟩

/-- A pad that is measuring throughout a sequence is measuring before it. -/
theorem measuringThroughout_head (fp : CurveEval) (p : Pad) (ops : List PadOp)
    (h : measuringThroughout fp p ops = true) : p._adc_measuring = true := by
  cases ops with
  | nil => exact h
  | cons op rest =>
    simp only [measuringThroughout, Bool.and_eq_true] at h
    exact h.1

/-- A call other than `resetMeasurementCplt` keeps a set completion flag. -/
theorem apply_keeps_cplt (fp : CurveEval) (p : Pad) (op : PadOp)
    (hop : PadOp.isReset op = false) (hc : p._measurement_cplt = true) :
    (PadOp.apply fp p op)._measurement_cplt = true := by
  cases op with
  | detectHit v =>
    simp only [PadOp.apply, Pad.detectHit]
    split_ifs <;> exact hc
  | isTriggered v => exact hc
  | measureForce now v =>
    simp only [PadOp.apply, Pad.measureForce]
    split_ifs <;> first | exact hc | rfl
  | resetMeasurementCplt => simp [PadOp.isReset] at hop

/-- C24. A pad whose `_measurement_cplt` flag is set keeps it set across every
sequence of `detectHit`, `isTriggered` and `measureForce` calls, whatever the
samples and the ticks; `resetMeasurementCplt` then clears it. -/
theorem measurement_cplt_sticky (fp : CurveEval) (ops : List PadOp) (p : Pad)
    (hc : p._measurement_cplt = true)
    (hops : ∀ op ∈ ops, PadOp.isReset op = false) :
    (runPadOps fp p ops)._measurement_cplt = true ∧
    (Pad.resetMeasurementCplt (runPadOps fp p ops))._measurement_cplt = false := by
  refine ⟨?_, rfl⟩
  induction ops generalizing p with
  | nil => exact hc
  | cons op rest ih =>
    exact ih (PadOp.apply fp p op)
      (apply_keeps_cplt fp p op (hops op (List.mem_cons_self _ _)) hc)
      (fun x hx => hops x (List.mem_cons_of_mem _ hx))

/-- Witness for C24: a completed measurement that is not consumed, followed by a
second hit that is measured and finalized. -/
theorem measurement_cplt_sticky_witness :
    padCompleted._measurement_cplt = true ∧
    (∀ op ∈ callsAfterCompletion, PadOp.isReset op = false) ∧
    (runPadOps exactLinear padCompleted callsAfterCompletion)._measurement_cplt = true :=
  ⟨rfl, by decide,
    (measurement_cplt_sticky exactLinear callsAfterCompletion padCompleted rfl (by decide)).1⟩

/-- One call on a measuring pad that leaves it measuring: the peak takes the
sample of a `measureForce` call and is unchanged by every other call. -/
theorem apply_measuring_peak (fp : CurveEval) (p : Pad) (op : PadOp)
    (hm : p._adc_measuring = true) :
    (PadOp.apply fp p op)._peak_val = (measuredSamples [op]).foldl max p._peak_val := by
  cases op with
  | detectHit v => simp [PadOp.apply, Pad.detectHit, hm, measuredSamples]
  | isTriggered v => rfl
  | measureForce now v => exact measureForce_peak fp p now v hm
  | resetMeasurementCplt => rfl

/-- The samples measured by a sequence that starts with a given call. -/
theorem measuredSamples_cons (op : PadOp) (rest : List PadOp) :
    measuredSamples (op :: rest) = measuredSamples [op] ++ measuredSamples rest := by
  cases op <;> rfl

/-- While a pad is measuring throughout a sequence of calls, its peak is the
maximum of the peak it had and the samples measured by the sequence. -/
theorem run_measuring_peak (fp : CurveEval) (ops : List PadOp) (q : Pad)
    (hmid : measuringThroughout fp q ops = true) :
    (runPadOps fp q ops)._peak_val = (measuredSamples ops).foldl max q._peak_val ∧
    (runPadOps fp q ops)._adc_measuring = true ∧
    (runPadOps fp q ops)._hit_threshold = q._hit_threshold ∧
    (runPadOps fp q ops)._upper_limit = q._upper_limit ∧
    (runPadOps fp q ops)._force_curve = q._force_curve := by
  induction ops generalizing q with
  | nil => exact ⟨rfl, hmid, rfl, rfl, rfl⟩
  | cons op rest ih =>
    simp only [measuringThroughout, Bool.and_eq_true] at hmid
    obtain ⟨h1, h2, h3, h4, h5⟩ := ih (PadOp.apply fp q op) hmid.2
    have hc := apply_calibration fp q op
    refine ⟨?_, h2, h3.trans hc.1, h4.trans hc.2.1, h5.trans hc.2.2⟩
    show (runPadOps fp (PadOp.apply fp q op) rest)._peak_val = _
    rw [h1, measuredSamples_cons op rest, List.foldl_append,
      apply_measuring_peak fp q op hmid.1]

/-- C27. Let `detectHit` start a measurement on a pad that is not measuring (sample
`v0` above the threshold), whatever peak the pad still holds. Let `ops` be the
calls made while the measurement is in progress (`detectHit`, `isTriggered`,
`measureForce` and `resetMeasurementCplt` in any order, none of them
finalizing), and let the `measureForce` call at tick `now` with sample `v`
finalize it. Then the peak is the maximum of the samples read by the
`measureForce` calls of `ops` and of `v`, the force is 127 when this peak
reaches `_upper_limit` and `_force_map` of this peak otherwise, and the
completion flag is set. -/
theorem finalized_peak_is_window_max (fp : CurveEval) (p : Pad) (v0 : Nat)
    (ops : List PadOp) (now v : Nat)
    (hidle : p._adc_measuring = false) (hhit : v0 > p._hit_threshold)
    (hmid : measuringThroughout fp (Pad.detectHit p v0) ops = true)
    (hfin : (Pad.measureForce fp (runPadOps fp (Pad.detectHit p v0) ops) now v)._adc_measuring
      = false) :
    (Pad.measureForce fp (runPadOps fp (Pad.detectHit p v0) ops) now v)._peak_val =
      (measuredSamples ops ++ [v]).foldl max 0 ∧
    (Pad.measureForce fp (runPadOps fp (Pad.detectHit p v0) ops) now v)._force =
      (if (measuredSamples ops ++ [v]).foldl max 0 ≥ p._upper_limit then 127
       else Pad._force_map fp p ((measuredSamples ops ++ [v]).foldl max 0)) ∧
    (Pad.measureForce fp (runPadOps fp (Pad.detectHit p v0) ops) now v)._measurement_cplt =
      true := by
  have hstart : Pad.detectHit p v0 = { p with _adc_measuring := true, _peak_val := 0 } := by
    simp [Pad.detectHit, Pad._isHit, hhit, hidle]
  obtain ⟨h1, h2, h3, h4, h5⟩ := run_measuring_peak fp ops (Pad.detectHit p v0) hmid
  have k1 : (runPadOps fp (Pad.detectHit p v0) ops)._peak_val =
      (measuredSamples ops).foldl max 0 := by
    rw [h1, hstart]
  have k3 : (runPadOps fp (Pad.detectHit p v0) ops)._hit_threshold = p._hit_threshold := by
    rw [h3, hstart]
  have k4 : (runPadOps fp (Pad.detectHit p v0) ops)._upper_limit = p._upper_limit := by
    rw [h4, hstart]
  have k5 : (runPadOps fp (Pad.detectHit p v0) ops)._force_curve = p._force_curve := by
    rw [h5, hstart]
  have hpeak : (measuredSamples ops ++ [v]).foldl max 0 =
      max (runPadOps fp (Pad.detectHit p v0) ops)._peak_val v := by
    rw [k1, List.foldl_append]
    rfl
  obtain ⟨f1, f2, _⟩ :=
    measureForce_final fp (runPadOps fp (Pad.detectHit p v0) ops) now v h2 hfin
  refine ⟨?_, ?_, f1⟩
  · rw [measureForce_peak fp _ now v h2, hpeak]
  · rw [f2, hpeak, k4, force_map_congr fp p (runPadOps fp (Pad.detectHit p v0) ops) _ k3 k4 k5]

/-- Witness for C27: a pad that still holds the peak 1900 of an earlier measurement
is hit again; the samples 1200, 1300 and 1100 are measured and the measurement
finalizes at tick 30 with peak 1300. -/
theorem finalized_peak_is_window_max_witness :
    padStalePeak._adc_measuring = false ∧ padStalePeak._peak_val = 1900 ∧
    measuringThroughout exactLinear (Pad.detectHit padStalePeak 1200) windowCalls = true ∧
    (Pad.measureForce exactLinear
      (runPadOps exactLinear (Pad.detectHit padStalePeak 1200) windowCalls) 30 0)._peak_val =
      1300 :=
  ⟨rfl, rfl, by decide,
    (finalized_peak_is_window_max exactLinear padStalePeak 1200 windowCalls 30 0 rfl
      (by decide) (by decide) (by decide)).1⟩

/-- Calls other than `measureForce` on a measuring pad leave it measuring and keep
`_last_adc_measuring_state`. -/
theorem run_without_measure (fp : CurveEval) (pre : List PadOp) (q : Pad)
    (hm : q._adc_measuring = true) (hpre : ∀ op ∈ pre, PadOp.isMeasure op = false) :
    (runPadOps fp q pre)._adc_measuring = true ∧
    (runPadOps fp q pre)._last_adc_measuring_state = q._last_adc_measuring_state := by
  induction pre generalizing q with
  | nil => exact ⟨hm, rfl⟩
  | cons op rest ih =>
    have hop := hpre op (List.mem_cons_self _ _)
    have hrest : ∀ x ∈ rest, PadOp.isMeasure x = false :=
      fun x hx => hpre x (List.mem_cons_of_mem _ hx)
    cases op with
    | detectHit v =>
      have e : PadOp.apply fp q (PadOp.detectHit v) = q := by
        simp [PadOp.apply, Pad.detectHit, hm]
      have hrun : runPadOps fp q (PadOp.detectHit v :: rest) = runPadOps fp q rest := by
        show runPadOps fp (PadOp.apply fp q (PadOp.detectHit v)) rest = _
        rw [e]
      rw [hrun]
      exact ih q hm hrest
    | isTriggered v => exact ih _ hm hrest
    | measureForce now v => simp [PadOp.isMeasure] at hop
    | resetMeasurementCplt => exact ih _ hm hrest

/-- In every state a pad reaches from a state where it holds, a pad that is not
measuring has `_last_adc_measuring_state = 0`. -/
theorem run_idle_last (fp : CurveEval) (ops : List PadOp) (p : Pad)
    (hi : p._adc_measuring = false → p._last_adc_measuring_state = 0) :
    (runPadOps fp p ops)._adc_measuring = false →
      (runPadOps fp p ops)._last_adc_measuring_state = 0 := by
  induction ops generalizing p with
  | nil => exact hi
  | cons op rest ih =>
    apply ih (PadOp.apply fp p op)
    cases op with
    | detectHit v =>
      simp only [PadOp.apply, Pad.detectHit]
      split_ifs
      · intro h
        simp at h
      · exact hi
    | isTriggered v => exact hi
    | measureForce now v =>
      by_cases hm : p._adc_measuring = true
      · intro h
        have hl := measureForce_last fp p now v hm
        simp only [PadOp.apply] at h ⊢
        rw [hl, h]
        rfl
      · have e : PadOp.apply fp p (PadOp.measureForce now v) = p := by
          simp [PadOp.apply, Pad.measureForce, hm]
        rw [e]
        exact hi
    | resetMeasurementCplt => exact hi

/-- Once the window of a measurement is open (`_last_adc_measuring_state = 1`), no
call made while the measurement is in progress changes its start time. -/
theorem run_measuring_start (fp : CurveEval) (ops : List PadOp) (q : Pad)
    (hl : q._last_adc_measuring_state = 1)
    (hmid : measuringThroughout fp q ops = true) :
    (runPadOps fp q ops)._adc_measuring_start_time = q._adc_measuring_start_time ∧
    (runPadOps fp q ops)._last_adc_measuring_state = 1 ∧
    (runPadOps fp q ops)._adc_measuring = true := by
  induction ops generalizing q with
  | nil => exact ⟨rfl, hl, hmid⟩
  | cons op rest ih =>
    simp only [measuringThroughout, Bool.and_eq_true] at hmid
    have hnext := measuringThroughout_head fp _ _ hmid.2
    have hstep : (PadOp.apply fp q op)._last_adc_measuring_state = 1 ∧
        (PadOp.apply fp q op)._adc_measuring_start_time = q._adc_measuring_start_time := by
      cases op with
      | detectHit v =>
        have e : PadOp.apply fp q (PadOp.detectHit v) = q := by
          simp [PadOp.apply, Pad.detectHit, hmid.1]
        rw [e]
        exact ⟨hl, rfl⟩
      | isTriggered v => exact ⟨hl, rfl⟩
      | measureForce now v =>
        refine ⟨?_, ?_⟩
        · have h := measureForce_last fp q now v hmid.1
          simp only [PadOp.apply] at hnext ⊢
          rw [h, hnext]
          rfl
        · have h := measureForce_start fp q now v hmid.1
          simp only [PadOp.apply]
          rw [h, if_pos hl]
      | resetMeasurementCplt => exact ⟨hl, rfl⟩
    obtain ⟨h1, h2, h3⟩ := ih (PadOp.apply fp q op) hstep.1 hmid.2
    exact ⟨h1.trans hstep.2, h2, h3⟩

/-- A sequence of calls keeps the hit threshold of the pad. -/
theorem run_hit_threshold (fp : CurveEval) (ops : List PadOp) (p : Pad) :
    (runPadOps fp p ops)._hit_threshold = p._hit_threshold := by
  induction ops generalizing p with
  | nil => rfl
  | cons op rest ih => exact (ih (PadOp.apply fp p op)).trans (apply_calibration fp p op).1

/-- The window of a measurement started on an idle pad whose
`_last_adc_measuring_state` is 0 opens at the first `measureForce` call and
stays where it is while the measurement is in progress. -/
theorem window_start_from_idle (fp : CurveEval) (p : Pad) (v0 : Nat) (pre : List PadOp)
    (t1 v1 : Nat) (hidle : p._adc_measuring = false) (hlast : p._last_adc_measuring_state = 0)
    (hhit : v0 > p._hit_threshold) (hpre : ∀ op ∈ pre, PadOp.isMeasure op = false) :
    (windowOpened fp p v0 pre t1 v1)._adc_measuring_start_time = t1 ∧
    (windowOpened fp p v0 pre t1 v1)._adc_measuring = true ∧
    ∀ (ops : List PadOp) (now v : Nat),
      measuringThroughout fp (windowOpened fp p v0 pre t1 v1) ops = true →
      (runPadOps fp (windowOpened fp p v0 pre t1 v1) ops)._adc_measuring_start_time = t1 ∧
      (Pad.measureForce fp (runPadOps fp (windowOpened fp p v0 pre t1 v1) ops) now
        v)._adc_measuring_start_time = t1 := by
  have hstart : Pad.detectHit p v0 = { p with _adc_measuring := true, _peak_val := 0 } := by
    simp [Pad.detectHit, Pad._isHit, hhit, hidle]
  obtain ⟨m1, l1⟩ := run_without_measure fp pre (Pad.detectHit p v0) (by rw [hstart]) hpre
  have l2 : (runPadOps fp (Pad.detectHit p v0) pre)._last_adc_measuring_state = 0 := by
    rw [l1, hstart]
    exact hlast
  have s1 : (windowOpened fp p v0 pre t1 v1)._adc_measuring_start_time = t1 := by
    unfold windowOpened
    rw [measureForce_start fp _ t1 v1 m1, l2]
    rfl
  have a1 : (windowOpened fp p v0 pre t1 v1)._adc_measuring = true := by
    by_contra hne
    have hf : (Pad.measureForce fp (runPadOps fp (Pad.detectHit p v0) pre) t1
        v1)._adc_measuring = false := by
      simpa [windowOpened] using hne
    obtain ⟨_, _, f3⟩ := measureForce_final fp (runPadOps fp (Pad.detectHit p v0) pre) t1 v1 m1 hf
    have s2 : (Pad.measureForce fp (runPadOps fp (Pad.detectHit p v0) pre) t1
        v1)._adc_measuring_start_time = t1 := s1
    rw [s2, sub32_self] at f3
    exact absurd f3 (Nat.not_lt_zero _)
  have last1 : (windowOpened fp p v0 pre t1 v1)._last_adc_measuring_state = 1 := by
    have h := measureForce_last fp (runPadOps fp (Pad.detectHit p v0) pre) t1 v1 m1
    have a2 : (Pad.measureForce fp (runPadOps fp (Pad.detectHit p v0) pre) t1
        v1)._adc_measuring = true := a1
    rw [a2] at h
    exact h
  refine ⟨s1, a1, ?_⟩
  intro ops now v hmid
  obtain ⟨r1, r2, r3⟩ := run_measuring_start fp ops _ last1 hmid
  refine ⟨r1.trans s1, ?_⟩
  rw [measureForce_start fp _ now v r3, if_pos r2, r1, s1]

/-- C28. Take a pad in any state reached from construction by `detectHit`,
`isTriggered`, `measureForce` and `resetMeasurementCplt` calls in which it is
not measuring, and let `detectHit` start a measurement (sample `v0` above the
threshold). After calls `pre` other than `measureForce`, the first
`measureForce` call, at tick `t1`, sets the window start to `t1` and does not
finalize the measurement. Every call made while the measurement is in
progress, and the `measureForce` call that finalizes it, leave the window start
at `t1`. -/
theorem window_start_is_first_measure (fp : CurveEval) (pad_id hit upper : Nat)
    (curve : ForceMappingCurve) (history : List PadOp) (v0 : Nat) (pre : List PadOp)
    (t1 v1 : Nat)
    (hidle : (runPadOps fp (Pad.init pad_id hit upper curve) history)._adc_measuring = false)
    (hhit : v0 > hit)
    (hpre : ∀ op ∈ pre, PadOp.isMeasure op = false) :
    (windowOpened fp (runPadOps fp (Pad.init pad_id hit upper curve) history) v0 pre t1
      v1)._adc_measuring_start_time = t1 ∧
    (windowOpened fp (runPadOps fp (Pad.init pad_id hit upper curve) history) v0 pre t1
      v1)._adc_measuring = true ∧
    ∀ (ops : List PadOp) (now v : Nat),
      measuringThroughout fp
        (windowOpened fp (runPadOps fp (Pad.init pad_id hit upper curve) history) v0 pre t1 v1)
        ops = true →
      (runPadOps fp
        (windowOpened fp (runPadOps fp (Pad.init pad_id hit upper curve) history) v0 pre t1 v1)
        ops)._adc_measuring_start_time = t1 ∧
      (Pad.measureForce fp (runPadOps fp
        (windowOpened fp (runPadOps fp (Pad.init pad_id hit upper curve) history) v0 pre t1 v1)
        ops) now v)._adc_measuring_start_time = t1 :=
  window_start_from_idle fp (runPadOps fp (Pad.init pad_id hit upper curve) history) v0 pre t1
    v1 hidle
    (run_idle_last fp history (Pad.init pad_id hit upper curve) (fun _ => rfl) hidle)
    (by rw [run_hit_threshold]; exact hhit) hpre

/-- Witness for C28: after one complete measurement, a second hit whose window
opens at tick 40, with a later call of the same measurement at tick 41 and the
finalizing call at tick 70. -/
theorem window_start_is_first_measure_witness :
    (runPadOps exactLinear (Pad.init 0 1000 2000 ForceMappingCurve.CURVE_LINEAR)
      earlierMeasurement)._adc_measuring = false ∧
    (windowOpened exactLinear
      (runPadOps exactLinear (Pad.init 0 1000 2000 ForceMappingCurve.CURVE_LINEAR)
        earlierMeasurement) 1300 [PadOp.isTriggered 1300] 40 1300)._adc_measuring_start_time
      = 40 ∧
    (Pad.measureForce exactLinear (runPadOps exactLinear
      (windowOpened exactLinear
        (runPadOps exactLinear (Pad.init 0 1000 2000 ForceMappingCurve.CURVE_LINEAR)
          earlierMeasurement) 1300 [PadOp.isTriggered 1300] 40 1300)
      [PadOp.detectHit 1250, PadOp.measureForce 41 1250]) 70 0)._adc_measuring_start_time
      = 40 :=
  ⟨by decide,
    (window_start_is_first_measure exactLinear 0 1000 2000 ForceMappingCurve.CURVE_LINEAR
      earlierMeasurement 1300 [PadOp.isTriggered 1300] 40 1300 (by decide) (by decide)
      (by decide)).1,
    ((window_start_is_first_measure exactLinear 0 1000 2000 ForceMappingCurve.CURVE_LINEAR
      earlierMeasurement 1300 [PadOp.isTriggered 1300] 40 1300 (by decide) (by decide)
      (by decide)).2.2 [PadOp.detectHit 1250, PadOp.measureForce 41 1250] 70 0
      (by decide)).2⟩

/-! ## Theorems: repeated Note Off -/

/-- C25. Two consecutive `sendNoteOff(padID)` calls, whatever the scheduler state,
the pad and the acknowledgements: the second call passes no byte to `_sendByte`
and leaves the object as the first call left it, so the two calls together
request at most the three bytes of one Note Off message, and the channel
states after the second call are those after the first. -/
theorem sendNoteOff_twice (m : Midi) (acks1 acks2 : Nat → Bool) (padID : Nat) :
    Midi.sendNoteOff (Midi.sendNoteOff m acks1 padID).1 acks2 padID =
      ((Midi.sendNoteOff m acks1 padID).1, []) ∧
    ((Midi.sendNoteOff m acks1 padID).2 ++
      (Midi.sendNoteOff (Midi.sendNoteOff m acks1 padID).1 acks2 padID).2).length ≤ 3 ∧
    (Midi.sendNoteOff (Midi.sendNoteOff m acks1 padID).1 acks2 padID).1._channel_states =
      (Midi.sendNoteOff m acks1 padID).1._channel_states := by
  have hsecond : Midi.sendNoteOff (Midi.sendNoteOff m acks1 padID).1 acks2 padID =
      ((Midi.sendNoteOff m acks1 padID).1, []) := by
    by_cases h : padID < MIDI_CHANNELS_NUM
    · have hspec := sendNoteOff_spec m acks1 ⟨padID, h⟩
      by_cases hs : (m._channel_states ⟨padID, h⟩).noteOn_sent = true
      · have hstates := (hspec.2 hs).2
        have hoff : ((Midi.sendNoteOff m acks1 padID).1._channel_states ⟨padID, h⟩).noteOn_sent
            = false := by
          have h2 : (Midi.sendNoteOff m acks1 (⟨padID, h⟩ : Fin MIDI_CHANNELS_NUM).val).1
              = (Midi.sendNoteOff m acks1 padID).1 := rfl
          rw [← h2, hstates]
          simp
        exact (sendNoteOff_spec (Midi.sendNoteOff m acks1 padID).1 acks2 ⟨padID, h⟩).1 hoff
      · have hs2 : (m._channel_states ⟨padID, h⟩).noteOn_sent = false := by
          simpa using hs
        have h1 : Midi.sendNoteOff m acks1 padID = (m, []) := hspec.1 hs2
        rw [h1]
        exact (sendNoteOff_spec m acks2 ⟨padID, h⟩).1 hs2
    · simp [Midi.sendNoteOff, h]
  have hlen : (Midi.sendNoteOff m acks1 padID).2.length ≤ 3 := by
    by_cases h : padID < MIDI_CHANNELS_NUM
    · by_cases hs : (m._channel_states ⟨padID, h⟩).noteOn_sent = true
      · have h2 := ((sendNoteOff_spec m acks1 ⟨padID, h⟩).2 hs).1
        have h3 : (Midi.sendNoteOff m acks1 padID).2 =
            [statusByte 0x80 (m._channel_states ⟨padID, h⟩).channel,
             (m._channel_states ⟨padID, h⟩).note &&& 0x7F, 0x00] := h2
        rw [h3]
        exact Nat.le_refl 3
      · have hs2 : (m._channel_states ⟨padID, h⟩).noteOn_sent = false := by
          simpa using hs
        have h1 : Midi.sendNoteOff m acks1 padID = (m, []) :=
          (sendNoteOff_spec m acks1 ⟨padID, h⟩).1 hs2
        rw [h1]
        exact Nat.zero_le 3
    · simp [Midi.sendNoteOff, h]
  refine ⟨hsecond, ?_, ?_⟩
  · rw [hsecond]
    simpa using hlen
  · rw [hsecond]

/-! ## Theorems: degenerate calibration, at the call site -/

/-- An undefined state value: the state 4 with three clicks counted. One `_fsm` step
ends in INIT and invokes no callback; the click counter is still 3 afterwards,
not 0. -/
theorem unknown_state_counter_kept :
    buttonCorrupt._state = 4 ∧ buttonCorrupt._nClicks = 3 ∧
    (_fsm buttonCorrupt false).1._state = OCS_INIT ∧
    (_fsm buttonCorrupt false).2 = [] ∧
    (_fsm buttonCorrupt false).1._nClicks = 3 ∧
    (_fsm buttonCorrupt false).1._nClicks ≠ (reset buttonCorrupt)._nClicks := by
  decide

/-- Two buttons in INIT that differ in the click counter and the entry time only
invoke the same callbacks on every sequence of steps, and are the same object
from the first step with an active level on. -/
theorem run_init_agree (steps : List (Bool × Nat)) (b : OneButtonTiny) (n : Int) (s : Nat)
    (h : b._state = OCS_INIT) :
    (runFsm { b with _nClicks := n, _startTime := s } steps).2 = (runFsm b steps).2 ∧
    ((runFsm { b with _nClicks := n, _startTime := s } steps).1 = (runFsm b steps).1 ∨
      ((runFsm b steps).1._state = OCS_INIT ∧
        (runFsm { b with _nClicks := n, _startTime := s } steps).1 =
          { (runFsm b steps).1 with _nClicks := n, _startTime := s })) := by
  induction steps generalizing b with
  | nil => exact ⟨rfl, Or.inr ⟨h, rfl⟩⟩
  | cons step rest ih =>
    obtain ⟨level, t⟩ := step
    cases level
    · have e1 := step_init_idle b h t
      have e2 := step_init_idle { b with _nClicks := n, _startTime := s } h t
      obtain ⟨i1, i2⟩ := ih { b with now := t } h
      rw [runFsm_cons, runFsm_cons, e1, e2]
      exact ⟨by simpa using i1, i2⟩
    · have e1 := step_init_press b h t
      have e2 := step_init_press { b with _nClicks := n, _startTime := s } h t
      rw [runFsm_cons, runFsm_cons, e1, e2]
      exact ⟨rfl, Or.inl rfl⟩

/-- C20. In a state that is none of the six defined ones, for every click count
and every level, one `_fsm` step ends in INIT and invokes no callback; it runs
`_newState(OCS_INIT)` only, so the click counter and the entry time keep their
values. The difference from `reset()` is not observable: every sequence of
later steps invokes the same callbacks and ends in the same state as it does
after `reset()`, and ends in the same object whenever it does not end in
INIT. -/
theorem unknown_state_recovery (b : OneButtonTiny) (level : Bool)
    (h1 : b._state ≠ OCS_INIT) (h2 : b._state ≠ OCS_DOWN) (h3 : b._state ≠ OCS_UP)
    (h4 : b._state ≠ OCS_COUNT) (h5 : b._state ≠ OCS_PRESS) (h6 : b._state ≠ OCS_PRESSEND) :
    _fsm b level = ({ b with _state := OCS_INIT }, []) ∧
    ∀ steps : List (Bool × Nat),
      (runFsm (_fsm b level).1 steps).2 = (runFsm (reset b) steps).2 ∧
      (runFsm (_fsm b level).1 steps).1._state = (runFsm (reset b) steps).1._state ∧
      ((runFsm (_fsm b level).1 steps).1._state ≠ OCS_INIT →
        (runFsm (_fsm b level).1 steps).1 = (runFsm (reset b) steps).1) := by
  have hstep : _fsm b level = ({ b with _state := OCS_INIT }, []) := by
    simp [_fsm, h1, h2, h3, h4, h5, h6, _newState]
  refine ⟨hstep, ?_⟩
  intro steps
  have hobj : (_fsm b level).1 =
      { reset b with _nClicks := b._nClicks, _startTime := b._startTime } := by
    rw [hstep]
    rfl
  rw [hobj]
  obtain ⟨r1, r2⟩ := run_init_agree steps (reset b) b._nClicks b._startTime rfl
  refine ⟨r1, ?_, ?_⟩
  · rcases r2 with r2 | ⟨r3, r4⟩
    · rw [r2]
    · rw [r4, r3]
  · intro hne
    rcases r2 with r2 | ⟨r3, r4⟩
    · exact r2
    · rw [r4] at hne
      exact absurd r3 hne

/-- Witness for C20: from state 4 with three clicks counted, the step and a press
of 90 ms that follows invoke what they invoke after `reset()`. -/
theorem unknown_state_recovery_witness :
    buttonCorrupt._state = 4 ∧
    (_fsm buttonCorrupt true).1._state = OCS_INIT ∧
    (runFsm (_fsm buttonCorrupt true).1 clickSteps).2 =
      (runFsm (reset buttonCorrupt) clickSteps).2 :=
  ⟨rfl, by decide,
    ((unknown_state_recovery buttonCorrupt true (by decide) (by decide) (by decide) (by decide)
      (by decide) (by decide)).2 clickSteps).1⟩

/-! ## Theorems: single-precision rounding, error and monotonicity -/

/-- The binary exponent of a positive rational between two consecutive powers of 2. -/
theorem int_log_of_bracket (x : ℚ) (e : ℤ) (h1 : (2 : ℚ) ^ e ≤ x) (h2 : x < 2 ^ (e + 1)) :
    Int.log 2 x = e := by
  have hx : 0 < x := lt_of_lt_of_le (zpow_pos (by norm_num) e) h1
  have hcast : ((2 : ℕ) : ℚ) = 2 := by norm_num
  apply le_antisymm
  · have h := (Int.lt_zpow_iff_log_lt (b := 2) (by norm_num) hx).mp (by rw [hcast]; exact h2)
    omega
  · exact (Int.zpow_le_iff_le_log (b := 2) (by norm_num) hx).mp (by rw [hcast]; exact h1)

/-- Rounding to the nearest integer moves a number by at most one half. -/
theorem roundHalfEven_near (q : ℚ) :
    q - 1 / 2 ≤ roundHalfEven q ∧ (roundHalfEven q : ℚ) ≤ q + 1 / 2 := by
  have h1 := Int.floor_le q
  have h2 := Int.lt_floor_add_one q
  unfold roundHalfEven
  split_ifs with c1 c2 c3
  · constructor <;> linarith
  · constructor
    · push_cast; linarith
    · push_cast; linarith
  · constructor <;> linarith
  · constructor
    · push_cast; linarith
    · push_cast; linarith

theorem roundHalfEven_le_of_lt (q : ℚ) (M : ℤ) (h : q < M + 1 / 2) : roundHalfEven q ≤ M := by
  have h1 := (roundHalfEven_near q).2
  have h2 : ((roundHalfEven q : ℤ) : ℚ) < M + 1 := by linarith
  have h3 : roundHalfEven q < M + 1 := by exact_mod_cast h2
  omega

theorem roundHalfEven_ge_of_lt (q : ℚ) (M : ℤ) (h : (M : ℚ) - 1 / 2 < q) :
    M ≤ roundHalfEven q := by
  have h1 := (roundHalfEven_near q).1
  have h2 : ((M : ℤ) : ℚ) - 1 < roundHalfEven q := by linarith
  have h3 : M - 1 < roundHalfEven q := by exact_mod_cast h2
  omega

theorem roundHalfEven_mono (q r : ℚ) (h : q ≤ r) : roundHalfEven q ≤ roundHalfEven r := by
  rcases eq_or_lt_of_le h with h | h
  · rw [h]
  · have h1 := (roundHalfEven_near q).2
    have h2 := (roundHalfEven_near r).1
    have h3 : ((roundHalfEven q : ℤ) : ℚ) < roundHalfEven r + 1 := by linarith
    have h4 : roundHalfEven q < roundHalfEven r + 1 := by exact_mod_cast h3
    omega

/-- Rounding of a positive number, with its binary exponent. -/
theorem rnd32_of_pos (x : ℚ) (hx : 0 < x) :
    rnd32 x =
      roundHalfEven (x / 2 ^ (Int.log 2 x - 23)) * 2 ^ (Int.log 2 x - 23) := by
  simp [rnd32, hx.ne', abs_of_pos hx]

/-- Rounding of a number between two consecutive powers of 2. -/
theorem rnd32_in_binade (x : ℚ) (e : ℤ) (h1 : (2 : ℚ) ^ e ≤ x) (h2 : x < 2 ^ (e + 1)) :
    rnd32 x = roundHalfEven (x / 2 ^ (e - 23)) * 2 ^ (e - 23) := by
  have hx : 0 < x := lt_of_lt_of_le (zpow_pos (by norm_num) e) h1
  rw [rnd32_of_pos x hx, int_log_of_bracket x e h1 h2]

/-- A number above the midpoint below a single-precision number `M * 2 ^ (e - 23)` of
its binade does not round below it. -/
theorem rnd32_ge_of_near (x : ℚ) (e M : ℤ) (h1 : (2 : ℚ) ^ e ≤ x) (h2 : x < 2 ^ (e + 1))
    (h3 : (M : ℚ) * 2 ^ (e - 23) - 2 ^ (e - 23) / 2 < x) :
    (M : ℚ) * 2 ^ (e - 23) ≤ rnd32 x := by
  have hu : (0 : ℚ) < 2 ^ (e - 23) := zpow_pos (by norm_num) _
  rw [rnd32_in_binade x e h1 h2]
  apply mul_le_mul_of_nonneg_right _ hu.le
  have h4 : (M : ℚ) - 1 / 2 < x / 2 ^ (e - 23) := by
    rw [lt_div_iff₀ hu]
    linarith
  exact_mod_cast roundHalfEven_ge_of_lt _ M h4

/-- A number below the midpoint above a single-precision number `M * 2 ^ (e - 23)` of
its binade does not round above it. -/
theorem rnd32_le_of_near (x : ℚ) (e M : ℤ) (h1 : (2 : ℚ) ^ e ≤ x) (h2 : x < 2 ^ (e + 1))
    (h3 : x < (M : ℚ) * 2 ^ (e - 23) + 2 ^ (e - 23) / 2) :
    rnd32 x ≤ (M : ℚ) * 2 ^ (e - 23) := by
  have hu : (0 : ℚ) < 2 ^ (e - 23) := zpow_pos (by norm_num) _
  rw [rnd32_in_binade x e h1 h2]
  apply mul_le_mul_of_nonneg_right _ hu.le
  have h4 : x / 2 ^ (e - 23) < (M : ℚ) + 1 / 2 := by
    rw [div_lt_iff₀ hu]
    linarith
  exact_mod_cast roundHalfEven_le_of_lt _ M h4

/-- Rounding evaluated: the single-precision number `n * 2 ^ (e - 23)` nearest to a
number of the binade `[2 ^ e, 2 ^ (e + 1))`. -/
theorem rnd32_of_bracket (x : ℚ) (e n : ℤ) (h1 : (2 : ℚ) ^ e ≤ x) (h2 : x < 2 ^ (e + 1))
    (h3 : (n : ℚ) * 2 ^ (e - 23) - 2 ^ (e - 23) / 2 < x)
    (h4 : x < (n : ℚ) * 2 ^ (e - 23) + 2 ^ (e - 23) / 2) :
    rnd32 x = (n : ℚ) * 2 ^ (e - 23) :=
  le_antisymm (rnd32_le_of_near x e n h1 h2 h4) (rnd32_ge_of_near x e n h1 h2 h3)

/-- The rounding error of a positive number below `2 ^ (j + 1)` is at most
`2 ^ (j - 24)`, half a unit in the last place. -/
theorem rnd32_error (x : ℚ) (j : ℤ) (hx : 0 < x) (h : x < 2 ^ (j + 1)) :
    x - 2 ^ (j - 24) ≤ rnd32 x ∧ rnd32 x ≤ x + 2 ^ (j - 24) := by
  have hcast : ((2 : ℕ) : ℚ) = 2 := by norm_num
  have hL : Int.log 2 x ≤ j := by
    have := (Int.lt_zpow_iff_log_lt (b := 2) (by norm_num) hx).mp (by rw [hcast]; exact h)
    omega
  have hu : (0 : ℚ) < 2 ^ (Int.log 2 x - 23) := zpow_pos (by norm_num) _
  have hle : (2 : ℚ) ^ (Int.log 2 x - 23) / 2 ≤ 2 ^ (j - 24) := by
    have e1 : (2 : ℚ) ^ (Int.log 2 x - 23) / 2 = 2 ^ (Int.log 2 x - 24) := by
      rw [show Int.log 2 x - 23 = (Int.log 2 x - 24) + 1 by ring, zpow_add_one₀ (by norm_num)]
      field_simp
    rw [e1]
    exact zpow_le_zpow_right₀ (by norm_num) (by omega)
  have hn := roundHalfEven_near (x / 2 ^ (Int.log 2 x - 23))
  rw [rnd32_of_pos x hx]
  have hx2 : x / 2 ^ (Int.log 2 x - 23) * 2 ^ (Int.log 2 x - 23) = x := by
    field_simp
  constructor
  · have := mul_le_mul_of_nonneg_right hn.1 hu.le
    rw [sub_mul, hx2] at this
    linarith
  · have := mul_le_mul_of_nonneg_right hn.2 hu.le
    rw [add_mul, hx2] at this
    linarith

/-- A rounded positive number stays in the closure of its binade. -/
theorem rnd32_binade_bounds (x : ℚ) (hx : 0 < x) :
    (2 : ℚ) ^ Int.log 2 x ≤ rnd32 x ∧ rnd32 x ≤ 2 ^ (Int.log 2 x + 1) := by
  have hcast : ((2 : ℕ) : ℚ) = 2 := by norm_num
  have h2 : (2 : ℚ) ≠ 0 := by norm_num
  have hlo := Int.zpow_log_le_self (b := 2) (r := x) (by norm_num) hx
  have hhi := Int.lt_zpow_succ_log_self (b := 2) (by norm_num : 1 < 2) x
  rw [hcast] at hlo hhi
  have hu : (0 : ℚ) < 2 ^ (Int.log 2 x - 23) := zpow_pos (by norm_num) _
  have s1 : (2 : ℚ) ^ Int.log 2 x = 8388608 * 2 ^ (Int.log 2 x - 23) := by
    have h23 : (8388608 : ℚ) = 2 ^ (23 : ℤ) := by norm_num
    rw [h23, ← zpow_add₀ h2]
    congr 1
    omega
  have s2 : (2 : ℚ) ^ (Int.log 2 x + 1) = 16777216 * 2 ^ (Int.log 2 x - 23) := by
    have h24 : (16777216 : ℚ) = 2 ^ (24 : ℤ) := by norm_num
    rw [h24, ← zpow_add₀ h2]
    congr 1
    omega
  rw [rnd32_of_pos x hx, s1, s2]
  constructor
  · apply mul_le_mul_of_nonneg_right _ hu.le
    have : ((8388608 : ℤ) : ℚ) ≤ x / 2 ^ (Int.log 2 x - 23) := by
      rw [le_div_iff₀ hu]
      push_cast
      rw [← s1]
      exact hlo
    exact_mod_cast le_roundHalfEven 8388608 _ this
  · apply mul_le_mul_of_nonneg_right _ hu.le
    have : x / 2 ^ (Int.log 2 x - 23) < ((16777216 : ℤ) : ℚ) + 1 / 2 := by
      rw [div_lt_iff₀ hu]
      push_cast
      rw [add_mul, ← s2]
      linarith
    exact_mod_cast roundHalfEven_le_of_lt _ 16777216 this

/-- Rounding to single precision is monotone on the positive numbers. -/
theorem rnd32_mono (x y : ℚ) (hx : 0 < x) (h : x ≤ y) : rnd32 x ≤ rnd32 y := by
  have hy : 0 < y := lt_of_lt_of_le hx h
  have hlog : Int.log 2 x ≤ Int.log 2 y := Int.log_mono_right hx h
  rcases eq_or_lt_of_le hlog with he | hlt
  · have hu : (0 : ℚ) < 2 ^ (Int.log 2 y - 23) := zpow_pos (by norm_num) _
    rw [rnd32_of_pos x hx, rnd32_of_pos y hy, he]
    apply mul_le_mul_of_nonneg_right _ hu.le
    exact_mod_cast roundHalfEven_mono _ _ (div_le_div_of_nonneg_right h hu.le)
  · have h1 := (rnd32_binade_bounds x hx).2
    have h2 := (rnd32_binade_bounds y hy).1
    have h3 : (2 : ℚ) ^ (Int.log 2 x + 1) ≤ 2 ^ Int.log 2 y :=
      zpow_le_zpow_right₀ (by norm_num) (by omega)
    linarith

/-- A positive number at or above a single-precision number rounds at or above it. -/
theorem rnd32_ge_of_ge (x : ℚ) (m k : ℤ) (hm : |m| < 2 ^ 24) (hpos : (0 : ℚ) < m * 2 ^ k)
    (h : (m : ℚ) * 2 ^ k ≤ x) : (m : ℚ) * 2 ^ k ≤ rnd32 x := by
  rw [← rnd32_exact m k hm]
  exact rnd32_mono _ _ hpos h

/-- A positive number at or below a single-precision number rounds at or below it. -/
theorem rnd32_le_of_le (x : ℚ) (m k : ℤ) (hm : |m| < 2 ^ 24) (hx : 0 < x)
    (h : x ≤ (m : ℚ) * 2 ^ k) : rnd32 x ≤ (m : ℚ) * 2 ^ k := by
  rw [← rnd32_exact m k hm]
  exact rnd32_mono _ _ hx h

/-! ## Theorems: the exponential curve against exact arithmetic -/

/-- The normalised value `(float)2634 / (float)4095`. -/
theorem temp_2634_4095 :
    fdiv (rnd32 ((2634 : ℕ) : ℚ)) (rnd32 ((4095 : ℕ) : ℚ)) = 10791499 / 16777216 := by
  rw [rnd32_natCast 2634 (by norm_num), rnd32_natCast 4095 (by norm_num), fdiv]
  have h := rnd32_of_bracket (((2634 : ℕ) : ℚ) / ((4095 : ℕ) : ℚ)) (-1) 10791499 (by norm_num)
    (by norm_num) (by norm_num) (by norm_num)
  rw [h]
  norm_num

/-- The square root of the cube of `10791499 / 2 ^ 24`, rounded to the nearest
single-precision number. -/
theorem sqrt32_at_temp : sqrt32 ((10791499 / 16777216) ^ 3) = 8654913 / 16777216 := by
  have hlog : Int.log 2 ((10791499 / 16777216 : ℚ) ^ 3) = -2 :=
    int_log_of_bracket _ (-2) (by norm_num) (by norm_num)
  have hfloor : ⌊((10791499 / 16777216 : ℚ) ^ 3) / (2 ^ ((-2 : ℤ) / 2 - 23)) ^ 2⌋₊
      = 74907521660118 := by
    rw [Nat.floor_eq_iff (by positivity)]
    norm_num
  have hsqrt : Nat.sqrt 74907521660118 = 8654913 := by
    symm
    rw [Nat.eq_sqrt]
    norm_num
  have hpos : ¬ ((10791499 / 16777216 : ℚ) ^ 3 ≤ 0) := by norm_num
  simp only [sqrt32, hpos, if_false, hlog, hfloor, hsqrt]
  norm_num

/-- With threshold 1000, upper limit 5095 and the exponential curve, the peak 3634
maps to 66 for every C library whose `pow` returns, for the normalised value
`10791499 / 2 ^ 24` and the exponent 1.5, one of the two single-precision
numbers next to the power. -/
theorem force_map_exp_of_pow (L : Libm)
    (hp : L.pow (10791499 / 16777216) (3 / 2) = 8654913 / 16777216 ∨
      L.pow (10791499 / 16777216) (3 / 2) = 8654914 / 16777216) :
    Pad._force_map (floatCurve L) padExp 3634 = 66 := by
  have e : Pad._force_map (floatCurve L) padExp 3634 =
      (Int.toNat ⌊(if floatCurve L ForceMappingCurve.CURVE_EXP 2634 4095 ≥ 126.5 then 127
        else floatCurve L ForceMappingCurve.CURVE_EXP 2634 4095 : ℚ)⌋) % 256 := by
    simp [Pad._force_map, padExp, Pad.init]
  have h66 : rnd32 66 = 66 := by simpa using rnd32_natCast 66 (by norm_num)
  rcases hp with hp | hp
  · have hprod : rnd32 (8654913 / 16777216 * 126) = 65 := by
      have h := rnd32_of_bracket (8654913 / 16777216 * 126) 6 8519680 (by norm_num)
        (by norm_num) (by norm_num) (by norm_num)
      rw [h]
      norm_num
    have hcurve : floatCurve L ForceMappingCurve.CURVE_EXP 2634 4095 = 66 := by
      simp only [floatCurve, temp_2634_4095, hp, fmul, fadd, hprod]
      norm_num [h66]
    have hfloor : ⌊(66 : ℚ)⌋ = 66 := by
      exact_mod_cast Int.floor_natCast (α := ℚ) 66
    rw [e, hcurve]
    have hge : ¬ ((66 : ℚ) ≥ 126.5) := by norm_num
    simp only [hge, if_false, hfloor]
    rfl
  · have hprod : rnd32 (8654914 / 16777216 * 126) = 8519681 / 131072 := by
      have h := rnd32_of_bracket (8654914 / 16777216 * 126) 6 8519681 (by norm_num)
        (by norm_num) (by norm_num) (by norm_num)
      rw [h]
      norm_num
    have hsum : rnd32 (8519681 / 131072 + 1) = 8650753 / 131072 := by
      have h := rnd32_exact 8650753 (-17) (by norm_num)
      norm_num at h ⊢
      exact h
    have hcurve : floatCurve L ForceMappingCurve.CURVE_EXP 2634 4095 = 8650753 / 131072 := by
      simp only [floatCurve, temp_2634_4095, hp, fmul, fadd, hprod, hsum]
    have hfloor : ⌊(8650753 / 131072 : ℚ)⌋ = 66 := by
      rw [Int.floor_eq_iff]
      norm_num
    rw [e, hcurve]
    have hge : ¬ ((8650753 / 131072 : ℚ) ≥ 126.5) := by norm_num
    simp only [hge, if_false, hfloor]
    rfl

/-- The power `x ^ 1.5` of a real `x ≥ 0` lies between two bounds whose squares
enclose the cube of `x`. -/
theorem rpow_three_halves_bounds (x lo hi : ℝ) (hx : 0 ≤ x) (hhi : 0 ≤ hi)
    (h1 : lo ^ 2 ≤ x ^ 3) (h2 : x ^ 3 < hi ^ 2) :
    lo ≤ x ^ ((3 : ℝ) / 2) ∧ x ^ ((3 : ℝ) / 2) < hi := by
  have hs : 0 ≤ x ^ ((3 : ℝ) / 2) := Real.rpow_nonneg hx _
  have hsq : (x ^ ((3 : ℝ) / 2)) ^ 2 = x ^ 3 := by
    rw [← Real.rpow_natCast, ← Real.rpow_mul hx, ← Real.rpow_natCast]
    norm_num
  constructor
  · by_contra hc
    have hc2 : x ^ ((3 : ℝ) / 2) < lo := not_le.mp hc
    nlinarith
  · by_contra hc
    have hc2 : hi ≤ x ^ ((3 : ℝ) / 2) := not_lt.mp hc
    nlinarith

/-- The mapping of the specification at the same input, in exact arithmetic:
`126 * (2634 / 4095) ^ 1.5 + 1` lies between 65 and 66. -/
theorem specForceMap_exp_3634 :
    specForceMap ForceMappingCurve.CURVE_EXP 1000 5095 3634 = 65 := by
  have ht : max (0 : ℝ) (min 1 ((((3634 : ℕ) : ℝ) - ((1000 : ℕ) : ℝ)) /
      (((5095 : ℕ) : ℝ) - ((1000 : ℕ) : ℝ)))) = 2634 / 4095 := by
    norm_num
  have hb := rpow_three_halves_bounds (2634 / 4095) (64 / 126) (65 / 126) (by norm_num)
    (by norm_num) (by norm_num) (by norm_num)
  have hfloor : ⌊(126 * (2634 / 4095 : ℝ) ^ ((3 : ℝ) / 2) + 1)⌋ = 65 := by
    rw [Int.floor_eq_iff]
    constructor
    · push_cast; linarith [hb.1]
    · push_cast; linarith [hb.2]
  have hns : ¬ (126 * (2634 / 4095 : ℝ) ^ ((3 : ℝ) / 2) + 1 ≥ 126.5) := by
    have := hb.2
    norm_num
    linarith
  simp only [specForceMap, ht, hns, if_false, hfloor]
  rfl

/-- The code against the specification on the exponential curve. With threshold
1000 and upper limit 5095 the peak 3634 gives the normalised value
`2634 / 4095`, in single precision `10791499 / 2 ^ 24`. Its power 1.5 lies
between the neighbouring single-precision numbers `8654913 / 2 ^ 24` and
`8654914 / 2 ^ 24` and is nearest to the first, which a correctly rounded `pow`
returns; times 126 this rounds to 65, and `_force_map` returns 66. It returns 66
for every C library whose `pow` returns one of the two neighbours. In exact
arithmetic `126 * (2634 / 4095) ^ 1.5 + 1` is below 66 and the mapping of the
specification is 65. -/
theorem force_map_exp_above_exact :
    Pad._force_map (floatCurve roundedLibm) padExp 3634 = 66 ∧
    specForceMap ForceMappingCurve.CURVE_EXP 1000 5095 3634 = 65 ∧
    padExp._hit_threshold = 1000 ∧ padExp._upper_limit = 5095 ∧
    padExp._force_curve = ForceMappingCurve.CURVE_EXP ∧
    roundedLibm.pow (10791499 / 16777216) (3 / 2) = 8654913 / 16777216 ∧
    ((8654913 : ℚ) / 16777216) ^ 2 < (10791499 / 16777216) ^ 3 ∧
    ((10791499 : ℚ) / 16777216) ^ 3 < ((8654913 + 1 / 2) / 16777216) ^ 2 ∧
    (∀ L : Libm,
      (L.pow (10791499 / 16777216) (3 / 2) = 8654913 / 16777216 ∨
        L.pow (10791499 / 16777216) (3 / 2) = 8654914 / 16777216) →
      Pad._force_map (floatCurve L) padExp 3634 = 66) := by
  have hpow : roundedLibm.pow (10791499 / 16777216) (3 / 2) = 8654913 / 16777216 :=
    sqrt32_at_temp
  refine ⟨force_map_exp_of_pow roundedLibm (Or.inl hpow), specForceMap_exp_3634, rfl, rfl, rfl,
    hpow, ?_, ?_, fun L hp => force_map_exp_of_pow L hp⟩
  · norm_num
  · norm_num

/-! ## Theorems: the linear curve against exact arithmetic -/

/-- The value of the linear curve in single precision. -/
theorem floatCurve_linear (L : Libm) (a d : ℕ) (ha : a < 2 ^ 24) (hd : d < 2 ^ 24) :
    floatCurve L ForceMappingCurve.CURVE_LINEAR a d =
      rnd32 (rnd32 (rnd32 ((a : ℚ) / d) * 126) + 1) := by
  simp only [floatCurve, fdiv, fmul, fadd, rnd32_natCast a ha, rnd32_natCast d hd]

/-- An integer `k` of the binade `(2 ^ J, 2 ^ (J + 1))` whose quotient by 126 lies
below `2 ^ (J - 6)` is recovered, or exceeded, by dividing by 126 and
multiplying by 126 in single precision. -/
theorem lower_exact_binade (k : ℕ) (J M : ℤ) (hM : (M : ℚ) * 2 ^ (J - 23) = k)
    (hlo : (2 : ℚ) ^ J + 1 ≤ k) (hhi : (k : ℚ) + 1 ≤ 2 ^ (J + 1)) (hk : (k : ℚ) ≤ 125)
    (hq : (k : ℚ) / 126 < 2 ^ (J - 6)) :
    (k : ℚ) ≤ rnd32 (rnd32 ((k : ℚ) / 126) * 126) := by
  have h2 : (2 : ℚ) ≠ 0 := by norm_num
  have hu : (0 : ℚ) < 2 ^ (J - 23) := zpow_pos (by norm_num) _
  have e1 : (2 : ℚ) ^ J = 8388608 * 2 ^ (J - 23) := by
    have h23 : (8388608 : ℚ) = 2 ^ (23 : ℤ) := by norm_num
    rw [h23, ← zpow_add₀ h2]
    congr 1
    omega
  have e2 : (2 : ℚ) ^ (J + 1) = 16777216 * 2 ^ (J - 23) := by
    have h24 : (16777216 : ℚ) = 2 ^ (24 : ℤ) := by norm_num
    rw [h24, ← zpow_add₀ h2]
    congr 1
    omega
  have e3 : (2 : ℚ) ^ (J - 7 - 24) = 2 ^ (J - 23) / 256 := by
    have h8 : (256 : ℚ) = 2 ^ (8 : ℤ) := by norm_num
    rw [h8, ← zpow_sub₀ h2]
    congr 1
    omega
  have hkpos : (0 : ℚ) < (k : ℚ) / 126 := by
    have : (0 : ℚ) < 2 ^ J := zpow_pos (by norm_num) _
    apply div_pos _ (by norm_num)
    linarith
  have herr := rnd32_error ((k : ℚ) / 126) (J - 7) hkpos
    (by rw [show J - 7 + 1 = J - 6 by ring]; exact hq)
  rw [e3] at herr
  rw [e1] at hlo
  rw [e2] at hhi
  have hx1 : (k : ℚ) - 126 * (2 ^ (J - 23) / 256) ≤ rnd32 ((k : ℚ) / 126) * 126 := by
    linarith [herr.1]
  have hx2 : rnd32 ((k : ℚ) / 126) * 126 ≤ (k : ℚ) + 126 * (2 ^ (J - 23) / 256) := by
    linarith [herr.2]
  have h := rnd32_ge_of_near (rnd32 ((k : ℚ) / 126) * 126) J M
    (by rw [e1]; linarith) (by rw [e2]; linarith) (by rw [hM]; linarith)
  rw [hM] at h
  exact h

/-- An integer `k` whose quotient by 126 does not round down is recovered, or
exceeded, by dividing by 126 and multiplying by 126 in single precision. -/
theorem lower_exact_up (k : ℕ) (e M : ℤ) (hk : 0 < k) (hk2 : k < 2 ^ 24)
    (h1 : (2 : ℚ) ^ e ≤ (k : ℚ) / 126) (h2 : (k : ℚ) / 126 < 2 ^ (e + 1))
    (h3 : (M : ℚ) * 2 ^ (e - 23) - 2 ^ (e - 23) / 2 < (k : ℚ) / 126)
    (h4 : (k : ℚ) / 126 ≤ (M : ℚ) * 2 ^ (e - 23)) :
    (k : ℚ) ≤ rnd32 (rnd32 ((k : ℚ) / 126) * 126) := by
  have ht := rnd32_ge_of_near ((k : ℚ) / 126) e M h1 h2 h3
  have hx : (k : ℚ) ≤ rnd32 ((k : ℚ) / 126) * 126 := by linarith
  have hkq : (0 : ℚ) < k := by exact_mod_cast hk
  have h := rnd32_ge_of_ge (rnd32 ((k : ℚ) / 126) * 126) (k : ℤ) 0
    (by rw [abs_of_nonneg (by positivity)]; exact_mod_cast hk2) (by simpa using hkq)
    (by simpa using hx)
  simpa using h

/-- Every integer from 1 to 125 is recovered, or exceeded, by dividing by 126 and
multiplying by 126 in single precision. -/
theorem linear_lower_exact (k : ℕ) (hk1 : 1 ≤ k) (hk2 : k ≤ 125) :
    (k : ℚ) ≤ rnd32 (rnd32 ((k : ℚ) / 126) * 126) := by
  have hcases : k = 1 ∨ k = 2 ∨ k = 4 ∨ k = 8 ∨ k = 16 ∨ k = 32 ∨ k = 64 ∨ k = 63 ∨ k = 3 ∨
      (5 ≤ k ∧ k ≤ 7) ∨ (9 ≤ k ∧ k ≤ 15) ∨ (17 ≤ k ∧ k ≤ 31) ∨ (33 ≤ k ∧ k ≤ 62) ∨
      (65 ≤ k ∧ k ≤ 125) := by omega
  have hq125 : (k : ℚ) ≤ 125 := by exact_mod_cast hk2
  rcases hcases with h | h | h | h | h | h | h | h | h | h | h | h | h | h
  · subst h
    exact lower_exact_up 1 (-7) 8521761 (by norm_num) (by norm_num) (by norm_num) (by norm_num)
      (by norm_num) (by norm_num)
  · subst h
    exact lower_exact_up 2 (-6) 8521761 (by norm_num) (by norm_num) (by norm_num) (by norm_num)
      (by norm_num) (by norm_num)
  · subst h
    exact lower_exact_up 4 (-5) 8521761 (by norm_num) (by norm_num) (by norm_num) (by norm_num)
      (by norm_num) (by norm_num)
  · subst h
    exact lower_exact_up 8 (-4) 8521761 (by norm_num) (by norm_num) (by norm_num) (by norm_num)
      (by norm_num) (by norm_num)
  · subst h
    exact lower_exact_up 16 (-3) 8521761 (by norm_num) (by norm_num) (by norm_num) (by norm_num)
      (by norm_num) (by norm_num)
  · subst h
    exact lower_exact_up 32 (-2) 8521761 (by norm_num) (by norm_num) (by norm_num) (by norm_num)
      (by norm_num) (by norm_num)
  · subst h
    exact lower_exact_up 64 (-1) 8521761 (by norm_num) (by norm_num) (by norm_num) (by norm_num)
      (by norm_num) (by norm_num)
  · subst h
    exact lower_exact_up 63 (-1) 8388608 (by norm_num) (by norm_num) (by norm_num) (by norm_num)
      (by norm_num) (by norm_num)
  · subst h
    exact lower_exact_binade 3 1 (3 * 4194304) (by norm_num) (by norm_num) (by norm_num)
      (by norm_num) (by norm_num)
  · have a1 : (5 : ℚ) ≤ k := by exact_mod_cast h.1
    have a2 : (k : ℚ) ≤ 7 := by exact_mod_cast h.2
    exact lower_exact_binade k 2 ((k : ℤ) * 2097152) (by push_cast; norm_num; ring)
      (by norm_num; linarith) (by norm_num; linarith) hq125 (by norm_num; linarith)
  · have a1 : (9 : ℚ) ≤ k := by exact_mod_cast h.1
    have a2 : (k : ℚ) ≤ 15 := by exact_mod_cast h.2
    exact lower_exact_binade k 3 ((k : ℤ) * 1048576) (by push_cast; norm_num; ring)
      (by norm_num; linarith) (by norm_num; linarith) hq125 (by norm_num; linarith)
  · have a1 : (17 : ℚ) ≤ k := by exact_mod_cast h.1
    have a2 : (k : ℚ) ≤ 31 := by exact_mod_cast h.2
    exact lower_exact_binade k 4 ((k : ℤ) * 524288) (by push_cast; norm_num; ring)
      (by norm_num; linarith) (by norm_num; linarith) hq125 (by norm_num; linarith)
  · have a1 : (33 : ℚ) ≤ k := by exact_mod_cast h.1
    have a2 : (k : ℚ) ≤ 62 := by exact_mod_cast h.2
    exact lower_exact_binade k 5 ((k : ℤ) * 262144) (by push_cast; norm_num; ring)
      (by norm_num; linarith) (by norm_num; linarith) hq125 (by norm_num; linarith)
  · have a1 : (65 : ℚ) ≤ k := by exact_mod_cast h.1
    exact lower_exact_binade k 6 ((k : ℤ) * 131072) (by push_cast; norm_num; ring)
      (by norm_num; linarith) (by norm_num; linarith) hq125 (by norm_num; linarith)

/-- The linear curve in single precision reaches 126.5 when `126 * a / d + 1` does,
that is, when `251 * d ≤ 252 * a`. -/
theorem linear_sat (a d : ℕ) (hd : 0 < d) (hd2 : d ≤ 65535) (hsat : 251 * d ≤ 252 * a) :
    (253 : ℚ) / 2 ≤ rnd32 (rnd32 (rnd32 ((a : ℚ) / d) * 126) + 1) := by
  have hdq : (0 : ℚ) < d := by exact_mod_cast hd
  have hd2q : (d : ℚ) ≤ 65535 := by exact_mod_cast hd2
  have hsatq : (251 : ℚ) * d ≤ 252 * a := by exact_mod_cast hsat
  have hr : (251 : ℚ) / 252 ≤ (a : ℚ) / d := by
    rw [le_div_iff₀ hdq]
    linarith
  have hrpos : (0 : ℚ) < (a : ℚ) / d := by linarith
  have htemp : (251 : ℚ) / 252 ≤ rnd32 ((a : ℚ) / d) := by
    by_cases h1 : (1 : ℚ) ≤ (a : ℚ) / d
    · have := one_le_rnd32 _ h1
      linarith
    · have hlt : (a : ℚ) / d < 1 := not_le.mp h1
      rcases Nat.eq_or_lt_of_le hsat with he | hl
      · have heq : (a : ℚ) / d = 251 / 252 := by
          rw [div_eq_div_iff hdq.ne' (by norm_num)]
          have : (251 : ℚ) * d = 252 * a := by exact_mod_cast he
          linarith
        rw [heq]
        have h := rnd32_ge_of_near (251 / 252) (-1) 16710640 (by norm_num) (by norm_num)
          (by norm_num)
        have h2 : (251 : ℚ) / 252 ≤ (16710640 : ℤ) * 2 ^ ((-1 : ℤ) - 23) := by norm_num
        linarith
      · have hlq : (251 : ℚ) * d + 1 ≤ 252 * a := by exact_mod_cast hl
        have hinv : (1 : ℚ) / 65535 ≤ 1 / d := one_div_le_one_div_of_le hdq hd2q
        have hr2 : (251 : ℚ) / 252 + 1 / d / 252 ≤ (a : ℚ) / d := by
          have e : (251 : ℚ) / 252 + 1 / d / 252 = (251 * d + 1) / 252 / d := by
            field_simp
            ring
          rw [e, div_le_div_iff_of_pos_right hdq]
          linarith
        have herr := rnd32_error ((a : ℚ) / d) (-1) hrpos (by norm_num; exact hlt)
        norm_num at herr
        linarith [herr.1]
  have hx : (251 : ℚ) / 2 ≤ rnd32 ((a : ℚ) / d) * 126 := by linarith
  have hp := rnd32_ge_of_ge (rnd32 ((a : ℚ) / d) * 126) 251 (-1) (by norm_num) (by norm_num)
    (by norm_num; linarith)
  have hy := rnd32_ge_of_ge (rnd32 (rnd32 ((a : ℚ) / d) * 126) + 1) 253 (-1) (by norm_num)
    (by norm_num) (by norm_num at hp ⊢; linarith)
  norm_num at hy
  linarith

/-- Below saturation the linear curve in single precision lies in `[k + 1, k + 2)`
and below 126.5, where `k` is the integer part of `126 * a / d`. -/
theorem linear_unsat (a d k : ℕ) (ha : 0 < a) (hd2 : d ≤ 65535) (hns : 252 * a < 251 * d)
    (hk1 : k * d ≤ 126 * a) (hk2 : 126 * a < (k + 1) * d) :
    (k : ℚ) + 1 ≤ rnd32 (rnd32 (rnd32 ((a : ℚ) / d) * 126) + 1) ∧
    rnd32 (rnd32 (rnd32 ((a : ℚ) / d) * 126) + 1) < (k : ℚ) + 2 ∧
    rnd32 (rnd32 (rnd32 ((a : ℚ) / d) * 126) + 1) < 253 / 2 := by
  have hd : 0 < d := by omega
  have hk125 : k ≤ 125 := by
    by_contra hc
    have h126 : 126 ≤ k := by omega
    have : 126 * d ≤ k * d := Nat.mul_le_mul_right d h126
    omega
  have hdq : (0 : ℚ) < d := by exact_mod_cast hd
  have hd2q : (d : ℚ) ≤ 65535 := by exact_mod_cast hd2
  have haq : (1 : ℚ) ≤ a := by exact_mod_cast ha
  have hkq : (k : ℚ) ≤ 125 := by exact_mod_cast hk125
  have hk0 : (0 : ℚ) ≤ k := Nat.cast_nonneg k
  have hnsq : (252 : ℚ) * a + 1 ≤ 251 * d := by exact_mod_cast hns
  have hk1q : (k : ℚ) * d ≤ 126 * a := by exact_mod_cast hk1
  have hk2q : (126 : ℚ) * a + 1 ≤ (k + 1) * d := by exact_mod_cast hk2
  have hinv : (1 : ℚ) / 65535 ≤ 1 / d := one_div_le_one_div_of_le hdq hd2q
  -- the exact quotient
  have r1 : (1 : ℚ) / d ≤ (a : ℚ) / d := (div_le_div_iff_of_pos_right hdq).mpr haq
  have r2 : (252 : ℚ) * ((a : ℚ) / d) + 1 / d ≤ 251 := by
    have e : (252 : ℚ) * ((a : ℚ) / d) + 1 / d = (252 * a + 1) / d := by
      field_simp
    rw [e, div_le_iff₀ hdq]
    exact hnsq
  have r3 : (k : ℚ) ≤ 126 * ((a : ℚ) / d) := by
    have e : (126 : ℚ) * ((a : ℚ) / d) = 126 * a / d := by ring
    rw [e, le_div_iff₀ hdq]
    exact hk1q
  have r4 : (126 : ℚ) * ((a : ℚ) / d) + 1 / d ≤ k + 1 := by
    have e : (126 : ℚ) * ((a : ℚ) / d) + 1 / d = (126 * a + 1) / d := by
      field_simp
    rw [e, div_le_iff₀ hdq]
    exact hk2q
  have hrpos : (0 : ℚ) < (a : ℚ) / d := by linarith
  have hrlt : (a : ℚ) / d < 1 := by linarith
  -- the three roundings
  have herr1 := rnd32_error ((a : ℚ) / d) (-1) hrpos (by norm_num; exact hrlt)
  norm_num at herr1
  have hxpos : (0 : ℚ) < rnd32 ((a : ℚ) / d) * 126 := by linarith [herr1.1]
  have hxlt : rnd32 ((a : ℚ) / d) * 126 < 2 ^ ((6 : ℤ) + 1) := by
    norm_num
    linarith [herr1.2]
  have herr2 := rnd32_error (rnd32 ((a : ℚ) / d) * 126) 6 hxpos hxlt
  norm_num at herr2
  have hppos : (0 : ℚ) < rnd32 (rnd32 ((a : ℚ) / d) * 126) + 1 := by linarith [herr2.1]
  have hplt : rnd32 (rnd32 ((a : ℚ) / d) * 126) + 1 < 2 ^ ((6 : ℤ) + 1) := by
    norm_num
    linarith [herr1.2, herr2.2]
  have herr3 := rnd32_error (rnd32 (rnd32 ((a : ℚ) / d) * 126) + 1) 6 hppos hplt
  norm_num at herr3
  -- the product does not fall below k
  have hprod : (k : ℚ) ≤ rnd32 (rnd32 ((a : ℚ) / d) * 126) := by
    rcases Nat.eq_zero_or_pos k with hz | hkpos
    · rw [hz]
      simpa using rnd32_nonneg _ hxpos.le
    · rcases Nat.eq_or_lt_of_le hk1 with he | hl
      · have heq : (a : ℚ) / d = (k : ℚ) / 126 := by
          rw [div_eq_div_iff hdq.ne' (by norm_num)]
          have : (k : ℚ) * d = 126 * a := by exact_mod_cast he
          linarith
        rw [heq]
        exact linear_lower_exact k hkpos hk125
      · have hlq : (k : ℚ) * d + 1 ≤ 126 * a := by exact_mod_cast hl
        have r5 : (k : ℚ) + 1 / d ≤ 126 * ((a : ℚ) / d) := by
          have e1 : (126 : ℚ) * ((a : ℚ) / d) = 126 * a / d := by ring
          have e2 : (k : ℚ) + 1 / d = (k * d + 1) / d := by
            field_simp
          rw [e1, e2, div_le_div_iff_of_pos_right hdq]
          exact hlq
        have hx : (k : ℚ) ≤ rnd32 ((a : ℚ) / d) * 126 := by linarith [herr1.1]
        have hkq0 : (0 : ℚ) < k := by exact_mod_cast hkpos
        have h := rnd32_ge_of_ge (rnd32 ((a : ℚ) / d) * 126) (k : ℤ) 0
          (by rw [abs_of_nonneg (by positivity)]; exact_mod_cast (by omega : k < 2 ^ 24))
          (by simpa using hkq0) (by simpa using hx)
        simpa using h
  have hlow : (k : ℚ) + 1 ≤ rnd32 (rnd32 (rnd32 ((a : ℚ) / d) * 126) + 1) := by
    have h := rnd32_ge_of_ge (rnd32 (rnd32 ((a : ℚ) / d) * 126) + 1) ((k : ℤ) + 1) 0
      (by rw [abs_of_nonneg (by positivity)]; exact_mod_cast (by omega : (k : ℤ) + 1 < 2 ^ 24))
      (by push_cast; simp only [zpow_zero, mul_one]; linarith)
      (by push_cast; simp only [zpow_zero, mul_one]; linarith)
    push_cast at h
    simpa using h
  have hup : rnd32 (rnd32 (rnd32 ((a : ℚ) / d) * 126) + 1) < (k : ℚ) + 2 := by
    linarith [herr1.2, herr2.2, herr3.2]
  refine ⟨hlow, hup, ?_⟩
  rcases Nat.lt_or_ge k 125 with hk | hk
  · have : (k : ℚ) + 1 ≤ 125 := by exact_mod_cast hk
    linarith
  · have hk' : k = 125 := by omega
    have hkq' : (k : ℚ) = 125 := by exact_mod_cast hk'
    have hx64 : (2 : ℚ) ^ (6 : ℤ) ≤ rnd32 ((a : ℚ) / d) * 126 := by
      norm_num
      linarith [herr1.1]
    have hp := rnd32_le_of_near (rnd32 ((a : ℚ) / d) * 126) 6 16449535 hx64 hxlt
      (by norm_num; linarith [herr1.2])
    have hy := rnd32_le_of_le (rnd32 (rnd32 ((a : ℚ) / d) * 126) + 1) 16580607 (-17)
      (by norm_num) hppos (by norm_num at hp ⊢; linarith)
    norm_num at hy
    linarith

/-- The linear curve of `_force_map` in closed form: 1 up to the threshold, 127 from
`126 * a / d + 1 ≥ 126.5` on, where `a` is the peak above the threshold and `d`
the calibrated range, and the integer part of `126 * a / d` plus 1 in between. -/
theorem force_map_linear_value (L : Libm) (p : Pad) (peak : ℕ)
    (hcurve : p._force_curve = ForceMappingCurve.CURVE_LINEAR)
    (hcal : p._hit_threshold < p._upper_limit) (hu : p._upper_limit ≤ 65535)
    (hpk : peak ≤ 65535) :
    Pad._force_map (floatCurve L) p peak =
      if peak ≤ p._hit_threshold then 1
      else if 251 * (p._upper_limit - p._hit_threshold) ≤ 252 * (peak - p._hit_threshold) then 127
      else 126 * (peak - p._hit_threshold) / (p._upper_limit - p._hit_threshold) + 1 := by
  by_cases h1 : peak ≤ p._hit_threshold
  · simp [Pad._force_map, h1]
  have hdelta : (p._upper_limit + 65536 - p._hit_threshold % 65536) % 65536 =
      p._upper_limit - p._hit_threshold := by omega
  have hd : 0 < p._upper_limit - p._hit_threshold := by omega
  have hd2 : p._upper_limit - p._hit_threshold ≤ 65535 := by omega
  have ha : 0 < peak - p._hit_threshold := by omega
  have hne : ¬ (p._upper_limit - p._hit_threshold ≤ 0) := by omega
  have e : Pad._force_map (floatCurve L) p peak =
      (Int.toNat ⌊(if rnd32 (rnd32 (rnd32 (((peak - p._hit_threshold : ℕ) : ℚ) /
          ((p._upper_limit - p._hit_threshold : ℕ) : ℚ)) * 126) + 1) ≥ 126.5 then 127
        else rnd32 (rnd32 (rnd32 (((peak - p._hit_threshold : ℕ) : ℚ) /
          ((p._upper_limit - p._hit_threshold : ℕ) : ℚ)) * 126) + 1) : ℚ)⌋) % 256 := by
    simp only [Pad._force_map, h1, if_false, hdelta, hne, hcurve]
    rw [floatCurve_linear L _ _ (by omega) (by omega)]
  rw [e, if_neg h1]
  generalize peak - p._hit_threshold = a at ha ⊢
  generalize p._upper_limit - p._hit_threshold = d at hd hd2 ⊢
  by_cases hsat : 251 * d ≤ 252 * a
  · have hy := linear_sat a d hd hd2 hsat
    have hge : rnd32 (rnd32 (rnd32 ((a : ℚ) / d) * 126) + 1) ≥ 126.5 := by
      norm_num
      linarith
    have hfloor : ⌊(127 : ℚ)⌋ = 127 := by
      exact_mod_cast Int.floor_natCast (α := ℚ) 127
    rw [if_pos hge, if_pos hsat, hfloor]
    rfl
  · have hk1 : 126 * a / d * d ≤ 126 * a := Nat.div_mul_le_self _ _
    have hk2 : 126 * a < (126 * a / d + 1) * d :=
      (Nat.div_lt_iff_lt_mul hd).mp (Nat.lt_succ_self (126 * a / d))
    generalize 126 * a / d = k at hk1 hk2 ⊢
    obtain ⟨b1, b2, b3⟩ := linear_unsat a d k ha hd2 (by omega) hk1 hk2
    have hlt : ¬ (rnd32 (rnd32 (rnd32 ((a : ℚ) / d) * 126) + 1) ≥ 126.5) := by
      norm_num
      linarith
    have hfloor : ⌊rnd32 (rnd32 (rnd32 ((a : ℚ) / d) * 126) + 1)⌋ = ((k + 1 : ℕ) : ℤ) := by
      rw [Int.floor_eq_iff]
      push_cast
      constructor <;> linarith
    have hk125 : k ≤ 125 := by
      by_contra hc
      have h126 : 126 ≤ k := by omega
      have : 126 * d ≤ k * d := Nat.mul_le_mul_right d h126
      omega
    rw [if_neg hlt, if_neg hsat, hfloor, Int.toNat_natCast]
    omega

/-- The mapping of the specification for the linear curve, in closed form. -/
theorem specForceMap_linear_value (hit upper peak : ℕ) (hcal : hit < upper) :
    specForceMap ForceMappingCurve.CURVE_LINEAR hit upper peak =
      if peak ≤ hit then 1
      else if 251 * (upper - hit) ≤ 252 * (peak - hit) then 127
      else 126 * (peak - hit) / (upper - hit) + 1 := by
  have hdpos : (0 : ℝ) < (upper : ℝ) - (hit : ℝ) := by
    have : (hit : ℝ) < upper := by exact_mod_cast hcal
    linarith
  by_cases h1 : peak ≤ hit
  · have hle : ((peak : ℝ) - (hit : ℝ)) / ((upper : ℝ) - (hit : ℝ)) ≤ 0 := by
      apply div_nonpos_of_nonpos_of_nonneg _ hdpos.le
      have : (peak : ℝ) ≤ hit := by exact_mod_cast h1
      linarith
    have ht : max (0 : ℝ) (min 1 (((peak : ℝ) - (hit : ℝ)) / ((upper : ℝ) - (hit : ℝ)))) = 0 := by
      apply max_eq_left
      exact le_trans (min_le_right _ _) hle
    have hns : ¬ ((126 : ℝ) * 0 + 1 ≥ 126.5) := by norm_num
    have hfloor : ⌊((126 : ℝ) * 0 + 1)⌋ = 1 := by
      norm_num
    simp only [specForceMap, ht, hns, if_false, hfloor, if_pos h1]
    rfl
  · have hpk : hit ≤ peak := by omega
    have hup : hit ≤ upper := by omega
    have ha : 0 < peak - hit := by omega
    have hd : 0 < upper - hit := by omega
    have ea : (peak : ℝ) - (hit : ℝ) = ((peak - hit : ℕ) : ℝ) := by
      rw [Nat.cast_sub hpk]
    have ed : (upper : ℝ) - (hit : ℝ) = ((upper - hit : ℕ) : ℝ) := by
      rw [Nat.cast_sub hup]
    rw [if_neg h1]
    simp only [specForceMap, ea, ed]
    generalize peak - hit = a at ha ⊢
    generalize upper - hit = d at hd ⊢
    have hdq : (0 : ℝ) < d := by exact_mod_cast hd
    have haq : (0 : ℝ) < a := by exact_mod_cast ha
    have hrpos : (0 : ℝ) < (a : ℝ) / d := div_pos haq hdq
    by_cases hsat : 251 * d ≤ 252 * a
    · have hsatq : (251 : ℝ) * d ≤ 252 * a := by exact_mod_cast hsat
      have hr : (251 : ℝ) / 252 ≤ (a : ℝ) / d := by
        rw [le_div_iff₀ hdq]
        linarith
      have hmin : (251 : ℝ) / 252 ≤ min 1 ((a : ℝ) / d) := le_min (by norm_num) hr
      have hmax : (251 : ℝ) / 252 ≤ max 0 (min 1 ((a : ℝ) / d)) :=
        le_trans hmin (le_max_right _ _)
      have hge : 126 * max (0 : ℝ) (min 1 ((a : ℝ) / d)) + 1 ≥ 126.5 := by
        norm_num
        linarith
      rw [if_pos hge, if_pos hsat]
    · have hnsq : (252 : ℝ) * a < 251 * d := by
        have : 252 * a < 251 * d := by omega
        exact_mod_cast this
      have hr : (a : ℝ) / d < 251 / 252 := by
        rw [div_lt_iff₀ hdq]
        linarith
      have ht : max (0 : ℝ) (min 1 ((a : ℝ) / d)) = (a : ℝ) / d := by
        rw [min_eq_right (by linarith), max_eq_right hrpos.le]
      have hlt : ¬ (126 * ((a : ℝ) / d) + 1 ≥ 126.5) := by
        norm_num
        linarith
      have hk1 : 126 * a / d * d ≤ 126 * a := Nat.div_mul_le_self _ _
      have hk2 : 126 * a < (126 * a / d + 1) * d :=
        (Nat.div_lt_iff_lt_mul hd).mp (Nat.lt_succ_self (126 * a / d))
      generalize 126 * a / d = k at hk1 hk2 ⊢
      have hk1q : (k : ℝ) * d ≤ 126 * a := by exact_mod_cast hk1
      have hk2q : (126 : ℝ) * a < ((k : ℝ) + 1) * d := by exact_mod_cast hk2
      have hfloor : ⌊126 * ((a : ℝ) / d) + 1⌋ = ((k + 1 : ℕ) : ℤ) := by
        rw [Int.floor_eq_iff]
        have e : (126 : ℝ) * ((a : ℝ) / d) = 126 * a / d := by ring
        have e1 : (k : ℝ) ≤ 126 * a / d := by
          rw [le_div_iff₀ hdq]
          exact hk1q
        have e2 : (126 : ℝ) * a / d < (k : ℝ) + 1 := by
          rw [div_lt_iff₀ hdq]
          exact hk2q
        push_cast
        rw [e]
        constructor <;> linarith
      rw [ht, if_neg hlt, if_neg hsat, hfloor, Int.toNat_natCast]

/-- C4. For every pad with the linear curve and `_upper_limit > _hit_threshold` (both
`uint16_t`) and every 16-bit peak, `_force_map(peak)`, in which the division,
the multiplication and the addition are each rounded to single precision,
equals the mapping of the specification computed in exact real arithmetic:
with `t = clamp01((peak - hitThreshold) / (upperLimit - hitThreshold))` and
`y = 126 * t + 1`, the result is 127 if `y ≥ 126.5` and the integer part of `y`
otherwise. The common value is 1 up to the threshold, 127 when
`251 * (upperLimit - hitThreshold) ≤ 252 * (peak - hitThreshold)`, and the
integer quotient `126 * (peak - hitThreshold) / (upperLimit - hitThreshold)`
plus 1 in between. -/
theorem force_map_linear_exact (L : Libm) (p : Pad) (peak : ℕ)
    (hcurve : p._force_curve = ForceMappingCurve.CURVE_LINEAR)
    (hcal : p._hit_threshold < p._upper_limit) (hu : p._upper_limit ≤ 65535)
    (hpk : peak ≤ 65535) :
    Pad._force_map (floatCurve L) p peak =
      specForceMap ForceMappingCurve.CURVE_LINEAR p._hit_threshold p._upper_limit peak ∧
    Pad._force_map (floatCurve L) p peak =
      (if peak ≤ p._hit_threshold then 1
       else if 251 * (p._upper_limit - p._hit_threshold) ≤ 252 * (peak - p._hit_threshold)
         then 127
       else 126 * (peak - p._hit_threshold) / (p._upper_limit - p._hit_threshold) + 1) := by
  have h1 := force_map_linear_value L p peak hcurve hcal hu hpk
  have h2 := specForceMap_linear_value p._hit_threshold p._upper_limit peak hcal
  exact ⟨h1.trans h2.symm, h1⟩

/-- Witness for C4: the pad `OpenHiHat` (threshold 1333, upper limit 2084, linear
curve) with the peak 1700: code and specification give 62. -/
theorem force_map_linear_exact_witness :
    padOpenHiHat._force_curve = ForceMappingCurve.CURVE_LINEAR ∧
    padOpenHiHat._hit_threshold < padOpenHiHat._upper_limit ∧
    Pad._force_map (floatCurve tangentLibm) padOpenHiHat 1700 =
      specForceMap ForceMappingCurve.CURVE_LINEAR 1333 2084 1700 ∧
    Pad._force_map (floatCurve tangentLibm) padOpenHiHat 1700 = 62 :=
  ⟨rfl, by decide,
    (force_map_linear_exact tangentLibm padOpenHiHat 1700 rfl (by decide) (by decide)
      (by decide)).1,
    (force_map_linear_exact tangentLibm padOpenHiHat 1700 rfl (by decide) (by decide)
      (by decide)).2.trans (by decide)⟩
